import Mathlib

/-!
# Annotation flattening and annotation store of the document-signature app

A shallow embedding of `server/routes/documentRoutes.js` (the upload route, the annotation
routes and the finalize route), of the schema in `server/models/Document.js`, and of
`my-app/app/components/PdfViewer.jsx`: the callback that drives finalization, the mode
buttons and the gesture handlers of the overlay.

JavaScript numbers are embedded as rationals (exact arithmetic), strings as `String`,
`undefined`/`null` as `none`.  Calls into pdf-lib that draw on a page are embedded as the
draw operation they record on that page.
-/

namespace DocuSign

/-! ## Data model (`server/models/Document.js`) -/

/-- Raw bytes of a file or of a decoded image. -/
abbrev Bytes := List Nat

/-- The part of the Fabric.js object JSON (`objectData`, schema type `Mixed`) that the
finalize route reads: `objectData.text` and `objectData.fontSize`. -/
structure ObjectData where
  text : Option String
  fontSize : Option ℚ
deriving DecidableEq, Repr

/-- One entry of `annotationSchema`. -/
structure Annotation where
  id : String
  type : String
  page : ℚ
  objectData : Option ObjectData
  x : ℚ
  y : ℚ
  width : ℚ
  height : ℚ
  imageData : Option String
deriving DecidableEq, Repr

/-! ## pdf-lib objects -/

/-- The members of pdf-lib's `StandardFonts` that matter here. -/
inductive StandardFonts
  | Courier
  | Helvetica
  | TimesRoman
deriving DecidableEq, Repr

/-- A colour built by pdf-lib's `rgb(r, g, b)`. -/
structure Color where
  red : ℚ
  green : ℚ
  blue : ℚ
deriving DecidableEq, Repr

/-- The colour `rgb(r, g, b)`. -/
def rgb (r g b : ℚ) : Color := ⟨r, g, b⟩

/-- Which embedder produced an image: `embedPng` or `embedJpg`. -/
inductive ImageFormat
  | png
  | jpg
deriving DecidableEq, Repr

/-- An image embedded in the PDF document (`PDFImage`). -/
structure PdfImage where
  format : ImageFormat
  bytes : Bytes
deriving DecidableEq, Repr

/-- A draw call recorded on a page: `page.drawText(text, {x, y, font, size, color, maxWidth})`
or `page.drawImage(image, {x, y, width, height})`. -/
inductive DrawOp
  | drawText (text : String) (x y : ℚ) (font : StandardFonts) (size : ℚ) (color : Color)
      (maxWidth : ℚ)
  | drawImage (image : PdfImage) (x y width height : ℚ)
deriving DecidableEq, Repr

/-- A page of the loaded PDF: its native size and the draw operations applied to it so far,
oldest first. -/
structure PdfPage where
  width : ℚ
  height : ℚ
  drawn : List DrawOp
deriving DecidableEq, Repr

/-- The call `page.drawText(text, options)`. -/
def PdfPage.drawText (page : PdfPage) (text : String) (x y : ℚ) (font : StandardFonts)
    (size : ℚ) (color : Color) (maxWidth : ℚ) : PdfPage :=
  { page with drawn := page.drawn ++ [DrawOp.drawText text x y font size color maxWidth] }

/-- The call `page.drawImage(image, options)`. -/
def PdfPage.drawImage (page : PdfPage) (image : PdfImage) (x y width height : ℚ) : PdfPage :=
  { page with drawn := page.drawn ++ [DrawOp.drawImage image x y width height] }

/-- The library behaviour the finalize loop depends on: base64 decoding by `Buffer.from`,
whether `embedPng` / `embedJpg` accept the decoded bytes (they throw otherwise), and whether
`page.drawText` throws for a text drawn in Helvetica with a given size and maximum width
(it does when the font cannot encode a character of the text). -/
structure ImageLib where
  base64Decode : String → Bytes
  pngDecodes : Bytes → Bool
  jpgDecodes : Bytes → Bool
  textThrows : String → ℚ → ℚ → Bool

/-! ## JavaScript string helpers -/

/-- Worker of `jsSplit`: `cur` holds the current piece, reversed. -/
def splitAux (sep : Char) : List Char → List Char → List (List Char)
  | [], cur => [cur.reverse]
  | c :: cs, cur =>
    if c = sep then cur.reverse :: splitAux sep cs [] else splitAux sep cs (c :: cur)

/-- The call `s.split(sep)` for a one-character separator. -/
def jsSplit (s : String) (sep : Char) : List String :=
  (splitAux sep s.data []).map String.mk

/-- The expression `annotation.imageData.split(":")[1].split(";")[0]`; `none` when
`split(":")[1]` is `undefined`, in which case the expression throws. -/
def dataUrlMimeType (imageData : String) : Option String :=
  match (jsSplit imageData ':')[1]? with
  | none => none
  | some rest => some ((jsSplit rest ';').headD "")

/-- The expression `annotation.imageData.split(",")[1]`; `none` for `undefined`. -/
def dataUrlPayload (imageData : String) : Option String :=
  (jsSplit imageData ',')[1]?

/-! ## The finalize loop (`router.post("/:documentId/finalize")`, lines 169-248) -/

/-- How the `try` block of the `placed_signature` branch ends before any drawing. -/
inductive EmbedOutcome
  | embedded (image : PdfImage)
  | unsupported (mimeType : String)
  | threw
deriving DecidableEq, Repr

/-- The `try` block up to and including `embedPng` / `embedJpg`: the MIME type is read
first, then the payload is decoded, then the embedder is chosen by MIME type; any other
MIME type reaches `continue`, every exception reaches the `catch`. -/
def embedSignatureImage (lib : ImageLib) (imageData : String) : EmbedOutcome :=
  match dataUrlMimeType imageData with
  | none => EmbedOutcome.threw
  | some mimeType =>
    match dataUrlPayload imageData with
    | none => EmbedOutcome.threw
    | some payload =>
      let imageBytes := lib.base64Decode payload
      if mimeType = "image/png" then
        if lib.pngDecodes imageBytes then
          EmbedOutcome.embedded ⟨ImageFormat.png, imageBytes⟩
        else EmbedOutcome.threw
      else if mimeType = "image/jpeg" then
        if lib.jpgDecodes imageBytes then
          EmbedOutcome.embedded ⟨ImageFormat.jpg, imageBytes⟩
        else EmbedOutcome.threw
      else EmbedOutcome.unsupported mimeType

/-- The value of `annotation.objectData && annotation.objectData.text` when it is truthy:
the object is present and its text is a non-empty string. -/
def truthyText (ann : Annotation) : Option String :=
  match ann.objectData with
  | none => none
  | some objectData =>
    match objectData.text with
    | none => none
    | some text => if text = "" then none else some text

/-- The value of a string-or-undefined expression when it is truthy (a non-empty string). -/
def truthyString : Option String → Option String
  | none => none
  | some s => if s = "" then none else some s

/-- The expression `annotation.objectData.fontSize || 16`. -/
def fontSizeOrDefault (objectData : Option ObjectData) : ℚ :=
  match objectData with
  | none => 16
  | some od =>
    match od.fontSize with
    | none => 16
    | some size => if size = 0 then 16 else size

/-- The expression `page.getHeight() - (annotation.y + annotation.height)`. -/
def yFromBottom (page : PdfPage) (ann : Annotation) : ℚ :=
  page.height - (ann.y + ann.height)

/-- Whether the body of `for (const annotation of annotationsOnPage)` throws for this
annotation: the call of `page.drawText` (line 190) is outside the inner `try`, so when it
throws, both loops are left for the `catch` of the route.  Whatever the `placed_signature`
branch throws is caught by the inner `try`. -/
def drawTextThrows (lib : ImageLib) (ann : Annotation) : Bool :=
  match (if ann.type = "text_field" then truthyText ann else none) with
  | some text => lib.textThrows text (fontSizeOrDefault ann.objectData) ann.width
  | none => false

/-- The page after the body of `for (const annotation of annotationsOnPage)` when the body
does not throw (see `drawTextThrows`): the `if` draws the text when the type is `text_field`
and the text is truthy, the `else if` embeds and draws the image when the type is
`placed_signature` and the image data is truthy, and nothing is drawn otherwise. -/
def drawOnPage (lib : ImageLib) (page : PdfPage) (ann : Annotation) : PdfPage :=
  match (if ann.type = "text_field" then truthyText ann else none) with
  | some text =>
    page.drawText text ann.x (yFromBottom page ann) StandardFonts.Helvetica
      (fontSizeOrDefault ann.objectData) (rgb 0 0 0) ann.width
  | none =>
    match (if ann.type = "placed_signature" then truthyString ann.imageData else none) with
    | some imageData =>
      match embedSignatureImage lib imageData with
      | EmbedOutcome.embedded image =>
        let imgWidth := ann.width
        let imgHeight := ann.height
        page.drawImage image ann.x (yFromBottom page ann) imgWidth imgHeight
      | EmbedOutcome.unsupported _ => page
      | EmbedOutcome.threw => page
    | none => page

/-- The filter `document.annotations.filter((ann) => ann.page === pageNumberForAnnotations)`. -/
def annotationsOnPage (annotations : List Annotation) (pageNumber : ℚ) : List Annotation :=
  annotations.filter (fun ann => ann.page = pageNumber)

/-- The outer loop from index `i` on: `pages` are `pdfDoc.getPages()[i], [i+1], ...`. -/
def flattenFrom (lib : ImageLib) (annotations : List Annotation) :
    Nat → List PdfPage → List PdfPage
  | _, [] => []
  | i, page :: rest =>
    (annotationsOnPage annotations ((i : ℚ) + 1)).foldl (drawOnPage lib) page
      :: flattenFrom lib annotations (i + 1) rest

/-- The whole loop `for (let i = 0; i < pdfDoc.getPages().length; i++)`, when no body
throws. -/
def flattenPages (lib : ImageLib) (annotations : List Annotation) (pages : List PdfPage) :
    List PdfPage :=
  flattenFrom lib annotations 0 pages

/-- The inner loop on one page as it runs: `none` when a body throws, which ends the loop;
otherwise the page with the draws of every annotation of the list, in order. -/
def drawAllOnPage (lib : ImageLib) : List Annotation → PdfPage → Option PdfPage
  | [], page => some page
  | ann :: rest, page =>
    if drawTextThrows lib ann then none
    else drawAllOnPage lib rest (drawOnPage lib page ann)

/-- The outer loop from index `i` on as it runs: `none` when a body throws on some page. -/
def finalizeLoopFrom (lib : ImageLib) (annotations : List Annotation) :
    Nat → List PdfPage → Option (List PdfPage)
  | _, [] => some []
  | i, page :: rest =>
    match drawAllOnPage lib (annotationsOnPage annotations ((i : ℚ) + 1)) page with
    | none => none
    | some flat =>
      match finalizeLoopFrom lib annotations (i + 1) rest with
      | none => none
      | some flats => some (flat :: flats)

/-- The two loops of the finalize route as they run: the flattened pages, or `none` when
`page.drawText` throws for an annotation of some page. -/
def finalizeLoop (lib : ImageLib) (annotations : List Annotation) (pages : List PdfPage) :
    Option (List PdfPage) :=
  finalizeLoopFrom lib annotations 0 pages

/-! ## Server state and routes (`server/routes/documentRoutes.js`) -/

/-- A record of the `Document` collection (`documentSchema`), sharing fields left out. -/
structure DocumentRecord where
  _id : String
  fileName : String
  filePath : String
  owner : String
  annotations : List Annotation
  finalizedPath : Option String
  isFinalized : Bool
deriving DecidableEq, Repr

/-- The server: the `Document` collection and the files on disk (path and content). -/
structure ServerState where
  documents : List DocumentRecord
  files : List (String × Bytes)
deriving DecidableEq, Repr

/-- The body of a JSON response. -/
inductive Body
  | message (message : String)
  | annotationsSaved (message : String) (annotations : List Annotation)
  | annotationList (annotations : List Annotation)
  | finalized (message finalizedUrl documentId : String)
  | uploaded (message fileName filePath documentId : String)
deriving DecidableEq, Repr

/-- An HTTP response: `res.status(status).json(body)`. -/
structure Response where
  status : Nat
  body : Body
deriving DecidableEq, Repr

/-- What the routes take from their libraries and from the process: pdf-lib
(`PDFDocument.load` gives the page sizes or throws, `pdfDoc.save` gives bytes or throws),
`path.join`, `__dirname`, whether `document.save()` succeeds, and `jwt.verify`. -/
structure Env where
  lib : ImageLib
  loadPdf : Bytes → Option (List (ℚ × ℚ))
  savePdf : Bytes → List PdfPage → Option Bytes
  pathJoin : List String → String
  dirname : String
  dbSaveOk : DocumentRecord → Bool
  jwtVerify : String → Option String

/-- The query `Document.findOne({ _id: documentId, owner: userId })`. -/
def findOne (documents : List DocumentRecord) (documentId userId : String) :
    Option DocumentRecord :=
  documents.find? (fun d => d._id = documentId ∧ d.owner = userId)

/-- The effect of a successful `document.save()` on the collection. -/
def saveDocument (documents : List DocumentRecord) (document : DocumentRecord) :
    List DocumentRecord :=
  documents.map (fun d => if d._id = document._id then document else d)

/-- The calls `fs.existsSync(path)` and `fs.readFileSync(path)`: `none` when absent. -/
def readFile (files : List (String × Bytes)) (path : String) : Option Bytes :=
  (files.find? (fun f => f.1 = path)).map (fun f => f.2)

/-- The call `fs.writeFileSync(path, bytes)`. -/
def writeFile (files : List (String × Bytes)) (path : String) (bytes : Bytes) :
    List (String × Bytes) :=
  (path, bytes) :: files.filter (fun f => f.1 ≠ path)

/-- The handler of `router.post("/:documentId/annotations")` after `verifyToken`. -/
def saveAnnotationsRoute (env : Env) (st : ServerState) (userId documentId : String)
    (annotations : List Annotation) : Response × ServerState :=
  match findOne st.documents documentId userId with
  | none => (⟨404, Body.message "Document not found or you do not have permission."⟩, st)
  | some document =>
    let document := { document with annotations := annotations }
    if env.dbSaveOk document then
      (⟨200, Body.annotationsSaved "Annotations saved successfully" document.annotations⟩,
        { st with documents := saveDocument st.documents document })
    else (⟨500, Body.message "Server error while saving annotations."⟩, st)

/-- The handler of `router.get("/:documentId/annotations")` after `verifyToken`. -/
def getAnnotationsRoute (st : ServerState) (userId documentId : String) :
    Response × ServerState :=
  match findOne st.documents documentId userId with
  | none => (⟨404, Body.message "Document not found or you do not have permission."⟩, st)
  | some document => (⟨200, Body.annotationList document.annotations⟩, st)

/-- The relative path `path.join("uploads", newFileName)` of the finalized artifact, with
`newFileName` the file name prefixed by `finalized_`. -/
def newFilePath (env : Env) (document : DocumentRecord) : String :=
  env.pathJoin ["uploads", "finalized_" ++ document.fileName]

/-- The handler of `router.post("/:documentId/finalize")` after `verifyToken`. -/
def finalizeRoute (env : Env) (st : ServerState) (userId documentId : String) :
    Response × ServerState :=
  match findOne st.documents documentId userId with
  | none => (⟨404, Body.message "Document not found or you do not have permission."⟩, st)
  | some document =>
    let originalPdfPath := env.pathJoin [env.dirname, "..", document.filePath]
    match readFile st.files originalPdfPath with
    | none => (⟨404, Body.message "Original PDF file not found on server."⟩, st)
    | some existingPdfBytes =>
      match env.loadPdf existingPdfBytes with
      | none => (⟨500, Body.message "Server error during document finalization."⟩, st)
      | some sizes =>
        match finalizeLoop env.lib document.annotations
            (sizes.map (fun size => ⟨size.1, size.2, []⟩)) with
        | none => (⟨500, Body.message "Server error during document finalization."⟩, st)
        | some pages =>
          match env.savePdf existingPdfBytes pages with
          | none => (⟨500, Body.message "Server error during document finalization."⟩, st)
          | some flattenedPdfBytes =>
            let newPath := newFilePath env document
            let absoluteNewFilePath := env.pathJoin [env.dirname, "..", newPath]
            let files := writeFile st.files absoluteNewFilePath flattenedPdfBytes
            let updated : DocumentRecord :=
              { document with finalizedPath := some ("/" ++ newPath), isFinalized := true }
            if env.dbSaveOk updated then
              (⟨200, Body.finalized "Document finalized successfully!"
                  ("http://localhost:5000/" ++ newPath) updated._id⟩,
                { documents := saveDocument st.documents updated, files := files })
            else
              (⟨500, Body.message "Server error during document finalization."⟩,
                { st with files := files })

/-- Whether `small` is an initial segment of `big` (`String.prototype.startsWith`). -/
def startsWithChars : List Char → List Char → Bool
  | [], _ => true
  | _ :: _, [] => false
  | c :: cs, d :: ds => c = d && startsWithChars cs ds

/-- The middleware `verifyToken` (`server/middleware/authMiddleware.js`): the id of the
authenticated user, or the 401 response. -/
def verifyToken (env : Env) (authorization : Option String) : Except Response String :=
  match truthyString authorization with
  | none => Except.error ⟨401, Body.message "No token, authorization denied"⟩
  | some token =>
    if startsWithChars "Bearer ".data token.data then
      match env.jwtVerify (((jsSplit token ' ')[1]?).getD "") with
      | some userId => Except.ok userId
      | none => Except.error ⟨401, Body.message "Token is not valid"⟩
    else
      Except.error
        ⟨401, Body.message "Token format is incorrect, must be \"Bearer <token>\""⟩

/-- A route behind `verifyToken`. -/
def authenticated (env : Env) (authorization : Option String) (st : ServerState)
    (handler : String → Response × ServerState) : Response × ServerState :=
  match verifyToken env authorization with
  | Except.error response => (response, st)
  | Except.ok userId => handler userId

/-! ## The viewer (`my-app/app/components/PdfViewer.jsx`) -/

/-- The React state and refs of `PdfViewer` that finalization reads or writes, with the
`documentId` prop and the token kept in `localStorage`. -/
structure ViewerState where
  documentId : Option String
  token : Option String
  annotationMode : String
  allAnnotations : List Annotation
  isFinalizing : Bool
  displayPdfUrl : Option String
  fabricCanvas : Bool
deriving DecidableEq, Repr

/-- The callback `saveAnnotations(currentAnnotations)`, as its effect on the server;
`delivered` is false when `fetch` throws. -/
def saveAnnotations (env : Env) (delivered : Bool) (v : ViewerState) (st : ServerState)
    (currentAnnotations : List Annotation) : ServerState :=
  match truthyString v.documentId with
  | none => st
  | some documentId =>
    match truthyString v.token with
    | none => st
    | some token =>
      if delivered then
        (authenticated env (some ("Bearer " ++ token)) st
          (fun userId => saveAnnotationsRoute env st userId documentId currentAnnotations)).2
      else st

/-- The state update `setIsFinalizing(true)` of line 153: the viewer state while the
requests of `handleFinalizeDocument` are outstanding. -/
def beginFinalize (v : ViewerState) : ViewerState :=
  { v with isFinalizing := true }

/-- The callback `handleFinalizeDocument` from line 156 on, run from the viewer state `v`
that line 153 has left: the viewer state once the remaining state updates have been
applied, and the server state.  `saveDelivered` and `finalizeDelivered` are false when the
corresponding `fetch` throws.  Every path ends with `setIsFinalizing(false)`, at line 162 or
in the `finally` block. -/
def finishFinalize (env : Env) (saveDelivered finalizeDelivered : Bool) (documentId : String)
    (v : ViewerState) (st : ServerState) : ViewerState × ServerState :=
  match truthyString v.token with
  | none => ({ v with isFinalizing := false }, st)
  | some token =>
    let st := saveAnnotations env saveDelivered v st v.allAnnotations
    if finalizeDelivered then
      let result := authenticated env (some ("Bearer " ++ token)) st
        (fun userId => finalizeRoute env st userId documentId)
      if 200 ≤ result.1.status ∧ result.1.status ≤ 299 then
        let finalizedUrl :=
          match result.1.body with
          | Body.finalized _ finalizedUrl _ => some finalizedUrl
          | _ => none
        ({ v with displayPdfUrl := finalizedUrl, annotationMode := "view",
                  fabricCanvas := false, allAnnotations := [],
                  isFinalizing := false }, result.2)
      else ({ v with isFinalizing := false }, result.2)
    else ({ v with isFinalizing := false }, st)

/-- The callback `handleFinalizeDocument`: the guard of lines 147-150 returns at once;
otherwise line 153 raises `isFinalizing` and the rest of the callback runs from there. -/
def handleFinalizeDocument (env : Env) (saveDelivered finalizeDelivered : Bool)
    (v : ViewerState) (st : ServerState) : ViewerState × ServerState :=
  match truthyString v.documentId with
  | none => (v, st)
  | some documentId =>
    if v.isFinalizing then (v, st)
    else finishFinalize env saveDelivered finalizeDelivered documentId (beginFinalize v) st

/-! ## The coordinate transform as the specification words it -/

/-- A box in page-native space. -/
structure NativeBox where
  nativeX : ℚ
  nativeY : ℚ
  nativeWidth : ℚ
  nativeHeight : ℚ
deriving DecidableEq, Repr

/-- The transform of section 4.1 of the specification, following its words: geometry
`(x, y, width, height)` captured at render size `(W, H)`, page of native size `(Wn, Hn)`. -/
def specNativeBox (W H Wn Hn x y width height : ℚ) : NativeBox :=
  let scaleX := Wn / W
  let scaleY := Hn / H
  { nativeX := x * scaleX
    nativeWidth := width * scaleX
    nativeHeight := height * scaleY
    nativeY := Hn - (y + height) * scaleY }

/-- The box at which a draw operation places its content; a text has no height option, its
maximum width stands for the width. -/
def DrawOp.placedAt (box : NativeBox) : DrawOp → Prop
  | DrawOp.drawText _ x y _ _ _ maxWidth =>
    x = box.nativeX ∧ y = box.nativeY ∧ maxWidth = box.nativeWidth
  | DrawOp.drawImage _ x y width height =>
    x = box.nativeX ∧ y = box.nativeY ∧ width = box.nativeWidth ∧ height = box.nativeHeight

/-- The draw operations the loop body records for one annotation on a page. -/
def drawOpsOf (lib : ImageLib) (page : PdfPage) (ann : Annotation) : List DrawOp :=
  (drawOnPage lib { page with drawn := [] } ann).drawn

/-! ## JavaScript numbers

Numbers are carried as rationals.  The handler that places a signature computes quotients
and products whose results the specification compares with constants; there the operations
round as IEEE 754 doubles do.  Elsewhere geometry is stored and passed on as the source
computes it, and the evaluations use integers, on which double arithmetic is exact. -/

/-- Rounding to the nearest integer, a tie going to the even one. -/
def roundHalfEven (t : ℚ) : ℤ :=
  if t - ⌊t⌋ < 1 / 2 then ⌊t⌋
  else if 1 / 2 < t - ⌊t⌋ then ⌊t⌋ + 1
  else if ⌊t⌋ % 2 = 0 then ⌊t⌋ else ⌊t⌋ + 1

/-- The spacing of the doubles around `q`: `2 ^ (e - 52)` for `2 ^ e ≤ |q| < 2 ^ (e + 1)`. -/
def ulp (q : ℚ) : ℚ := 2 ^ (Int.log 2 |q| - 52)

/-- The double nearest to `q`, a tie going to the even significand (IEEE 754 round to
nearest even), for a result in the normal range of doubles: overflow and subnormal numbers
are not represented. -/
def toDouble (q : ℚ) : ℚ := roundHalfEven (q / ulp q) * ulp q

/-- The product of two doubles. -/
def jsMul (a b : ℚ) : ℚ := toDouble (a * b)

/-- The quotient of two doubles, the divisor not being zero. -/
def jsDiv (a b : ℚ) : ℚ := toDouble (a / b)

/-- The difference of two doubles. -/
def jsSub (a b : ℚ) : ℚ := toDouble (a - b)

/-! ## The overlay controller (`PdfViewer.jsx`, `initializeFabricCanvas` and the buttons) -/

/-- An annotation as the viewer holds it in `allAnnotations`: the schema fields and the
client-only `documentId` and `text`.  The id is the id of the Fabric object it was made
from, `none` for `undefined`. -/
structure ClientAnnotation where
  id : Option String
  documentId : Option String
  page : ℚ
  type : String
  x : ℚ
  y : ℚ
  width : ℚ
  height : ℚ
  text : Option String
  imageData : Option String
  objectData : Option ObjectData
deriving DecidableEq, Repr

/-- A Fabric.js object on the canvas, with the properties the handlers read or set. -/
structure FabricObject where
  id : Option String
  name : String
  left : ℚ
  top : ℚ
  width : ℚ
  height : ℚ
  scaleX : ℚ
  scaleY : ℚ
  text : Option String
  fontSize : Option ℚ
  imageData : Option String
deriving DecidableEq, Repr

/-- The call `object.toJSON()`, as far as `ObjectData` records it. -/
def FabricObject.toJSON (object : FabricObject) : ObjectData :=
  ⟨object.text, object.fontSize⟩

/-- The expression `scale || 1`. -/
def scaleOrOne (scale : ℚ) : ℚ := if scale = 0 then 1 else scale

/-- The Fabric canvas: its objects in insertion order and the index of the active one. -/
structure Canvas where
  objects : List FabricObject
  active : Option Nat
deriving DecidableEq, Repr

/-- The call `canvas.getActiveObject()`. -/
def Canvas.getActiveObject (canvas : Canvas) : Option FabricObject :=
  match canvas.active with
  | none => none
  | some index => canvas.objects[index]?

/-- The calls `canvas.add(object)` and `canvas.setActiveObject(object)` for a new object. -/
def Canvas.addActive (canvas : Canvas) (object : FabricObject) : Canvas :=
  { objects := canvas.objects ++ [object], active := some canvas.objects.length }

/-- The call `canvas.add(object)`. -/
def Canvas.add (canvas : Canvas) (object : FabricObject) : Canvas :=
  { canvas with objects := canvas.objects ++ [object] }

/-- The call `canvas.getActiveObject().set(...)`: `change` is applied to the active object;
without an active object the call throws and nothing changes. -/
def Canvas.setOnActive (canvas : Canvas) (change : FabricObject → FabricObject) : Canvas :=
  match canvas.active with
  | none => canvas
  | some index => { canvas with objects := canvas.objects.modify change index }

/-- The call `canvas.remove(canvas.getActiveObject())`. -/
def Canvas.removeActive (canvas : Canvas) : Canvas :=
  match canvas.active with
  | none => canvas
  | some index => { objects := canvas.objects.eraseIdx index, active := none }

/-- The state of the viewer that the overlay handlers read or write: React state
(`annotationMode`, `allAnnotations`, `pageNumber`, `isFinalizing`, `displayPdfUrl`), props
(`documentId`, `userSignature`), the canvas, the closure variables of `signature_field` mode
(`isDrawing`, `origX`, `origY`, which are read only while `isDrawing` holds), and the
collections passed to `saveAnnotations` so far, oldest first. -/
structure OverlayState where
  annotationMode : String
  allAnnotations : List ClientAnnotation
  pageNumber : ℚ
  isFinalizing : Bool
  displayPdfUrl : Option String
  documentId : Option String
  userSignature : Option String
  canvas : Canvas
  isDrawing : Bool
  origX : ℚ
  origY : ℚ
  saved : List (List ClientAnnotation)
deriving DecidableEq, Repr

/-- A Fabric pointer event: the object under the pointer (`o.target`, an index into the
canvas objects) and the pointer position `canvas.getPointer(o.e)`. -/
structure PointerEvent where
  target : Option Nat
  x : ℚ
  y : ℚ
deriving DecidableEq, Repr

/-- Whether `needle` occurs in `hay` (`String.prototype.includes`). -/
def includesChars (needle : List Char) : List Char → Bool
  | [] => startsWithChars needle []
  | c :: cs => startsWithChars needle (c :: cs) || includesChars needle cs

/-- The test `displayPdfUrl && displayPdfUrl.includes("finalized_")`. -/
def isFinalizedUrl (url : Option String) : Bool :=
  match truthyString url with
  | none => false
  | some u => includesChars "finalized_".data u.data

/-- The four mode buttons of the toolbar. -/
inductive ModeButton
  | view
  | signatureField
  | placeSignature
  | textField
deriving DecidableEq, Repr

/-- The mode a button asks for. -/
def ModeButton.mode : ModeButton → String
  | ModeButton.view => "view"
  | ModeButton.signatureField => "signature_field"
  | ModeButton.placeSignature => "place_signature"
  | ModeButton.textField => "text_field"

/-- The `disabled` attribute of a mode button. -/
def modeButtonDisabled (s : OverlayState) (button : ModeButton) : Bool :=
  s.isFinalizing
    || (button = ModeButton.placeSignature && (truthyString s.userSignature).isNone)
    || isFinalizedUrl s.displayPdfUrl

/-- A click on a mode button: nothing happens on a disabled button; the `onClick` of
`Place My Signature` returns early without a signature, every other one sets the mode. -/
def clickModeButton (s : OverlayState) (button : ModeButton) : OverlayState :=
  if modeButtonDisabled s button then s
  else
    match button with
    | ModeButton.placeSignature =>
      match truthyString s.userSignature with
      | none => s
      | some _ => { s with annotationMode := "place_signature" }
    | _ => { s with annotationMode := button.mode }

/-- `handleMouseDown` of `signature_field` mode; `uid` is what `createUID()` returns. -/
def handleMouseDown (uid : String) (s : OverlayState) (o : PointerEvent) : OverlayState :=
  match o.target with
  | some _ => s
  | none =>
    let rect : FabricObject :=
      { id := some uid, name := "signature_field", left := o.x, top := o.y,
        width := 0, height := 0, scaleX := 1, scaleY := 1,
        text := none, fontSize := none, imageData := none }
    { s with isDrawing := true, origX := o.x, origY := o.y,
             canvas := s.canvas.addActive rect }

/-- `handleMouseMove` of `signature_field` mode. -/
def handleMouseMove (s : OverlayState) (o : PointerEvent) : OverlayState :=
  if s.isDrawing then
    let canvas1 :=
      if s.origX > o.x then s.canvas.setOnActive (fun object => { object with left := |o.x| })
      else s.canvas
    let canvas2 :=
      if s.origY > o.y then canvas1.setOnActive (fun object => { object with top := |o.y| })
      else canvas1
    let canvas3 := canvas2.setOnActive
      (fun object => { object with width := |s.origX - o.x|, height := |s.origY - o.y| })
    { s with canvas := canvas3 }
  else s

/-- `handleMouseUp` of `signature_field` mode. -/
def handleMouseUp (s : OverlayState) : OverlayState :=
  match s.canvas.getActiveObject with
  | none => { s with isDrawing := false }
  | some newField =>
    if newField.width > 5 ∧ newField.height > 5 then
      let newEntry : ClientAnnotation :=
        { id := newField.id, documentId := s.documentId, page := s.pageNumber,
          type := "signature_field", x := newField.left, y := newField.top,
          width := newField.width * scaleOrOne newField.scaleX,
          height := newField.height * scaleOrOne newField.scaleY,
          text := none, imageData := none, objectData := some newField.toJSON }
      let updatedAnnotations := s.allAnnotations ++ [newEntry]
      { s with isDrawing := false, allAnnotations := updatedAnnotations,
               saved := s.saved ++ [updatedAnnotations] }
    else { s with isDrawing := false, canvas := s.canvas.removeActive }

/-- `handleCanvasClick` of `place_signature` mode; `uid` is what `createUID()` returns and
`imageSize` the size of the signature image once `fabric.Image.fromURL` has loaded it,
`none` when loading fails.  Scale factors, position and size are computed in doubles. -/
def handleCanvasClick (uid : String) (imageSize : Option (ℚ × ℚ)) (s : OverlayState)
    (o : PointerEvent) : OverlayState :=
  match o.target, truthyString s.userSignature, imageSize with
  | none, some userSignature, some (imgWidth, imgHeight) =>
    let defaultSignatureWidth : ℚ := 150
    let defaultSignatureHeight : ℚ := 50
    let scaleX :=
      if imgWidth > 0 ∧ imgHeight > 0 then jsDiv defaultSignatureWidth imgWidth else 1
    let scaleY :=
      if imgWidth > 0 ∧ imgHeight > 0 then jsDiv defaultSignatureHeight imgHeight else 1
    let img : FabricObject :=
      { id := some uid, name := "placed_signature",
        left := jsSub o.x (jsDiv (jsMul imgWidth scaleX) 2),
        top := jsSub o.y (jsDiv (jsMul imgHeight scaleY) 2),
        width := imgWidth, height := imgHeight, scaleX := scaleX, scaleY := scaleY,
        text := none, fontSize := none, imageData := some userSignature }
    let newEntry : ClientAnnotation :=
      { id := img.id, documentId := s.documentId, page := s.pageNumber,
        type := "placed_signature", x := img.left, y := img.top,
        width := jsMul img.width img.scaleX, height := jsMul img.height img.scaleY,
        text := none, imageData := some userSignature, objectData := some img.toJSON }
    let updatedAnnotations := s.allAnnotations ++ [newEntry]
    { s with canvas := s.canvas.add img, allAnnotations := updatedAnnotations,
             saved := s.saved ++ [updatedAnnotations] }
  | _, _, _ => s

/-- The update `object:modified` makes to one annotation that matches the modified object. -/
def updateFromObject (modifiedObject : FabricObject) (ann : ClientAnnotation) :
    ClientAnnotation :=
  let imageData :=
    if modifiedObject.name = "placed_signature" then ann.imageData else none
  { ann with
    objectData := some modifiedObject.toJSON
    x := modifiedObject.left
    y := modifiedObject.top
    width := modifiedObject.width * scaleOrOne modifiedObject.scaleX
    height := modifiedObject.height * scaleOrOne modifiedObject.scaleY
    text :=
      match truthyString modifiedObject.text with
      | some text => some text
      | none => ann.text
    imageData :=
      match truthyString imageData with
      | some data => some data
      | none => ann.imageData }

/-- The handler of `object:modified`. -/
def onObjectModified (s : OverlayState) (modifiedObject : FabricObject) : OverlayState :=
  match truthyString modifiedObject.id with
  | none => s
  | some _ =>
    let updated := s.allAnnotations.map (fun ann =>
      if ann.id = modifiedObject.id ∧ ann.page = s.pageNumber then
        updateFromObject modifiedObject ann
      else ann)
    { s with allAnnotations := updated, saved := s.saved ++ [updated] }

/-- The canvas events `initializeFabricCanvas` attaches handlers to. -/
inductive CanvasEvent
  | mouseDown
  | mouseMove
  | mouseUp
  | mouseDblclick
  | objectModified
deriving DecidableEq, Repr

/-- The events that have a handler once `initializeFabricCanvas` has run: none when the
displayed URL is a finalized one (the canvas is disposed); otherwise every handler is
removed first and the first mode branch that applies attaches its handlers and returns, so
that `object:modified` is attached only when no mode branch applies. -/
def attachedListeners (s : OverlayState) : List CanvasEvent :=
  if isFinalizedUrl s.displayPdfUrl then []
  else if s.annotationMode = "place_signature" ∧ (truthyString s.userSignature).isSome then
    [CanvasEvent.mouseDown]
  else if s.annotationMode = "signature_field" then
    [CanvasEvent.mouseDown, CanvasEvent.mouseMove, CanvasEvent.mouseUp]
  else if s.annotationMode = "text_field" then
    [CanvasEvent.mouseDblclick]
  else [CanvasEvent.objectModified]

/-- What firing `object:modified` for an object does: the handler runs if it is attached. -/
def fireObjectModified (s : OverlayState) (modifiedObject : FabricObject) : OverlayState :=
  if CanvasEvent.objectModified ∈ attachedListeners s then onObjectModified s modifiedObject
  else s

/-- The state updates of `handleFinalizeDocument` on an OK response (lines 189-197 and the
`finally` block): the finalized URL is displayed, the mode is `view`, the canvas is
cleared, and the working collection is emptied. -/
def onFinalizeSucceeded (s : OverlayState) (finalizedUrl : Option String) : OverlayState :=
  { s with displayPdfUrl := finalizedUrl, annotationMode := "view",
           canvas := ⟨[], none⟩, allAnnotations := [], isFinalizing := false }

/-- The effect on `fileUrl` / `documentId` (lines 684-691): the new URL is displayed and the
working collection is replaced by what `fetchAnnotations` delivers, or emptied. -/
def onDocumentChanged (s : OverlayState) (fileUrl documentId : Option String)
    (fetched : Option (List ClientAnnotation)) : OverlayState :=
  { s with displayPdfUrl := fileUrl, documentId := documentId,
           allAnnotations := fetched.getD [] }

/-- What can happen to the viewer. -/
inductive ViewerEvent
  | clickMode (button : ModeButton)
  | finalizeSucceeded (finalizedUrl : Option String)
  | documentChanged (fileUrl documentId : Option String)
      (fetched : Option (List ClientAnnotation))
  | pointerDown (uid : String) (imageSize : Option (ℚ × ℚ)) (o : PointerEvent)
  | pointerMove (o : PointerEvent)
  | pointerUp
  | objectModified (object : FabricObject)

/-- One step of the viewer: pointer events reach the handlers of the current mode. -/
def viewerStep (s : OverlayState) : ViewerEvent → OverlayState
  | ViewerEvent.clickMode button => clickModeButton s button
  | ViewerEvent.finalizeSucceeded finalizedUrl => onFinalizeSucceeded s finalizedUrl
  | ViewerEvent.documentChanged fileUrl documentId fetched =>
    onDocumentChanged s fileUrl documentId fetched
  | ViewerEvent.pointerDown uid imageSize o =>
    if CanvasEvent.mouseDown ∈ attachedListeners s then
      if s.annotationMode = "place_signature" then handleCanvasClick uid imageSize s o
      else handleMouseDown uid s o
    else s
  | ViewerEvent.pointerMove o =>
    if CanvasEvent.mouseMove ∈ attachedListeners s then handleMouseMove s o else s
  | ViewerEvent.pointerUp =>
    if CanvasEvent.mouseUp ∈ attachedListeners s then handleMouseUp s else s
  | ViewerEvent.objectModified object => fireObjectModified s object

/-- The viewer as mounted: mode `view`, page 1, nothing drawn, nothing saved. -/
def initialOverlay (fileUrl documentId userSignature : Option String) : OverlayState :=
  { annotationMode := "view", allAnnotations := [], pageNumber := 1, isFinalizing := false,
    displayPdfUrl := fileUrl, documentId := documentId, userSignature := userSignature,
    canvas := ⟨[], none⟩, isDrawing := false, origX := 0, origY := 0, saved := [] }

/-- The props `fileUrl` and `documentId` the dashboard passes to the viewer for a document
of its list (`handleViewDocument`, `my-app/app/dashboard/page.jsx` lines 309-314): the URL
of the original file, whatever `isFinalized` and `finalizedPath` are. -/
def handleViewDocument (document : DocumentRecord) : Option String × Option String :=
  (some ("http://localhost:5000" ++ document.filePath), some document._id)

/-- The viewer once the dashboard shows a document in it: the effect on `fileUrl` /
`documentId` has run with the props of `handleViewDocument`. -/
def viewFromDashboard (s : OverlayState) (document : DocumentRecord)
    (fetched : Option (List ClientAnnotation)) : OverlayState :=
  onDocumentChanged s (handleViewDocument document).1 (handleViewDocument document).2 fetched

/-! ## Loading annotations, page navigation and the text-field gesture (`PdfViewer.jsx`) -/

/-- The callback `fetchAnnotations`: the viewer state once its state update has been
applied; `delivered` is false when `fetch` throws.  The annotation route answers with a
status in 200..299 only together with the list of annotations. -/
def fetchAnnotations (env : Env) (delivered : Bool) (v : ViewerState) (st : ServerState) :
    ViewerState :=
  match truthyString v.documentId with
  | none => { v with allAnnotations := [] }
  | some documentId =>
    match truthyString v.token with
    | none => v
    | some token =>
      if delivered then
        let response := (authenticated env (some ("Bearer " ++ token)) st
          (fun userId => getAnnotationsRoute st userId documentId)).1
        if 200 ≤ response.status ∧ response.status ≤ 299 then
          match response.body with
          | Body.annotationList data => { v with allAnnotations := data }
          | _ => { v with allAnnotations := [] }
        else { v with allAnnotations := [] }
      else { v with allAnnotations := [] }

/-- The effect on `fileUrl` / `documentId` (lines 684-691), the only caller of
`fetchAnnotations`: the new URL is displayed, the working collection is emptied, and with a
document id the annotations are fetched.  The state `v` holds the `documentId` prop of the
render the effect belongs to. -/
def loadDocument (env : Env) (delivered : Bool) (fileUrl : Option String) (v : ViewerState)
    (st : ServerState) : ViewerState :=
  let cleared := { v with displayPdfUrl := fileUrl, allAnnotations := [] }
  match truthyString v.documentId with
  | none => cleared
  | some _ => fetchAnnotations env delivered cleared st

/-- The updater of `goToNextPage`: `Math.min(prevPageNumber + 1, numPages)`. -/
def goToNextPage (numPages prevPageNumber : ℚ) : ℚ :=
  min (prevPageNumber + 1) numPages

/-- The updater of `goToPrevPage`: `Math.max(prevPageNumber - 1, 1)`. -/
def goToPrevPage (prevPageNumber : ℚ) : ℚ :=
  max (prevPageNumber - 1) 1

/-- The page number `onDocumentLoadSuccess` sets: `setPageNumber(1)`. -/
def pageAfterLoad : ℚ := 1

/-- `handleTextFieldDoubleClick` of `text_field` mode; `uid` is what `createUID()` returns
and `measured` the width and height Fabric computes for the new text. -/
def handleTextFieldDoubleClick (uid : String) (measured : ℚ × ℚ) (s : OverlayState)
    (o : PointerEvent) : OverlayState :=
  match o.target with
  | some _ => s
  | none =>
    let newText : FabricObject :=
      { id := some uid, name := "text_field", left := o.x, top := o.y,
        width := measured.1, height := measured.2, scaleX := 1, scaleY := 1,
        text := some "Double click to edit", fontSize := some 16, imageData := none }
    let newEntry : ClientAnnotation :=
      { id := newText.id, documentId := s.documentId, page := s.pageNumber,
        type := "text_field", x := newText.left, y := newText.top,
        width := newText.width * scaleOrOne newText.scaleX,
        height := newText.height * scaleOrOne newText.scaleY,
        text := newText.text, imageData := none, objectData := some newText.toJSON }
    let updatedAnnotations := s.allAnnotations ++ [newEntry]
    { s with canvas := s.canvas.addActive newText, allAnnotations := updatedAnnotations,
             saved := s.saved ++ [updatedAnnotations] }

/-! ## The signature pad (`my-app/app/components/SignaturePad.jsx`) -/

/-- What `onSave` is called with: the PNG of the canvas, identified by the number of line
segments stroked on it, or the data URL of the uploaded image. -/
inductive SignatureImage
  | canvasPng (strokes : Nat)
  | uploaded (dataUrl : String)
deriving DecidableEq, Repr

/-- The React state of `SignaturePad`, the content of its canvas (`strokes`, 0 for a blank
canvas) and the calls of `onSave` so far.  The canvas element is rendered in `draw` mode
only, so `canvasRef.current` is set exactly while the rendered mode is `draw`. -/
structure SignaturePadState where
  mode : String
  isDrawing : Bool
  isEmpty : Bool
  error : String
  uploadedSignature : Option String
  strokes : Nat
  saved : List SignatureImage
deriving DecidableEq, Repr

/-- The pad as mounted. -/
def initialPad : SignaturePadState :=
  { mode := "draw", isDrawing := false, isEmpty := true, error := "",
    uploadedSignature := none, strokes := 0, saved := [] }

/-- The value of `canvasRef.current` as a truth value. -/
def canvasMounted (s : SignaturePadState) : Bool := s.mode = "draw"

/-- The callback `clearCanvas`. -/
def clearCanvas (s : SignaturePadState) : SignaturePadState :=
  if canvasMounted s then
    { s with strokes := 0, isEmpty := true, error := "", uploadedSignature := none }
  else s

/-- The `onClick` of `Draw Signature`: `setMode("draw"); clearCanvas();`.  After the
render the canvas is the cleared one, or a newly mounted blank one. -/
def clickDrawMode (s : SignaturePadState) : SignaturePadState :=
  { clearCanvas s with mode := "draw", strokes := 0 }

/-- The `onClick` of `Upload Signature`: `setMode("upload"); clearCanvas();`.  After the
render no canvas is mounted. -/
def clickUploadMode (s : SignaturePadState) : SignaturePadState :=
  { clearCanvas s with mode := "upload", strokes := 0 }

/-- The callback `startDrawing`. -/
def startDrawing (s : SignaturePadState) : SignaturePadState :=
  if canvasMounted s ∧ s.mode = "draw" then { s with isDrawing := true, isEmpty := false }
  else s

/-- The callback `draw`: one more line segment is stroked. -/
def draw (s : SignaturePadState) : SignaturePadState :=
  if s.isDrawing ∧ canvasMounted s ∧ s.mode = "draw" then { s with strokes := s.strokes + 1 }
  else s

/-- The callback `stopDrawing`. -/
def stopDrawing (s : SignaturePadState) : SignaturePadState :=
  if canvasMounted s then { s with isDrawing := false, error := "" } else s

/-- The callback `handleImageUpload` together with the reader callbacks that follow it:
`file` is the selected file, as its MIME type and the data URL `FileReader` delivers
(`none` when reading fails; `onloadend` then runs after `onerror`, with a null result). -/
def handleImageUpload (s : SignaturePadState) (file : Option (String × Option String)) :
    SignaturePadState :=
  match file with
  | none => { s with uploadedSignature := none, isEmpty := true }
  | some (mimeType, result) =>
    if startsWithChars "image/".data mimeType.data then
      match result with
      | some dataUrl =>
        { s with error := "", uploadedSignature := some dataUrl, isEmpty := false }
      | none =>
        { s with error := "Failed to read file.", uploadedSignature := none,
                 isEmpty := false }
    else
      { s with error := "Please upload an image file (e.g., JPG, PNG).",
               uploadedSignature := none }

/-- The callback `saveSignature`. -/
def saveSignature (s : SignaturePadState) : SignaturePadState :=
  if s.mode = "draw" then
    if s.isEmpty then { s with error := "Please draw your signature before saving." }
    else { s with saved := s.saved ++ [SignatureImage.canvasPng s.strokes] }
  else if s.mode = "upload" then
    match truthyString s.uploadedSignature with
    | none => { s with error := "Please upload your signature image before saving." }
    | some dataUrl => { s with saved := s.saved ++ [SignatureImage.uploaded dataUrl] }
  else s

/-! ## Concrete inputs used to evaluate the embedding -/

/-- A stand-in for the image library: a payload decodes to its character codes, PNG bytes
are those starting with the code of `P`, JPEG bytes those starting with the code of `J`, and
`page.drawText` throws for a text with a character whose code exceeds 255. -/
def sampleLib : ImageLib :=
  { base64Decode := fun s => s.data.map Char.toNat
    pngDecodes := fun b => b.head? = some 80
    jpgDecodes := fun b => b.head? = some 74
    textThrows := fun text _ _ => text.data.any (fun c => decide (255 < c.toNat)) }

/-- A US-letter page (612 by 792 points) with nothing drawn on it. -/
def letterPage : PdfPage := ⟨612, 792, []⟩

/-- The annotation of the specification's concrete case: a text field with overlay geometry
`(100, 50, 150, 50)` on page 1. -/
def specCaseTextField : Annotation :=
  { id := "t1", type := "text_field", page := 1,
    objectData := some ⟨some "Signed", some 16⟩,
    x := 100, y := 50, width := 150, height := 50, imageData := none }

/-- An unfilled signature field on page 1. -/
def sampleSignatureField : Annotation :=
  { id := "f1", type := "signature_field", page := 1,
    objectData := some ⟨none, none⟩,
    x := 20, y := 30, width := 120, height := 40, imageData := none }

/-- A text field on page 1 whose text has been emptied. -/
def emptyTextField : Annotation :=
  { id := "t2", type := "text_field", page := 1,
    objectData := some ⟨some "", some 16⟩,
    x := 100, y := 50, width := 150, height := 50, imageData := none }

/-- A text field on page 1 whose text starts with a check mark, a character that Helvetica
cannot encode. -/
def checkmarkTextField : Annotation :=
  { id := "t3", type := "text_field", page := 1,
    objectData := some ⟨some "✓ ok", some 16⟩,
    x := 100, y := 50, width := 150, height := 50, imageData := none }

/-- A placed signature on page 1 carrying a PNG data URL. -/
def sampleSignature : Annotation :=
  { id := "s1", type := "placed_signature", page := 1,
    objectData := some ⟨none, none⟩,
    x := 100, y := 50, width := 150, height := 50,
    imageData := some "data:image/png;base64,PNGDATA" }

/-- A placed signature on page 1 whose data URL declares a GIF. -/
def gifSignature : Annotation :=
  { id := "s2", type := "placed_signature", page := 1,
    objectData := some ⟨none, none⟩,
    x := 10, y := 10, width := 150, height := 50,
    imageData := some "data:image/gif;base64,GIFDATA" }

/-- Worker of `samplePathJoin`: drops empty and `.` segments and lets `..` remove the
segment before it; `acc` is the result so far, reversed. -/
def resolveSegments : List String → List String → List String
  | [], acc => acc.reverse
  | seg :: rest, acc =>
    if seg = "" ∨ seg = "." then resolveSegments rest acc
    else if seg = ".." then resolveSegments rest acc.tail
    else resolveSegments rest (seg :: acc)

/-- A stand-in for `path.join` on POSIX paths that do not climb above their first
segment: the parts are joined with `/` and normalized. -/
def samplePathJoin (parts : List String) : String :=
  let segments := resolveSegments (parts.flatMap (fun part => jsSplit part '/')) []
  (if startsWithChars ['/'] (parts.headD "").data then "/" else "")
    ++ "/".intercalate segments

/-- A stand-in for the process and the libraries: every PDF loads as one US-letter page,
saving appends the number of draw operations to the original bytes, every database save
succeeds, and the token `alice-token` belongs to user `alice`. -/
def sampleEnv : Env :=
  { lib := sampleLib
    loadPdf := fun _ => some [(612, 792)]
    savePdf := fun bytes pages => some (bytes ++ pages.map (fun page => page.drawn.length))
    pathJoin := samplePathJoin
    dirname := "/srv/server/routes"
    dbSaveOk := fun _ => true
    jwtVerify := fun token => if token = "alice-token" then some "alice" else none }

/-- A document of user `alice` with the given annotations and flags. -/
def sampleDocument (annotations : List Annotation) (finalizedPath : Option String)
    (isFinalized : Bool) : DocumentRecord :=
  { _id := "doc1", fileName := "contract.pdf", filePath := "/uploads/17-contract.pdf",
    owner := "alice", annotations := annotations, finalizedPath := finalizedPath,
    isFinalized := isFinalized }

/-- A server holding one document of user `alice` and its original file. -/
def sampleServer (annotations : List Annotation) (finalizedPath : Option String)
    (isFinalized : Bool) : ServerState :=
  { documents := [sampleDocument annotations finalizedPath isFinalized]
    files := [("/srv/server/uploads/17-contract.pdf", [37, 80, 68, 70])] }

/-- A viewer of user `alice` showing the sample document with the given working
collection, in view mode, with no finalize request outstanding. -/
def sampleViewer (annotations : List Annotation) : ViewerState :=
  { documentId := some "doc1", token := some "alice-token", annotationMode := "view",
    allAnnotations := annotations, isFinalizing := false,
    displayPdfUrl := some "http://localhost:5000/uploads/17-contract.pdf",
    fabricCanvas := true }

/-! ## Node's `path.join` on POSIX and the upload route -/

/-- The characters of `pieces` joined with `sep` between them (`Array.prototype.join`). -/
def joinChars (sep : List Char) : List (List Char) → List Char
  | [] => []
  | [piece] => piece
  | piece :: next :: rest => piece ++ sep ++ joinChars sep (next :: rest)

/-- One step of Node's `normalizeString`: `acc` holds the segments kept so far, last one
first.  Empty and `.` segments are dropped; `..` removes the segment before it, is kept when
the path may climb above its start, and is dropped at the root of an absolute path. -/
def normStep (allowAboveRoot : Bool) (acc : List (List Char)) (segment : List Char) :
    List (List Char) :=
  if segment = [] ∨ segment = ['.'] then acc
  else if segment = ['.', '.'] then
    match acc with
    | last :: before => if last = ['.', '.'] then segment :: acc else before
    | [] => if allowAboveRoot then [segment] else []
  else segment :: acc

/-- Node's `path.posix.normalize` on the characters of a path. -/
def posixNormalize (path : List Char) : List Char :=
  if path = [] then ['.']
  else
    let isAbsolute := path.head? = some '/'
    let trailingSeparator := path.getLast? = some '/'
    let segments :=
      ((splitAux '/' path []).foldl (normStep (!decide isAbsolute)) []).reverse
    let body := joinChars ['/'] segments
    if body = [] then
      if isAbsolute then ['/'] else if trailingSeparator then ['.', '/'] else ['.']
    else
      (if isAbsolute then ['/'] else []) ++ body ++ (if trailingSeparator then ['/'] else [])

/-- Node's `path.posix.join(...parts)`: the non-empty parts joined with `/`, normalized. -/
def posixJoin (parts : List String) : String :=
  let nonEmpty := (parts.map String.data).filter (fun part => part ≠ [])
  if nonEmpty = [] then "." else String.mk (posixNormalize (joinChars ['/'] nonEmpty))

/-- The file of an upload request as multer hands it to the route (`req.file`); busboy has
already reduced `originalname` to its base name. -/
structure UploadedFile where
  originalname : String
  mimetype : String
  size : Nat
deriving DecidableEq, Repr

/-- The `filename` callback of the multer storage: `Date.now() + "-" + file.originalname`. -/
def storageFilename (now : Nat) (file : UploadedFile) : String :=
  toString now ++ "-" ++ file.originalname

/-- The value of `req.file.path`: multer joins the destination `uploads/` of the storage
with the file name. -/
def uploadedPath (env : Env) (now : Nat) (file : UploadedFile) : String :=
  env.pathJoin ["uploads/", storageFilename now file]

/-- The record `new Document({...})` of `router.post("/upload")`; `newId` is the id MongoDB
gives it. -/
def uploadedDocument (env : Env) (userId newId : String) (now : Nat) (file : UploadedFile) :
    DocumentRecord :=
  { _id := newId, fileName := file.originalname,
    filePath := "/" ++ uploadedPath env now file, owner := userId,
    annotations := [], finalizedPath := none, isFinalized := false }

/-- The handler of `router.post("/upload")` after `verifyToken` and `upload.single`; a save
that throws is answered with 500 (with 400 when it is a validation error, which the
embedding does not tell apart). -/
def uploadRoute (env : Env) (st : ServerState) (userId newId : String) (now : Nat)
    (file : Option UploadedFile) : Response × ServerState :=
  match file with
  | none => (⟨400, Body.message "No file uploaded."⟩, st)
  | some file =>
    let newDocument := uploadedDocument env userId newId now file
    if env.dbSaveOk newDocument then
      (⟨201, Body.uploaded "Document uploaded successfully!" file.originalname
          newDocument.filePath newDocument._id⟩,
        { st with documents := st.documents ++ [newDocument] })
    else (⟨500, Body.message "Server error during document upload."⟩, st)

/-- The sample environment with Node's `path.join`. -/
def posixEnv : Env := { sampleEnv with pathJoin := posixJoin }

/-- A path segment that normalization keeps: not empty, not `.`, not `..`. -/
def IsPlainSegment (segment : List Char) : Prop :=
  segment ≠ [] ∧ segment ≠ ['.'] ∧ segment ≠ ['.', '.'] ∧ '/' ∉ segment

/-- The path is the segment, or ends with a slash followed by the segment. -/
def EndsInSegment (path segment : List Char) : Prop :=
  path = segment ∨ ∃ before, path = before ++ '/' :: segment

/-- The file of the sample upload: `contract.pdf`, four bytes of PDF. -/
def sampleUpload : UploadedFile :=
  { originalname := "contract.pdf", mimetype := "application/pdf", size := 4 }

/-- The server after user `alice` has uploaded `sampleUpload` at time 17: multer has stored
the file and the upload route has created the record `doc1`. -/
def uploadedServer : ServerState :=
  (uploadRoute posixEnv
    { documents := [], files := [("/srv/server/uploads/17-contract.pdf", [37, 80, 68, 70])] }
    "alice" "doc1" 17 (some sampleUpload)).2

/-- The state after a drag in `signature_field` mode: a pointer-down followed by the
pointer-moves, in order. -/
def dragTo (uid : String) (s : OverlayState) (down : PointerEvent)
    (moves : List PointerEvent) : OverlayState :=
  moves.foldl handleMouseMove (handleMouseDown uid s down)

/-- The events of a run applied in order. -/
def runViewer (s : OverlayState) (events : List ViewerEvent) : OverlayState :=
  events.foldl viewerStep s

/-- A signature field of 120 by 40 at (20, 30) on the canvas, with id `f1`. -/
def sampleFieldObject : FabricObject :=
  { id := some "f1", name := "signature_field", left := 20, top := 30, width := 120,
    height := 40, scaleX := 1, scaleY := 1, text := none, fontSize := none,
    imageData := none }

/-- The annotation of `sampleFieldObject` on page 1 of document `doc1`. -/
def sampleFieldEntry : ClientAnnotation :=
  { id := some "f1", documentId := some "doc1", page := 1, type := "signature_field",
    x := 20, y := 30, width := 120, height := 40, text := none, imageData := none,
    objectData := some ⟨none, none⟩ }

/-- The text field of the specification's concrete case as the viewer holds it after
loading it from the server. -/
def specCaseTextEntry : ClientAnnotation :=
  { id := some "t1", documentId := none, page := 1, type := "text_field",
    x := 100, y := 50, width := 150, height := 50, text := none, imageData := none,
    objectData := some ⟨some "Signed", some 16⟩ }

/-- A viewer of document `doc1` in the given mode, holding a signature, with one signature
field on the canvas and in the working collection. -/
def sampleOverlay (mode : String) : OverlayState :=
  { initialOverlay (some "http://localhost:5000/uploads/17-contract.pdf") (some "doc1")
      (some "data:image/png;base64,PNGDATA") with
    annotationMode := mode, allAnnotations := [sampleFieldEntry],
    canvas := ⟨[sampleFieldObject], none⟩ }

/-- A server holding two uploads of a file named `contract.pdf`: `doc1` of `alice`, with
one text field, and `doc2` of `bob`, without annotations and with one more byte. -/
def twoUploadsServer : ServerState :=
  { documents :=
      [sampleDocument [specCaseTextField] none false,
       { sampleDocument [] none false with
         _id := "doc2", filePath := "/uploads/18-contract.pdf", owner := "bob" }]
    files :=
      [("/srv/server/uploads/17-contract.pdf", [37, 80, 68, 70]),
       ("/srv/server/uploads/18-contract.pdf", [37, 80, 68, 70, 10])] }

/-- The sample viewer in `signature_field` mode once Fabric has made the existing field
the active object, as it does on a pointer-down on a selectable object. -/
def selectedFieldOverlay : OverlayState :=
  { sampleOverlay "signature_field" with canvas := ⟨[sampleFieldObject], some 0⟩ }

/-- The signature pad after a switch to upload mode and the upload of a PNG image. -/
def uploadedPad : SignaturePadState :=
  handleImageUpload (clickUploadMode initialPad)
    (some ("image/png", some "data:image/png;base64,PNGDATA"))

/-! ## How the loop body and the loops act on the list of draw operations -/

theorem drawOnPage_width (lib : ImageLib) (page : PdfPage) (a : Annotation) :
    (drawOnPage lib page a).width = page.width := by
  unfold drawOnPage PdfPage.drawText PdfPage.drawImage
  repeat' split
  all_goals rfl

theorem drawOnPage_height (lib : ImageLib) (page : PdfPage) (a : Annotation) :
    (drawOnPage lib page a).height = page.height := by
  unfold drawOnPage PdfPage.drawText PdfPage.drawImage
  repeat' split
  all_goals rfl

theorem drawOnPage_drawn (lib : ImageLib) (page : PdfPage) (a : Annotation) :
    (drawOnPage lib page a).drawn = page.drawn ++ drawOpsOf lib page a := by
  unfold drawOpsOf drawOnPage PdfPage.drawText PdfPage.drawImage yFromBottom
  repeat' split
  all_goals simp

theorem drawOpsOf_congr (lib : ImageLib) (page page2 : PdfPage) (a : Annotation)
    (h : page.height = page2.height) : drawOpsOf lib page a = drawOpsOf lib page2 a := by
  unfold drawOpsOf drawOnPage PdfPage.drawText PdfPage.drawImage yFromBottom
  repeat' split
  all_goals simp [h]

theorem drawOnPage_eq (lib : ImageLib) (page : PdfPage) (a : Annotation) :
    drawOnPage lib page a = { page with drawn := page.drawn ++ drawOpsOf lib page a } := by
  have hw := drawOnPage_width lib page a
  have hh := drawOnPage_height lib page a
  have hd := drawOnPage_drawn lib page a
  cases hq : drawOnPage lib page a
  rw [hq] at hw hh hd
  simp only at hw hh hd
  subst hw hh hd
  rfl

theorem foldl_drawOnPage (lib : ImageLib) (as : List Annotation) (page : PdfPage) :
    as.foldl (drawOnPage lib) page
      = { page with drawn := page.drawn ++ as.flatMap (drawOpsOf lib page) } := by
  induction as generalizing page with
  | nil => simp
  | cons a as ih =>
    rw [List.foldl_cons, ih, drawOnPage_eq]
    have hc : ∀ b, drawOpsOf lib { page with drawn := page.drawn ++ drawOpsOf lib page a } b
        = drawOpsOf lib page b := fun b => drawOpsOf_congr lib _ _ b rfl
    have hf : drawOpsOf lib { page with drawn := page.drawn ++ drawOpsOf lib page a }
        = drawOpsOf lib page := funext hc
    simp [List.flatMap_cons, hf]

theorem flattenFrom_getElem? (lib : ImageLib) (anns : List Annotation) (pages : List PdfPage)
    (k i : Nat) :
    (flattenFrom lib anns k pages)[i]?
      = (pages[i]?).map
          (fun page => (annotationsOnPage anns (((k + i : Nat) : ℚ) + 1)).foldl
            (drawOnPage lib) page) := by
  induction pages generalizing k i with
  | nil => simp [flattenFrom]
  | cons page rest ih =>
    cases i with
    | zero => simp [flattenFrom]
    | succ i =>
      simp only [flattenFrom, List.getElem?_cons_succ]
      rw [ih]
      have : k + 1 + i = k + (i + 1) := by omega
      rw [this]

theorem flattenPages_getElem? (lib : ImageLib) (anns : List Annotation) (pages : List PdfPage)
    (i : Nat) :
    (flattenPages lib anns pages)[i]?
      = (pages[i]?).map (fun page =>
          { page with
            drawn := page.drawn
              ++ (annotationsOnPage anns ((i : ℚ) + 1)).flatMap (drawOpsOf lib page) }) := by
  unfold flattenPages
  rw [flattenFrom_getElem?]
  simp [foldl_drawOnPage]

/-- Two annotation collections that select the same draw operations on every page give the
same flattened pages. -/
theorem flattenFrom_congr (lib : ImageLib) (anns anns2 : List Annotation)
    (pages : List PdfPage) (k : Nat)
    (h : ∀ (i : Nat) (page : PdfPage), k ≤ i → i < k + pages.length →
      (annotationsOnPage anns ((i : ℚ) + 1)).foldl (drawOnPage lib) page
        = (annotationsOnPage anns2 ((i : ℚ) + 1)).foldl (drawOnPage lib) page) :
    flattenFrom lib anns k pages = flattenFrom lib anns2 k pages := by
  induction pages generalizing k with
  | nil => simp [flattenFrom]
  | cons page rest ih =>
    simp only [flattenFrom]
    rw [h k page (le_refl k) (by simp), ih (k + 1)]
    intro i pg hk hi
    apply h i pg (by omega)
    simp only [List.length_cons]
    omega

theorem annotationsOnPage_append (xs ys : List Annotation) (p : ℚ) :
    annotationsOnPage (xs ++ ys) p = annotationsOnPage xs p ++ annotationsOnPage ys p := by
  simp [annotationsOnPage]

theorem annotationsOnPage_cons_of_ne (a : Annotation) (xs : List Annotation) (p : ℚ)
    (h : a.page ≠ p) : annotationsOnPage (a :: xs) p = annotationsOnPage xs p := by
  simp [annotationsOnPage, h]

theorem annotationsOnPage_cons_of_eq (a : Annotation) (xs : List Annotation) (p : ℚ)
    (h : a.page = p) : annotationsOnPage (a :: xs) p = a :: annotationsOnPage xs p := by
  simp [annotationsOnPage, h]

theorem annotationsOnPage_filter (q : Annotation → Bool) (xs : List Annotation) (p : ℚ) :
    annotationsOnPage (xs.filter q) p = (annotationsOnPage xs p).filter q := by
  simp only [annotationsOnPage, List.filter_filter]
  congr 1
  funext a
  exact Bool.and_comm _ _

theorem flatMap_filter_of_nil {α β : Type} (f : α → List β) (q : α → Bool) (l : List α)
    (h : ∀ a, q a = false → f a = []) : (l.filter q).flatMap f = l.flatMap f := by
  induction l with
  | nil => rfl
  | cons a l ih =>
    cases hq : q a
    · simp [List.filter_cons, hq, ih, h a hq]
    · simp [List.filter_cons, hq, ih]

theorem drawOpsOf_signature_field (lib : ImageLib) (page : PdfPage) (a : Annotation)
    (h : a.type = "signature_field") : drawOpsOf lib page a = [] := by
  have h1 : a.type ≠ "text_field" := by rw [h]; decide
  have h2 : a.type ≠ "placed_signature" := by rw [h]; decide
  simp [drawOpsOf, drawOnPage, h1, h2]

theorem flattenPages_insert_same (lib : ImageLib) (pre post : List Annotation) (a : Annotation)
    (pages : List PdfPage) (i : Nat) (page : PdfPage) (hpage : pages[i]? = some page)
    (ha : a.page = (i : ℚ) + 1) :
    (flattenPages lib (pre ++ a :: post) pages)[i]?
      = some { page with
          drawn := page.drawn
            ++ (annotationsOnPage pre ((i : ℚ) + 1)).flatMap (drawOpsOf lib page)
            ++ drawOpsOf lib page a
            ++ (annotationsOnPage post ((i : ℚ) + 1)).flatMap (drawOpsOf lib page) } := by
  rw [flattenPages_getElem?, hpage, annotationsOnPage_append,
    annotationsOnPage_cons_of_eq a post _ ha]
  simp [List.flatMap_append, List.flatMap_cons, List.append_assoc]

theorem flattenPages_insert_other (lib : ImageLib) (pre post : List Annotation)
    (a : Annotation) (pages : List PdfPage) (j : Nat) (hne : a.page ≠ (j : ℚ) + 1) :
    (flattenPages lib (pre ++ a :: post) pages)[j]?
      = (flattenPages lib (pre ++ post) pages)[j]? := by
  rw [flattenPages_getElem?, flattenPages_getElem?, annotationsOnPage_append,
    annotationsOnPage_cons_of_ne a post _ hne, annotationsOnPage_append]

theorem flattenPages_skip (lib : ImageLib) (pre post : List Annotation) (a : Annotation)
    (pages : List PdfPage)
    (h : ∀ (i : Nat) (page : PdfPage), i < pages.length → a.page = (i : ℚ) + 1 →
      drawOpsOf lib page a = []) :
    flattenPages lib (pre ++ a :: post) pages = flattenPages lib (pre ++ post) pages := by
  unfold flattenPages
  apply flattenFrom_congr
  intro i page _ hi
  rw [foldl_drawOnPage, foldl_drawOnPage, annotationsOnPage_append,
    annotationsOnPage_append]
  by_cases hp : a.page = (i : ℚ) + 1
  · rw [annotationsOnPage_cons_of_eq a post _ hp]
    simp [List.flatMap_append, List.flatMap_cons, h i page (by omega) hp]
  · rw [annotationsOnPage_cons_of_ne a post _ hp]

theorem cast_succ_ne_of_ne (i j : Nat) (h : j ≠ i) : (i : ℚ) + 1 ≠ (j : ℚ) + 1 := by
  intro e
  apply h
  have e2 : (j : ℚ) = (i : ℚ) := by linarith
  exact_mod_cast e2

theorem drawOpsOf_text_field (lib : ImageLib) (page : PdfPage) (a : Annotation)
    (od : ObjectData) (text : String) (htype : a.type = "text_field")
    (hod : a.objectData = some od) (htext : od.text = some text) (hne : text ≠ "") :
    drawOpsOf lib page a
      = [DrawOp.drawText text a.x (page.height - (a.y + a.height)) StandardFonts.Helvetica
          (fontSizeOrDefault (some od)) (rgb 0 0 0) a.width] := by
  simp [drawOpsOf, drawOnPage, htype, truthyText, hod, htext, hne, PdfPage.drawText,
    yFromBottom]

theorem drawOpsOf_embedded (lib : ImageLib) (page : PdfPage) (a : Annotation)
    (imageData : String) (image : PdfImage) (htype : a.type = "placed_signature")
    (himg : a.imageData = some imageData) (hne : imageData ≠ "")
    (hembed : embedSignatureImage lib imageData = EmbedOutcome.embedded image) :
    drawOpsOf lib page a
      = [DrawOp.drawImage image a.x (page.height - (a.y + a.height)) a.width a.height] := by
  have h1 : a.type ≠ "text_field" := by rw [htype]; decide
  simp [drawOpsOf, drawOnPage, htype, truthyString, himg, hne, hembed,
    PdfPage.drawImage, yFromBottom]

theorem drawOpsOf_embed_failed (lib : ImageLib) (page : PdfPage) (a : Annotation)
    (imageData : String) (htype : a.type = "placed_signature")
    (himg : a.imageData = some imageData)
    (hfail : embedSignatureImage lib imageData = EmbedOutcome.threw
      ∨ ∃ mimeType, embedSignatureImage lib imageData = EmbedOutcome.unsupported mimeType) :
    drawOpsOf lib page a = [] := by
  have h1 : a.type ≠ "text_field" := by rw [htype]; decide
  by_cases hne : imageData = ""
  · simp [drawOpsOf, drawOnPage, htype, truthyString, himg, hne]
  · rcases hfail with h | ⟨m, h⟩
    · simp [drawOpsOf, drawOnPage, htype, truthyString, himg, hne, h]
    · simp [drawOpsOf, drawOnPage, htype, truthyString, himg, hne, h]

theorem findOne_some (documents : List DocumentRecord) (documentId userId : String)
    (document : DocumentRecord) (h : findOne documents documentId userId = some document) :
    document._id = documentId ∧ document.owner = userId ∧ document ∈ documents := by
  unfold findOne at h
  have h1 := List.find?_some h
  have h2 := List.mem_of_find?_eq_some h
  simp only [decide_eq_true_eq] at h1
  exact ⟨h1.1, h1.2, h2⟩

theorem findOne_saveDocument (documents : List DocumentRecord) (documentId userId : String)
    (document saved : DocumentRecord)
    (h : findOne documents documentId userId = some document)
    (hid : saved._id = document._id) (howner : saved.owner = document.owner) :
    findOne (saveDocument documents saved) documentId userId = some saved := by
  have h12 := findOne_some documents documentId userId document h
  have hs : saved._id = documentId ∧ saved.owner = userId :=
    ⟨hid.trans h12.1, howner.trans h12.2.1⟩
  clear h12
  unfold findOne saveDocument at *
  induction documents with
  | nil => simp at h
  | cons d ds ih =>
    by_cases hd : d._id = saved._id
    · simp [List.find?_cons, hd, hs]
    · by_cases hp : d._id = documentId ∧ d.owner = userId
      · exact absurd (hp.1.trans hs.1.symm) hd
      · have hfalse : decide (d._id = documentId ∧ d.owner = userId) = false := by
          simpa using hp
        rw [List.find?_cons, hfalse] at h
        simp only [List.map_cons, hd, if_false, List.find?_cons, hfalse]
        exact ih h

theorem readFile_writeFile (files : List (String × Bytes)) (path : String) (bytes : Bytes) :
    readFile (writeFile files path bytes) path = some bytes := by
  simp [readFile, writeFile]

theorem specNativeBox_native (Wn Hn x y width height : ℚ) (hW : 0 < Wn) (hH : 0 < Hn) :
    specNativeBox Wn Hn Wn Hn x y width height = ⟨x, Hn - (y + height), width, height⟩ := by
  simp [specNativeBox, div_self (ne_of_gt hW), div_self (ne_of_gt hH)]

/-! ## The loops as they run: a throwing `page.drawText` ends them -/

theorem drawAllOnPage_of_no_throw (lib : ImageLib) (as : List Annotation) (page : PdfPage)
    (h : ∀ a ∈ as, drawTextThrows lib a = false) :
    drawAllOnPage lib as page = some (as.foldl (drawOnPage lib) page) := by
  induction as generalizing page with
  | nil => rfl
  | cons a as ih =>
    have ha := h a (List.mem_cons_self a as)
    simp only [drawAllOnPage, ha, Bool.false_eq_true, if_false, List.foldl_cons]
    exact ih _ (fun b hb => h b (List.mem_cons_of_mem a hb))

theorem drawAllOnPage_of_throw (lib : ImageLib) (as : List Annotation) (page : PdfPage)
    (a : Annotation) (ha : a ∈ as) (hthrow : drawTextThrows lib a = true) :
    drawAllOnPage lib as page = none := by
  induction as generalizing page with
  | nil => simp at ha
  | cons b as ih =>
    by_cases hb : drawTextThrows lib b = true
    · simp [drawAllOnPage, hb]
    · simp only [drawAllOnPage, hb, if_false]
      rcases List.mem_cons.1 ha with h | h
      · subst h
        exact absurd hthrow hb
      · exact ih _ h

theorem finalizeLoopFrom_of_no_throw (lib : ImageLib) (anns : List Annotation)
    (pages : List PdfPage) (k : Nat)
    (h : ∀ (i : Nat), i < pages.length →
      ∀ a ∈ annotationsOnPage anns (((k + i : Nat) : ℚ) + 1), drawTextThrows lib a = false) :
    finalizeLoopFrom lib anns k pages = some (flattenFrom lib anns k pages) := by
  induction pages generalizing k with
  | nil => rfl
  | cons page rest ih =>
    have h0 := h 0 (by simp)
    simp only [Nat.add_zero] at h0
    have hrest := ih (k + 1) (fun i hi a ha =>
      h (i + 1) (by simpa using hi) a (by
        have e : k + (i + 1) = k + 1 + i := by omega
        rw [e]
        exact ha))
    simp only [finalizeLoopFrom, drawAllOnPage_of_no_throw lib _ page h0, hrest, flattenFrom]

theorem finalizeLoopFrom_of_throw (lib : ImageLib) (anns : List Annotation)
    (pages : List PdfPage) (k i : Nat) (a : Annotation) (hi : i < pages.length)
    (ha : a ∈ annotationsOnPage anns (((k + i : Nat) : ℚ) + 1))
    (hthrow : drawTextThrows lib a = true) :
    finalizeLoopFrom lib anns k pages = none := by
  induction pages generalizing k i with
  | nil => simp at hi
  | cons page rest ih =>
    cases i with
    | zero =>
      simp only [Nat.add_zero] at ha
      simp only [finalizeLoopFrom, drawAllOnPage_of_throw lib _ page a ha hthrow]
    | succ j =>
      have hj : j < rest.length := by simpa using hi
      have e : k + (j + 1) = k + 1 + j := by omega
      rw [e] at ha
      have hrest := ih (k + 1) j hj ha
      simp only [finalizeLoopFrom, hrest]
      cases drawAllOnPage lib (annotationsOnPage anns ((k : ℚ) + 1)) page <;> rfl

/-- The loops either end in a throw or give the flattened pages. -/
theorem finalizeLoop_some (lib : ImageLib) (anns : List Annotation) (pages flats : List PdfPage)
    (h : finalizeLoop lib anns pages = some flats) :
    flats = flattenPages lib anns pages := by
  by_cases hthrow : ∃ (i : Nat) (a : Annotation), i < pages.length
      ∧ a ∈ annotationsOnPage anns (((0 + i : Nat) : ℚ) + 1) ∧ drawTextThrows lib a = true
  · obtain ⟨i, a, hi, ha, ht⟩ := hthrow
    rw [finalizeLoop, finalizeLoopFrom_of_throw lib anns pages 0 i a hi ha ht] at h
    exact Option.noConfusion h
  · have hno : ∀ (i : Nat), i < pages.length →
        ∀ a ∈ annotationsOnPage anns (((0 + i : Nat) : ℚ) + 1),
          drawTextThrows lib a = false := by
      intro i hi a ha
      cases ht : drawTextThrows lib a with
      | false => rfl
      | true => exact absurd ⟨i, a, hi, ha, ht⟩ hthrow
    rw [finalizeLoop, finalizeLoopFrom_of_no_throw lib anns pages 0 hno] at h
    exact (Option.some.inj h).symm

/-- The loops complete when no annotation of the collection makes `page.drawText` throw. -/
theorem finalizeLoop_of_no_throw (lib : ImageLib) (anns : List Annotation)
    (pages : List PdfPage) (h : ∀ a ∈ anns, drawTextThrows lib a = false) :
    finalizeLoop lib anns pages = some (flattenPages lib anns pages) := by
  apply finalizeLoopFrom_of_no_throw
  intro i _ a ha
  exact h a (List.mem_of_mem_filter ha)

/-- The loops end in a throw when an annotation of an existing page makes `page.drawText`
throw. -/
theorem finalizeLoop_of_throw (lib : ImageLib) (anns : List Annotation) (pages : List PdfPage)
    (i : Nat) (a : Annotation) (hi : i < pages.length) (ha : a ∈ anns)
    (hpage : a.page = (i : ℚ) + 1) (hthrow : drawTextThrows lib a = true) :
    finalizeLoop lib anns pages = none := by
  apply finalizeLoopFrom_of_throw lib anns pages 0 i a hi _ hthrow
  simp only [Nat.zero_add, annotationsOnPage, List.mem_filter, decide_eq_true_eq]
  exact ⟨ha, hpage⟩

/-- An annotation that neither throws nor draws can be left out of the collection. -/
theorem finalizeLoop_skip (lib : ImageLib) (pre post : List Annotation) (a : Annotation)
    (pages : List PdfPage) (hquiet : drawTextThrows lib a = false)
    (hnone : ∀ page : PdfPage, drawOpsOf lib page a = []) :
    finalizeLoop lib (pre ++ a :: post) pages = finalizeLoop lib (pre ++ post) pages := by
  have hflat : flattenPages lib (pre ++ a :: post) pages
      = flattenPages lib (pre ++ post) pages :=
    flattenPages_skip lib pre post a pages (fun _ page _ _ => hnone page)
  by_cases hthrow : ∃ (i : Nat) (b : Annotation), i < pages.length
      ∧ b ∈ annotationsOnPage (pre ++ post) (((0 + i : Nat) : ℚ) + 1)
      ∧ drawTextThrows lib b = true
  · obtain ⟨i, b, hi, hb, ht⟩ := hthrow
    have hb2 : b ∈ annotationsOnPage (pre ++ a :: post) (((0 + i : Nat) : ℚ) + 1) := by
      simp only [annotationsOnPage, List.mem_filter, List.mem_append, List.mem_cons,
        decide_eq_true_eq] at hb ⊢
      exact ⟨hb.1.elim Or.inl (fun h => Or.inr (Or.inr h)), hb.2⟩
    rw [finalizeLoop, finalizeLoop, finalizeLoopFrom_of_throw lib _ pages 0 i b hi hb2 ht,
      finalizeLoopFrom_of_throw lib _ pages 0 i b hi hb ht]
  · have hno : ∀ (i : Nat), i < pages.length →
        ∀ b ∈ annotationsOnPage (pre ++ post) (((0 + i : Nat) : ℚ) + 1),
          drawTextThrows lib b = false := by
      intro i hi b hb
      cases ht : drawTextThrows lib b with
      | false => rfl
      | true => exact absurd ⟨i, b, hi, hb, ht⟩ hthrow
    have hno2 : ∀ (i : Nat), i < pages.length →
        ∀ b ∈ annotationsOnPage (pre ++ a :: post) (((0 + i : Nat) : ℚ) + 1),
          drawTextThrows lib b = false := by
      intro i hi b hb
      simp only [annotationsOnPage, List.mem_filter, List.mem_append, List.mem_cons,
        decide_eq_true_eq] at hb
      rcases hb with ⟨h | h | h, hp⟩
      · exact hno i hi b (by
          simp only [annotationsOnPage, List.mem_filter, List.mem_append, decide_eq_true_eq]
          exact ⟨Or.inl h, hp⟩)
      · rw [h]
        exact hquiet
      · exact hno i hi b (by
          simp only [annotationsOnPage, List.mem_filter, List.mem_append, decide_eq_true_eq]
          exact ⟨Or.inr h, hp⟩)
    rw [finalizeLoop, finalizeLoop, finalizeLoopFrom_of_no_throw lib _ pages 0 hno2,
      finalizeLoopFrom_of_no_throw lib _ pages 0 hno]
    exact congrArg some hflat

/-- What a 200 answer of the finalize route implies: every step succeeded, and the
response and the new state are those of the success branch. -/
theorem finalizeRoute_ok (env : Env) (st : ServerState) (userId documentId : String)
    (hok : (finalizeRoute env st userId documentId).1.status = 200) :
    ∃ (document : DocumentRecord) (bytes out : Bytes) (sizes : List (ℚ × ℚ)),
      findOne st.documents documentId userId = some document
        ∧ readFile st.files (env.pathJoin [env.dirname, "..", document.filePath]) = some bytes
        ∧ env.loadPdf bytes = some sizes
        ∧ env.savePdf bytes (flattenPages env.lib document.annotations
            (sizes.map (fun size => ⟨size.1, size.2, []⟩))) = some out
        ∧ finalizeRoute env st userId documentId
            = (⟨200, Body.finalized "Document finalized successfully!"
                  ("http://localhost:5000/" ++ newFilePath env document) document._id⟩,
                { documents := saveDocument st.documents
                    { document with
                      finalizedPath := some ("/" ++ newFilePath env document),
                      isFinalized := true },
                  files := writeFile st.files
                    (env.pathJoin [env.dirname, "..", newFilePath env document]) out }) := by
  cases hfind : findOne st.documents documentId userId with
  | none => simp [finalizeRoute, hfind] at hok
  | some document =>
    cases hread : readFile st.files
        (env.pathJoin [env.dirname, "..", document.filePath]) with
    | none => simp [finalizeRoute, hfind, hread] at hok
    | some bytes =>
      cases hload : env.loadPdf bytes with
      | none => simp [finalizeRoute, hfind, hread, hload] at hok
      | some sizes =>
        cases hloop : finalizeLoop env.lib document.annotations
            (sizes.map (fun size => ⟨size.1, size.2, []⟩)) with
        | none => simp [finalizeRoute, hfind, hread, hload, hloop] at hok
        | some pages =>
          have hpages := finalizeLoop_some _ _ _ _ hloop
          subst hpages
          cases hsave : env.savePdf bytes (flattenPages env.lib document.annotations
              (sizes.map (fun size => ⟨size.1, size.2, []⟩))) with
          | none => simp [finalizeRoute, hfind, hread, hload, hloop, hsave] at hok
          | some out =>
            cases hdb : env.dbSaveOk { document with
                finalizedPath := some ("/" ++ newFilePath env document),
                isFinalized := true } with
            | false => simp [finalizeRoute, hfind, hread, hload, hloop, hsave, hdb] at hok
            | true =>
              refine ⟨document, bytes, out, sizes, rfl, hread, hload, hsave, ?_⟩
              simp only [finalizeRoute, hfind, hread, hload, hloop, hsave, hdb, if_true]

/-- The finalize route for a collection in which no annotation makes `page.drawText` throw:
the loops give the flattened pages. -/
theorem finalizeRoute_of_no_throw (env : Env) (st : ServerState) (userId documentId : String)
    (document : DocumentRecord)
    (hfind : findOne st.documents documentId userId = some document)
    (hquiet : document.annotations.all (fun a => !drawTextThrows env.lib a) = true) :
    finalizeRoute env st userId documentId
      = match readFile st.files (env.pathJoin [env.dirname, "..", document.filePath]) with
        | none => (⟨404, Body.message "Original PDF file not found on server."⟩, st)
        | some existingPdfBytes =>
          match env.loadPdf existingPdfBytes with
          | none => (⟨500, Body.message "Server error during document finalization."⟩, st)
          | some sizes =>
            match env.savePdf existingPdfBytes (flattenPages env.lib document.annotations
                (sizes.map (fun size => ⟨size.1, size.2, []⟩))) with
            | none => (⟨500, Body.message "Server error during document finalization."⟩, st)
            | some flattenedPdfBytes =>
              if env.dbSaveOk { document with
                  finalizedPath := some ("/" ++ newFilePath env document),
                  isFinalized := true } then
                (⟨200, Body.finalized "Document finalized successfully!"
                    ("http://localhost:5000/" ++ newFilePath env document) document._id⟩,
                  { documents := saveDocument st.documents
                      { document with
                        finalizedPath := some ("/" ++ newFilePath env document),
                        isFinalized := true },
                    files := writeFile st.files
                      (env.pathJoin [env.dirname, "..", newFilePath env document])
                      flattenedPdfBytes })
              else
                (⟨500, Body.message "Server error during document finalization."⟩,
                  { st with
                    files := writeFile st.files
                      (env.pathJoin [env.dirname, "..", newFilePath env document])
                      flattenedPdfBytes }) := by
  have hno : ∀ a ∈ document.annotations, drawTextThrows env.lib a = false := by
    intro a ha
    have h := List.all_eq_true.1 hquiet a ha
    simpa using h
  have hloop := fun pages => finalizeLoop_of_no_throw env.lib document.annotations pages hno
  simp only [finalizeRoute, hfind, hloop]

/-- The finalize route when `page.drawText` throws for an annotation of an existing page:
the outer `catch` answers 500 and nothing has been written. -/
theorem finalizeRoute_of_throw (env : Env) (st : ServerState) (userId documentId : String)
    (document : DocumentRecord) (bytes : Bytes) (sizes : List (ℚ × ℚ)) (i : Nat)
    (a : Annotation)
    (hfind : findOne st.documents documentId userId = some document)
    (hread : readFile st.files (env.pathJoin [env.dirname, "..", document.filePath])
      = some bytes)
    (hload : env.loadPdf bytes = some sizes)
    (hi : i < sizes.length) (ha : a ∈ document.annotations) (hpage : a.page = (i : ℚ) + 1)
    (hthrow : drawTextThrows env.lib a = true) :
    finalizeRoute env st userId documentId
      = (⟨500, Body.message "Server error during document finalization."⟩, st) := by
  have hloop := finalizeLoop_of_throw env.lib document.annotations
    (sizes.map (fun size => ⟨size.1, size.2, []⟩)) i a (by simpa using hi) ha hpage hthrow
  simp only [finalizeRoute, hfind, hread, hload, hloop]

/-- The finalize route in the sample environment, for a server whose only record is the
sample document with a collection on which `page.drawText` does not throw. -/
theorem sampleEnv_finalizeRoute (st : ServerState) (annotations : List Annotation)
    (finalizedPath : Option String) (isFinalized : Bool) (bytes : Bytes)
    (hdocs : st.documents = [sampleDocument annotations finalizedPath isFinalized])
    (hread : readFile st.files "/srv/server/uploads/17-contract.pdf" = some bytes)
    (hquiet : annotations.all (fun a => !drawTextThrows sampleLib a) = true) :
    finalizeRoute sampleEnv st "alice" "doc1"
      = (⟨200, Body.finalized "Document finalized successfully!"
            "http://localhost:5000/uploads/finalized_contract.pdf" "doc1"⟩,
          { documents :=
              [sampleDocument annotations (some "/uploads/finalized_contract.pdf") true],
            files := writeFile st.files "/srv/server/uploads/finalized_contract.pdf"
              (bytes ++ (flattenPages sampleLib annotations [⟨612, 792, []⟩]).map
                (fun page => page.drawn.length)) }) := by
  have hfind : findOne st.documents "doc1" "alice"
      = some (sampleDocument annotations finalizedPath isFinalized) := by
    rw [hdocs]
    rfl
  have hpath : sampleEnv.pathJoin
      [sampleEnv.dirname, "..", (sampleDocument annotations finalizedPath isFinalized).filePath]
      = "/srv/server/uploads/17-contract.pdf" := rfl
  rw [finalizeRoute_of_no_throw sampleEnv st "alice" "doc1" _ hfind hquiet, hpath, hread, hdocs]
  rfl

/-- The callback `handleFinalizeDocument` when its guard is passed and a token is stored,
in terms of the state it was called in. -/
theorem handleFinalizeDocument_passed (env : Env) (saveDelivered finalizeDelivered : Bool)
    (v : ViewerState) (st : ServerState) (documentId token : String)
    (hdoc : truthyString v.documentId = some documentId)
    (hidle : v.isFinalizing = false)
    (htoken : truthyString v.token = some token) :
    handleFinalizeDocument env saveDelivered finalizeDelivered v st
      = if finalizeDelivered = true then
          if 200 ≤ (authenticated env (some ("Bearer " ++ token))
                (saveAnnotations env saveDelivered v st v.allAnnotations)
                (fun userId => finalizeRoute env
                  (saveAnnotations env saveDelivered v st v.allAnnotations)
                  userId documentId)).1.status
              ∧ (authenticated env (some ("Bearer " ++ token))
                (saveAnnotations env saveDelivered v st v.allAnnotations)
                (fun userId => finalizeRoute env
                  (saveAnnotations env saveDelivered v st v.allAnnotations)
                  userId documentId)).1.status ≤ 299 then
            ({ v with
                displayPdfUrl :=
                  match (authenticated env (some ("Bearer " ++ token))
                    (saveAnnotations env saveDelivered v st v.allAnnotations)
                    (fun userId => finalizeRoute env
                      (saveAnnotations env saveDelivered v st v.allAnnotations)
                      userId documentId)).1.body with
                  | Body.finalized _ finalizedUrl _ => some finalizedUrl
                  | _ => none
                annotationMode := "view", fabricCanvas := false, allAnnotations := [],
                isFinalizing := false },
              (authenticated env (some ("Bearer " ++ token))
                (saveAnnotations env saveDelivered v st v.allAnnotations)
                (fun userId => finalizeRoute env
                  (saveAnnotations env saveDelivered v st v.allAnnotations)
                  userId documentId)).2)
          else
            ({ v with isFinalizing := false },
              (authenticated env (some ("Bearer " ++ token))
                (saveAnnotations env saveDelivered v st v.allAnnotations)
                (fun userId => finalizeRoute env
                  (saveAnnotations env saveDelivered v st v.allAnnotations)
                  userId documentId)).2)
        else
          ({ v with isFinalizing := false },
            saveAnnotations env saveDelivered v st v.allAnnotations) := by
  have htoken2 : truthyString (beginFinalize v).token = some token := htoken
  simp only [handleFinalizeDocument, hdoc, hidle, Bool.false_eq_true, if_false,
    finishFinalize, htoken2]
  rfl

/-- The callback `handleFinalizeDocument` of the sample viewer on the sample server, both
requests delivered, for a working collection on which `page.drawText` does not throw. -/
theorem sampleEnv_handleFinalize (working stored : List Annotation)
    (hquiet : working.all (fun a => !drawTextThrows sampleLib a) = true) :
    handleFinalizeDocument sampleEnv true true (sampleViewer working)
        (sampleServer stored none false)
      = ({ sampleViewer working with
            displayPdfUrl := some "http://localhost:5000/uploads/finalized_contract.pdf"
            annotationMode := "view", fabricCanvas := false, allAnnotations := [],
            isFinalizing := false },
          { documents :=
              [sampleDocument working (some "/uploads/finalized_contract.pdf") true],
            files := writeFile (sampleServer stored none false).files
              "/srv/server/uploads/finalized_contract.pdf"
              ([37, 80, 68, 70] ++ (flattenPages sampleLib working [⟨612, 792, []⟩]).map
                (fun page => page.drawn.length)) }) := by
  have hroute := sampleEnv_finalizeRoute
    (saveAnnotations sampleEnv true (sampleViewer working) (sampleServer stored none false)
      (sampleViewer working).allAnnotations)
    working none false [37, 80, 68, 70] rfl rfl hquiet
  have hauth : ∀ handler : String → Response × ServerState,
      authenticated sampleEnv (some ("Bearer " ++ "alice-token"))
        (saveAnnotations sampleEnv true (sampleViewer working) (sampleServer stored none false)
          (sampleViewer working).allAnnotations) handler = handler "alice" := fun _ => rfl
  rw [handleFinalizeDocument_passed sampleEnv true true (sampleViewer working)
    (sampleServer stored none false) "doc1" "alice-token" rfl rfl rfl]
  simp only [hauth, hroute]
  rfl

/-! ## Paths: the last segment survives `path.join` -/

theorem splitAux_append_sep (sep : Char) (xs ys cur : List Char) :
    splitAux sep (xs ++ sep :: ys) cur = splitAux sep xs cur ++ splitAux sep ys [] := by
  induction xs generalizing cur with
  | nil => simp [splitAux]
  | cons c xs ih =>
    by_cases hc : c = sep
    · simp [splitAux, hc, ih]
    · simp [splitAux, hc, ih]

theorem splitAux_no_sep (sep : Char) (ys cur : List Char) (h : sep ∉ ys) :
    splitAux sep ys cur = [cur.reverse ++ ys] := by
  induction ys generalizing cur with
  | nil => simp [splitAux]
  | cons c ys ih =>
    have hc : c ≠ sep := fun e => h (by simp [e])
    have hys : sep ∉ ys := fun e => h (by simp [e])
    simp [splitAux, hc, ih _ hys]

theorem normStep_plain (b : Bool) (acc : List (List Char)) (segment : List Char)
    (h : IsPlainSegment segment) : normStep b acc segment = segment :: acc := by
  simp [normStep, h.1, h.2.1, h.2.2.1]

theorem joinChars_append_singleton (sep : List Char) (pieces : List (List Char))
    (piece : List Char) (h : pieces ≠ []) :
    joinChars sep (pieces ++ [piece]) = joinChars sep pieces ++ sep ++ piece := by
  induction pieces with
  | nil => exact absurd rfl h
  | cons p ps ih =>
    cases ps with
    | nil => simp [joinChars]
    | cons q qs =>
      have := ih (by simp)
      simp only [List.cons_append] at this ⊢
      simp [joinChars, this]

theorem posixNormalize_endsIn (before segment : List Char) (h : IsPlainSegment segment) :
    EndsInSegment (posixNormalize (before ++ '/' :: segment)) segment := by
  obtain ⟨hne, h1, h2, hslash⟩ := h
  have hraw : before ++ '/' :: segment ≠ [] := by simp
  have hlast : (before ++ '/' :: segment).getLast? ≠ some '/' := by
    intro e
    have : segment.getLast? = some '/' := by
      rw [← e]
      rw [show before ++ '/' :: segment = (before ++ ['/']) ++ segment by simp]
      rw [List.getLast?_append_of_ne_nil _ hne]
    exact hslash (List.mem_of_getLast?_eq_some this)
  have hsplit : splitAux '/' (before ++ '/' :: segment) []
      = splitAux '/' before [] ++ [segment] := by
    rw [splitAux_append_sep, splitAux_no_sep '/' segment [] hslash]
    simp
  unfold posixNormalize
  simp only [hraw, if_false, hsplit, List.foldl_append, List.foldl_cons, List.foldl_nil,
    normStep_plain _ _ segment ⟨hne, h1, h2, hslash⟩, List.reverse_cons, hlast]
  generalize (List.foldl (normStep (!decide ((before ++ '/' :: segment).head? = some '/'))) []
    (splitAux '/' before [])).reverse = kept
  by_cases hk : kept = []
  · subst hk
    simp only [List.nil_append, joinChars, hne, if_false, List.append_nil]
    by_cases habs : (before ++ '/' :: segment).head? = some '/'
    · simp only [habs, if_true]
      exact Or.inr ⟨[], rfl⟩
    · simp only [habs, if_false]
      exact Or.inl rfl
  · rw [joinChars_append_singleton _ _ _ hk]
    have hbody : joinChars ['/'] kept ++ ['/'] ++ segment ≠ [] := by simp
    simp only [hbody, if_false, List.append_nil]
    refine Or.inr ⟨(if (before ++ '/' :: segment).head? = some '/' then ['/'] else [])
      ++ joinChars ['/'] kept, ?_⟩
    simp

theorem endsInSegment_unique (path a b : List Char) (ha : EndsInSegment path a)
    (hb : EndsInSegment path b) (hsa : '/' ∉ a) (hsb : '/' ∉ b) : a = b := by
  have key : ∀ seg : List Char, EndsInSegment path seg → '/' ∉ seg →
      (path.reverse.takeWhile (fun c => c ≠ '/')).reverse = seg := by
    intro seg hseg hs
    have hall : ∀ c ∈ seg.reverse, (fun c => decide (c ≠ '/')) c = true := by
      intro c hc
      have : c ∈ seg := List.mem_reverse.mp hc
      simp only [decide_eq_true_eq]
      intro e
      exact hs (e ▸ this)
    rcases hseg with h | ⟨before, h⟩
    · rw [h, List.takeWhile_eq_self_iff.mpr hall, List.reverse_reverse]
    · rw [h, List.reverse_append, List.reverse_cons, List.append_assoc,
        List.takeWhile_append_of_pos hall]
      simp
  rw [← key a ha hsa, ← key b hb hsb]

theorem digitChar_isDigit (d : Nat) (h : d < 10) :
    (Nat.digitChar d).isDigit = true ∧ Nat.digitChar d ≠ '/' ∧ Nat.digitChar d ≠ 'f'
      ∧ Nat.digitChar d ≠ '.' := by
  interval_cases d <;> decide

theorem toDigitsCore_digits (fuel n : Nat) (ds : List Char)
    (hds : ∀ c ∈ ds, c ≠ '/' ∧ c ≠ 'f' ∧ c ≠ '.') :
    ∀ c ∈ Nat.toDigitsCore 10 fuel n ds, c ≠ '/' ∧ c ≠ 'f' ∧ c ≠ '.' := by
  induction fuel generalizing n ds with
  | zero => simpa [Nat.toDigitsCore] using hds
  | succ fuel ih =>
    have hd := (digitChar_isDigit (n % 10) (Nat.mod_lt _ (by decide))).2
    have hcons : ∀ c ∈ Nat.digitChar (n % 10) :: ds, c ≠ '/' ∧ c ≠ 'f' ∧ c ≠ '.' := by
      intro c hc
      rcases List.mem_cons.mp hc with h | h
      · rw [h]; exact hd
      · exact hds c h
    unfold Nat.toDigitsCore
    by_cases h0 : n / 10 = 0
    · simpa [h0] using hcons
    · simp only [h0, if_false]
      exact ih (n / 10) _ hcons

theorem toDigitsCore_ne_nil (fuel n : Nat) (ds : List Char) (h : ds ≠ [] ∨ 0 < fuel) :
    Nat.toDigitsCore 10 fuel n ds ≠ [] := by
  induction fuel generalizing n ds with
  | zero =>
    rcases h with h | h
    · simpa [Nat.toDigitsCore] using h
    · exact absurd h (by decide)
  | succ fuel ih =>
    unfold Nat.toDigitsCore
    by_cases h0 : n / 10 = 0
    · simp [h0]
    · simp only [h0, if_false]
      exact ih _ _ (Or.inl (by simp))

theorem toString_nat_data (n : Nat) :
    (toString n).data ≠ [] ∧ ∀ c ∈ (toString n).data, c ≠ '/' ∧ c ≠ 'f' ∧ c ≠ '.' := by
  have e : (toString n).data = Nat.toDigits 10 n := rfl
  rw [e]
  exact ⟨toDigitsCore_ne_nil _ _ _ (Or.inr (Nat.succ_pos n)),
    toDigitsCore_digits _ _ _ (by simp)⟩

theorem posixJoin_endsIn (parts : List String) (last : String) (segment : List Char)
    (hseg : IsPlainSegment segment) (hlast : EndsInSegment last.data segment)
    (hparts : ∃ p ∈ parts, p.data ≠ []) :
    EndsInSegment (posixJoin (parts ++ [last])).data segment := by
  have hlastne : last.data ≠ [] := by
    rcases hlast with h | ⟨before, h⟩
    · rw [h]; exact hseg.1
    · rw [h]; simp
  have hfilter : ((parts ++ [last]).map String.data).filter (fun part => part ≠ [])
      = (parts.map String.data).filter (fun part => part ≠ []) ++ [last.data] := by
    simp [List.filter_append, hlastne]
  have hfront : (parts.map String.data).filter (fun part => part ≠ []) ≠ [] := by
    obtain ⟨p, hp, hne⟩ := hparts
    intro e
    have hmem : p.data ∈ (parts.map String.data).filter (fun part => part ≠ []) := by
      simp only [List.mem_filter, List.mem_map, decide_eq_true_eq]
      exact ⟨⟨p, hp, rfl⟩, hne⟩
    rw [e] at hmem
    exact List.not_mem_nil _ hmem
  unfold posixJoin
  simp only [hfilter, List.append_eq_nil, List.cons_ne_nil, and_false, if_false,
    joinChars_append_singleton _ _ _ hfront]
  rcases hlast with h | ⟨before, h⟩
  · rw [h]
    have := posixNormalize_endsIn
      (joinChars ['/'] ((parts.map String.data).filter (fun part => part ≠ []))) segment hseg
    simpa using this
  · rw [h]
    have := posixNormalize_endsIn
      (joinChars ['/'] ((parts.map String.data).filter (fun part => part ≠ [])) ++ ['/']
        ++ before) segment hseg
    simpa using this

theorem storageFilename_plain (now : Nat) (file : UploadedFile)
    (hname : '/' ∉ file.originalname.data) :
    IsPlainSegment (storageFilename now file).data
      ∧ (storageFilename now file).data.head? ≠ some 'f' := by
  obtain ⟨hne, hdig⟩ := toString_nat_data now
  have hdata : (storageFilename now file).data
      = (toString now).data ++ ('-' :: file.originalname.data) := by
    simp [storageFilename, String.data_append]
  rw [hdata]
  obtain ⟨c, cs, hcs⟩ := List.exists_cons_of_ne_nil hne
  have hc := hdig c (by rw [hcs]; simp)
  refine ⟨⟨by simp, ?_, ?_, ?_⟩, ?_⟩
  · rw [hcs]; simp
  · rw [hcs]
    intro e
    simp only [List.cons_append, List.cons.injEq] at e
    exact hc.2.2 e.1
  · intro hmem
    rcases List.mem_append.mp hmem with h | h
    · exact (hdig _ h).1 rfl
    · rcases List.mem_cons.mp h with h | h
      · exact absurd h (by decide)
      · exact hname h
  · rw [hcs]
    simp only [List.cons_append, List.head?_cons, ne_eq, Option.some.injEq]
    exact hc.2.1

theorem finalizedName_plain (name : String) (hname : '/' ∉ name.data) :
    IsPlainSegment ("finalized_" ++ name).data
      ∧ ("finalized_" ++ name).data.head? = some 'f' := by
  have hdata : ("finalized_" ++ name).data = "finalized_".data ++ name.data := by
    simp [String.data_append]
  rw [hdata]
  refine ⟨⟨by simp, by simp, by simp, ?_⟩, rfl⟩
  intro hmem
  rcases List.mem_append.mp hmem with h | h
  · exact absurd h (by decide)
  · exact hname h

theorem readFile_writeFile_ne (files : List (String × Bytes)) (path other : String)
    (bytes : Bytes) (h : other ≠ path) :
    readFile (writeFile files path bytes) other = readFile files other := by
  have hfilter : ∀ fs : List (String × Bytes),
      List.find? (fun f => decide (f.1 = other)) (fs.filter (fun f => decide (f.1 ≠ path)))
        = List.find? (fun f => decide (f.1 = other)) fs := by
    intro fs
    rw [List.find?_filter]
    congr 1
    funext f
    by_cases ho : f.1 = other
    · have hp : f.1 ≠ path := fun e => h (ho.symm.trans e)
      simp [ho, hp, h]
    · simp [ho]
  simp only [readFile, writeFile, List.find?_cons]
  have hne : decide (path = other) = false := by simpa using fun e => h e.symm
  rw [hne, hfilter]

theorem finalizeRoute_files (env : Env) (st : ServerState) (userId documentId : String) :
    (finalizeRoute env st userId documentId).2.files = st.files
      ∨ ∃ (document : DocumentRecord) (out : Bytes),
          findOne st.documents documentId userId = some document
            ∧ (finalizeRoute env st userId documentId).2.files
              = writeFile st.files
                  (env.pathJoin [env.dirname, "..", newFilePath env document]) out := by
  cases hfind : findOne st.documents documentId userId with
  | none => left; simp [finalizeRoute, hfind]
  | some document =>
    cases hread : readFile st.files
        (env.pathJoin [env.dirname, "..", document.filePath]) with
    | none => left; simp [finalizeRoute, hfind, hread]
    | some bytes =>
      cases hload : env.loadPdf bytes with
      | none => left; simp [finalizeRoute, hfind, hread, hload]
      | some sizes =>
        cases hloop : finalizeLoop env.lib document.annotations
            (sizes.map (fun size => ⟨size.1, size.2, []⟩)) with
        | none => left; simp [finalizeRoute, hfind, hread, hload, hloop]
        | some pages =>
          cases hsave : env.savePdf bytes pages with
          | none => left; simp [finalizeRoute, hfind, hread, hload, hloop, hsave]
          | some out =>
            right
            refine ⟨document, out, rfl, ?_⟩
            simp only [finalizeRoute, hfind, hread, hload, hloop, hsave]
            split <;> rfl

theorem endsInSegment_cons_slash (path segment : List Char)
    (h : EndsInSegment path segment) : EndsInSegment ('/' :: path) segment := by
  rcases h with h | ⟨before, h⟩
  · exact Or.inr ⟨[], by simp [h]⟩
  · exact Or.inr ⟨'/' :: before, by simp [h]⟩

theorem upload_and_finalized_paths (dirname : String) (now : Nat) (file : UploadedFile)
    (hbase : '/' ∉ file.originalname.data) :
    EndsInSegment (posixJoin ["uploads/", storageFilename now file]).data
        (storageFilename now file).data
      ∧ EndsInSegment
          (posixJoin [dirname, "..", "/" ++ posixJoin ["uploads/", storageFilename now file]]).data
          (storageFilename now file).data
      ∧ EndsInSegment (posixJoin ["uploads", "finalized_" ++ file.originalname]).data
          ("finalized_" ++ file.originalname).data
      ∧ EndsInSegment
          (posixJoin [dirname, "..",
            posixJoin ["uploads", "finalized_" ++ file.originalname]]).data
          ("finalized_" ++ file.originalname).data := by
  have hO := (storageFilename_plain now file hbase).1
  have hF := (finalizedName_plain file.originalname hbase).1
  have h1 : EndsInSegment (posixJoin ["uploads/", storageFilename now file]).data
      (storageFilename now file).data :=
    posixJoin_endsIn ["uploads/"] (storageFilename now file) _ hO (Or.inl rfl)
      ⟨"uploads/", by simp, by decide⟩
  have h3 : EndsInSegment (posixJoin ["uploads", "finalized_" ++ file.originalname]).data
      ("finalized_" ++ file.originalname).data :=
    posixJoin_endsIn ["uploads"] ("finalized_" ++ file.originalname) _ hF (Or.inl rfl)
      ⟨"uploads", by simp, by decide⟩
  refine ⟨h1, ?_, h3, ?_⟩
  · refine posixJoin_endsIn [dirname, ".."] _ _ hO ?_ ⟨"..", by simp, by decide⟩
    rw [String.data_append]
    exact endsInSegment_cons_slash _ _ h1
  · exact posixJoin_endsIn [dirname, ".."] _ _ hF h3 ⟨"..", by simp, by decide⟩

/-! ## Rounding to doubles -/

theorem roundHalfEven_error (t : ℚ) : |(roundHalfEven t : ℚ) - t| ≤ 1 / 2 := by
  have h1 : (⌊t⌋ : ℚ) ≤ t := Int.floor_le t
  have h2 : t < (⌊t⌋ : ℚ) + 1 := Int.lt_floor_add_one t
  unfold roundHalfEven
  split_ifs with ha hb hc
  · rw [abs_le]; constructor <;> linarith
  · rw [abs_le]; push_cast; constructor <;> linarith
  · rw [abs_le]; constructor <;> linarith
  · rw [abs_le]; push_cast; constructor <;> linarith

theorem roundHalfEven_eq (t : ℚ) (n : ℤ) (h1 : (n : ℚ) - 1 / 2 < t) (h2 : t < n + 1 / 2) :
    roundHalfEven t = n := by
  have hf1 : (⌊t⌋ : ℚ) ≤ t := Int.floor_le t
  have hf2 : t < (⌊t⌋ : ℚ) + 1 := Int.lt_floor_add_one t
  unfold roundHalfEven
  split_ifs with ha hb hc
  · have h3 : (⌊t⌋ : ℚ) < n + 1 := by linarith
    have h4 : (n : ℚ) < ⌊t⌋ + 1 := by linarith
    have h3' : ⌊t⌋ < n + 1 := by exact_mod_cast h3
    have h4' : n < ⌊t⌋ + 1 := by exact_mod_cast h4
    omega
  · have h3 : (⌊t⌋ : ℚ) + 1 < n + 1 := by linarith
    have h4 : (n : ℚ) < ⌊t⌋ + 1 + 1 := by linarith
    have h3' : ⌊t⌋ + 1 < n + 1 := by exact_mod_cast h3
    have h4' : n < ⌊t⌋ + 1 + 1 := by exact_mod_cast h4
    omega
  · have hhalf : t - ⌊t⌋ = 1 / 2 := le_antisymm (not_lt.1 hb) (not_lt.1 ha)
    have h3 : (⌊t⌋ : ℚ) < n := by linarith
    have h4 : (n : ℚ) < ⌊t⌋ + 1 := by linarith
    have h3' : ⌊t⌋ < n := by exact_mod_cast h3
    have h4' : n < ⌊t⌋ + 1 := by exact_mod_cast h4
    omega
  · have hhalf : t - ⌊t⌋ = 1 / 2 := le_antisymm (not_lt.1 hb) (not_lt.1 ha)
    have h3 : (⌊t⌋ : ℚ) < n := by linarith
    have h4 : (n : ℚ) < ⌊t⌋ + 1 := by linarith
    have h3' : ⌊t⌋ < n := by exact_mod_cast h3
    have h4' : n < ⌊t⌋ + 1 := by exact_mod_cast h4
    omega

theorem ulp_pos (q : ℚ) : 0 < ulp q := by
  unfold ulp
  positivity

theorem ulp_le (q : ℚ) (hq : q ≠ 0) : ulp q * 2 ^ 52 ≤ |q| := by
  have hpos : 0 < |q| := abs_pos.2 hq
  have h := Int.zpow_log_le_self (b := 2) (by norm_num) hpos
  unfold ulp
  rw [zpow_sub₀ (by norm_num : (2 : ℚ) ≠ 0)]
  have e : (2 : ℚ) ^ (52 : ℤ) = 2 ^ 52 := by norm_cast
  rw [e, div_mul_cancel₀ _ (by positivity)]
  exact_mod_cast h

theorem ulp_eq (q : ℚ) (e : ℤ) (hlo : (2 : ℚ) ^ e ≤ |q|) (hhi : |q| < 2 ^ (e + 1)) :
    ulp q = 2 ^ (e - 52) := by
  have hpos : 0 < |q| := lt_of_lt_of_le (by positivity) hlo
  have h1 : e ≤ Int.log 2 |q| :=
    (Int.zpow_le_iff_le_log (b := 2) (by norm_num) hpos).1 (by exact_mod_cast hlo)
  have h2 : Int.log 2 |q| < e + 1 :=
    (Int.lt_zpow_iff_log_lt (b := 2) (by norm_num) hpos).1 (by exact_mod_cast hhi)
  have h3 : Int.log 2 |q| = e := by omega
  unfold ulp
  rw [h3]

/-- The relative error of rounding is at most `2 ^ (-53)`. -/
theorem toDouble_error (q : ℚ) : |toDouble q - q| ≤ |q| / 2 ^ 53 := by
  by_cases hq : q = 0
  · subst hq
    simp [toDouble, roundHalfEven]
  · have hu := ulp_pos q
    have hle := ulp_le q hq
    have hr := roundHalfEven_error (q / ulp q)
    have e : toDouble q - q = ((roundHalfEven (q / ulp q) : ℚ) - q / ulp q) * ulp q := by
      unfold toDouble
      field_simp
    rw [e, abs_mul, abs_of_pos hu]
    have h1 : |(roundHalfEven (q / ulp q) : ℚ) - q / ulp q| * ulp q ≤ 1 / 2 * ulp q :=
      mul_le_mul_of_nonneg_right hr (le_of_lt hu)
    have h2 : 1 / 2 * ulp q ≤ |q| / 2 ^ 53 := by
      rw [le_div_iff₀ (by positivity)]
      have : (1 / 2 * ulp q) * 2 ^ 53 = ulp q * 2 ^ 52 := by ring
      rw [this]
      exact hle
    exact le_trans h1 h2

/-- The double nearest to a positive rational, from the binade it lies in. -/
theorem toDouble_eq_of (q : ℚ) (e n : ℤ) (hlo : (2 : ℚ) ^ e ≤ q) (hhi : q < 2 ^ (e + 1))
    (h1 : (n : ℚ) - 1 / 2 < q / 2 ^ (e - 52)) (h2 : q / 2 ^ (e - 52) < n + 1 / 2) :
    toDouble q = n * 2 ^ (e - 52) := by
  have hpos : 0 < q := lt_of_lt_of_le (by positivity) hlo
  have habs : |q| = q := abs_of_pos hpos
  have hu : ulp q = 2 ^ (e - 52) := ulp_eq q e (by rw [habs]; exact hlo) (by rw [habs]; exact hhi)
  unfold toDouble
  rw [hu, roundHalfEven_eq _ n h1 h2]

/-- A product that undoes a quotient gives the dividend up to two roundings. -/
theorem jsMul_jsDiv_near (c w : ℚ) (hc : 0 < c) (hw : 0 < w) :
    |jsMul w (jsDiv c w) - c| ≤ c / 2 ^ 51 := by
  have hq : 0 < c / w := div_pos hc hw
  have h1 := toDouble_error (c / w)
  rw [abs_of_pos hq, abs_le] at h1
  have hp : w * (c / w) = c := by field_simp
  have hlo : c - c / 2 ^ 53 ≤ w * toDouble (c / w) := by
    have := mul_le_mul_of_nonneg_left h1.1 (le_of_lt hw)
    have e : w * -(c / w / 2 ^ 53) = -(c / 2 ^ 53) := by
      rw [mul_neg, ← mul_div_assoc, hp]
    have e2 : w * (toDouble (c / w) - c / w) = w * toDouble (c / w) - c := by
      rw [mul_sub, hp]
    rw [e, e2] at this
    linarith
  have hhi : w * toDouble (c / w) ≤ c + c / 2 ^ 53 := by
    have := mul_le_mul_of_nonneg_left h1.2 (le_of_lt hw)
    have e : w * (c / w / 2 ^ 53) = c / 2 ^ 53 := by
      rw [← mul_div_assoc, hp]
    have e2 : w * (toDouble (c / w) - c / w) = w * toDouble (c / w) - c := by
      rw [mul_sub, hp]
    rw [e, e2] at this
    linarith
  have hppos : 0 < w * toDouble (c / w) := by
    have : 0 < c - c / 2 ^ 53 := by
      have : c / 2 ^ 53 < c := div_lt_self hc (by norm_num)
      linarith
    linarith
  have h2 := toDouble_error (w * toDouble (c / w))
  rw [abs_of_pos hppos, abs_le] at h2
  unfold jsMul jsDiv
  rw [abs_le]
  constructor
  · have : -(w * toDouble (c / w) / 2 ^ 53) ≥ -((c + c / 2 ^ 53) / 2 ^ 53) := by
      have := div_le_div_of_nonneg_right hhi (by positivity : (0 : ℚ) ≤ 2 ^ 53)
      linarith
    have e : c / 2 ^ 51 = 4 * (c / 2 ^ 53) := by ring
    have e2 : (c + c / 2 ^ 53) / 2 ^ 53 = c / 2 ^ 53 + c / 2 ^ 53 / 2 ^ 53 := by ring
    have hs : c / 2 ^ 53 / 2 ^ 53 ≤ c / 2 ^ 53 :=
      div_le_self (le_of_lt (div_pos hc (by positivity))) (by norm_num)
    linarith [h2.1]
  · have : w * toDouble (c / w) / 2 ^ 53 ≤ (c + c / 2 ^ 53) / 2 ^ 53 :=
      div_le_div_of_nonneg_right hhi (by positivity)
    have e : c / 2 ^ 51 = 4 * (c / 2 ^ 53) := by ring
    have e2 : (c + c / 2 ^ 53) / 2 ^ 53 = c / 2 ^ 53 + c / 2 ^ 53 / 2 ^ 53 := by ring
    have hs : c / 2 ^ 53 / 2 ^ 53 ≤ c / 2 ^ 53 :=
      div_le_self (le_of_lt (div_pos hc (by positivity))) (by norm_num)
    linarith [h2.2]

/-- The corner computed from the pointer and half of a size close to `c` is close to the
pointer minus half of `c`. -/
theorem jsSub_half_near (c p a : ℚ) (hc : 0 < c) (hc150 : c ≤ 150)
    (ha : |a - c| ≤ c / 2 ^ 51) :
    |jsSub p (jsDiv a 2) - (p - c / 2)| ≤ (|p| + 512) / 2 ^ 53 := by
  have haabs : |a| ≤ c + c / 2 ^ 51 := by
    have h := abs_add (a - c) c
    rw [sub_add_cancel, abs_of_pos hc] at h
    linarith
  have hb := toDouble_error (a / 2)
  have hhalf : |a / 2| = |a| / 2 := by
    rw [abs_div, abs_of_pos (by norm_num : (0 : ℚ) < 2)]
  rw [hhalf] at hb
  have hmid : |a / 2 - c / 2| ≤ c / 2 ^ 52 := by
    have e : a / 2 - c / 2 = (a - c) / 2 := by ring
    rw [e, abs_div, abs_of_pos (by norm_num : (0 : ℚ) < 2)]
    have e2 : c / 2 ^ 52 = c / 2 ^ 51 / 2 := by ring
    rw [e2]
    exact div_le_div_of_nonneg_right ha (by norm_num)
  have hbc : |toDouble (a / 2) - c / 2| ≤ |a| / 2 / 2 ^ 53 + c / 2 ^ 52 := by
    have h := abs_sub_le (toDouble (a / 2)) (a / 2) (c / 2)
    linarith
  have hbabs : |toDouble (a / 2)| ≤ |a| / 2 / 2 ^ 53 + c / 2 ^ 52 + c / 2 := by
    have h := abs_add (toDouble (a / 2) - c / 2) (c / 2)
    rw [sub_add_cancel, abs_of_pos (by positivity : 0 < c / 2)] at h
    linarith
  have hx := toDouble_error (p - toDouble (a / 2))
  have hpb : |p - toDouble (a / 2)| ≤ |p| + |toDouble (a / 2)| := abs_sub p _
  have hfinal := abs_sub_le (toDouble (p - toDouble (a / 2))) (p - toDouble (a / 2))
    (p - c / 2)
  have e3 : p - toDouble (a / 2) - (p - c / 2) = -(toDouble (a / 2) - c / 2) := by ring
  rw [e3, abs_neg] at hfinal
  unfold jsSub jsDiv
  have hdiv : |p - toDouble (a / 2)| / 2 ^ 53
      ≤ (|p| + (|a| / 2 / 2 ^ 53 + c / 2 ^ 52 + c / 2)) / 2 ^ 53 :=
    div_le_div_of_nonneg_right (by linarith) (by positivity)
  have hnum : (|p| + (|a| / 2 / 2 ^ 53 + c / 2 ^ 52 + c / 2)) / 2 ^ 53
      + (|a| / 2 / 2 ^ 53 + c / 2 ^ 52) ≤ (|p| + 512) / 2 ^ 53 := by
    have e4 : (|p| + 512) / 2 ^ 53 = |p| / 2 ^ 53 + 512 / 2 ^ 53 := by ring
    have e5 : (|p| + (|a| / 2 / 2 ^ 53 + c / 2 ^ 52 + c / 2)) / 2 ^ 53
        = |p| / 2 ^ 53 + (|a| / 2 / 2 ^ 53 + c / 2 ^ 52 + c / 2) / 2 ^ 53 := by ring
    rw [e4, e5]
    have hA : |a| ≤ 151 := by
      have : c / 2 ^ 51 ≤ 1 := by
        rw [div_le_one (by positivity)]
        have : (150 : ℚ) ≤ 2 ^ 51 := by norm_num
        linarith
      linarith
    have h6 : |a| / 2 / 2 ^ 53 ≤ 76 / 2 ^ 53 := by
      apply div_le_div_of_nonneg_right _ (by positivity)
      linarith
    have h7 : c / 2 ^ 52 ≤ 300 / 2 ^ 53 := by
      have e : c / 2 ^ 52 = 2 * c / 2 ^ 53 := by ring
      rw [e]
      apply div_le_div_of_nonneg_right _ (by positivity)
      linarith
    have h8 : (|a| / 2 / 2 ^ 53 + c / 2 ^ 52 + c / 2) / 2 ^ 53 ≤ 76 / 2 ^ 53 := by
      apply div_le_div_of_nonneg_right _ (by positivity)
      have : (76 : ℚ) / 2 ^ 53 + 300 / 2 ^ 53 ≤ 1 := by norm_num
      linarith
    have h9 : (76 : ℚ) / 2 ^ 53 + (76 / 2 ^ 53 + 300 / 2 ^ 53) ≤ 512 / 2 ^ 53 := by norm_num
    linarith
  linarith

/-! ## The overlay controller: what the handlers leave alone -/

theorem handleMouseDown_frame (uid : String) (s : OverlayState) (o : PointerEvent) :
    (handleMouseDown uid s o).annotationMode = s.annotationMode
      ∧ (handleMouseDown uid s o).displayPdfUrl = s.displayPdfUrl
      ∧ (handleMouseDown uid s o).allAnnotations = s.allAnnotations
      ∧ (handleMouseDown uid s o).saved = s.saved := by
  unfold handleMouseDown
  cases o.target <;> simp

theorem handleMouseMove_frame (s : OverlayState) (o : PointerEvent) :
    (handleMouseMove s o).annotationMode = s.annotationMode
      ∧ (handleMouseMove s o).displayPdfUrl = s.displayPdfUrl
      ∧ (handleMouseMove s o).allAnnotations = s.allAnnotations
      ∧ (handleMouseMove s o).saved = s.saved
      ∧ (handleMouseMove s o).isDrawing = s.isDrawing
      ∧ (handleMouseMove s o).origX = s.origX
      ∧ (handleMouseMove s o).origY = s.origY := by
  unfold handleMouseMove
  by_cases h : s.isDrawing = true
  · simp [h]
  · simp [h]

theorem handleMouseUp_frame (s : OverlayState) :
    (handleMouseUp s).annotationMode = s.annotationMode
      ∧ (handleMouseUp s).displayPdfUrl = s.displayPdfUrl := by
  unfold handleMouseUp
  cases s.canvas.getActiveObject with
  | none => simp
  | some newField => by_cases h : newField.width > 5 ∧ newField.height > 5 <;> simp [h]

theorem handleCanvasClick_frame (uid : String) (imageSize : Option (ℚ × ℚ))
    (s : OverlayState) (o : PointerEvent) :
    (handleCanvasClick uid imageSize s o).annotationMode = s.annotationMode
      ∧ (handleCanvasClick uid imageSize s o).displayPdfUrl = s.displayPdfUrl := by
  unfold handleCanvasClick
  split <;> simp

theorem onObjectModified_frame (s : OverlayState) (object : FabricObject) :
    (onObjectModified s object).annotationMode = s.annotationMode
      ∧ (onObjectModified s object).displayPdfUrl = s.displayPdfUrl := by
  unfold onObjectModified
  split <;> simp

/-- Gestures never change the mode or the displayed URL. -/
theorem viewerStep_gesture_frame (s : OverlayState) (e : ViewerEvent)
    (hmode : ∀ button, e ≠ ViewerEvent.clickMode button)
    (hfin : ∀ url, e ≠ ViewerEvent.finalizeSucceeded url)
    (hdoc : ∀ fileUrl documentId fetched,
      e ≠ ViewerEvent.documentChanged fileUrl documentId fetched) :
    (viewerStep s e).annotationMode = s.annotationMode
      ∧ (viewerStep s e).displayPdfUrl = s.displayPdfUrl := by
  cases e with
  | clickMode button => exact absurd rfl (hmode button)
  | finalizeSucceeded url => exact absurd rfl (hfin url)
  | documentChanged fileUrl documentId fetched =>
    exact absurd rfl (hdoc fileUrl documentId fetched)
  | pointerDown uid imageSize o =>
    simp only [viewerStep]
    split
    · split
      · exact handleCanvasClick_frame uid imageSize s o
      · exact ⟨(handleMouseDown_frame uid s o).1, (handleMouseDown_frame uid s o).2.1⟩
    · exact ⟨rfl, rfl⟩
  | pointerMove o =>
    simp only [viewerStep]
    split
    · exact ⟨(handleMouseMove_frame s o).1, (handleMouseMove_frame s o).2.1⟩
    · exact ⟨rfl, rfl⟩
  | pointerUp =>
    simp only [viewerStep]
    split
    · exact handleMouseUp_frame s
    · exact ⟨rfl, rfl⟩
  | objectModified object =>
    simp only [viewerStep, fireObjectModified]
    split
    · exact onObjectModified_frame s object
    · exact ⟨rfl, rfl⟩

theorem clickModeButton_finalized (s : OverlayState) (button : ModeButton)
    (h : isFinalizedUrl s.displayPdfUrl = true) : clickModeButton s button = s := by
  simp [clickModeButton, modeButtonDisabled, h]

theorem clickModeButton_url (s : OverlayState) (button : ModeButton) :
    (clickModeButton s button).displayPdfUrl = s.displayPdfUrl := by
  unfold clickModeButton
  split
  · rfl
  · cases button <;> simp
    split <;> rfl

/-- The invariant: a finalized URL is displayed only in `view` mode. -/
theorem viewerStep_invariant (s : OverlayState) (e : ViewerEvent)
    (hs : isFinalizedUrl s.displayPdfUrl = true → s.annotationMode = "view")
    (he : ∀ fileUrl documentId fetched,
      e = ViewerEvent.documentChanged fileUrl documentId fetched →
      isFinalizedUrl fileUrl = false) :
    isFinalizedUrl (viewerStep s e).displayPdfUrl = true →
      (viewerStep s e).annotationMode = "view" := by
  cases e with
  | clickMode button =>
    intro h
    simp only [viewerStep] at h ⊢
    rw [clickModeButton_url] at h
    rw [clickModeButton_finalized s button h]
    exact hs h
  | finalizeSucceeded url => intro _; rfl
  | documentChanged fileUrl documentId fetched =>
    intro h
    have := he fileUrl documentId fetched rfl
    simp only [viewerStep, onDocumentChanged] at h
    rw [this] at h
    exact absurd h (by decide)
  | pointerDown uid imageSize o =>
    obtain ⟨h1, h2⟩ := viewerStep_gesture_frame s (ViewerEvent.pointerDown uid imageSize o)
      (by intro b; exact ViewerEvent.noConfusion) (by intro u; exact ViewerEvent.noConfusion)
      (by intro a b c; exact ViewerEvent.noConfusion)
    rw [h1, h2]; exact hs
  | pointerMove o =>
    obtain ⟨h1, h2⟩ := viewerStep_gesture_frame s (ViewerEvent.pointerMove o)
      (by intro b; exact ViewerEvent.noConfusion) (by intro u; exact ViewerEvent.noConfusion)
      (by intro a b c; exact ViewerEvent.noConfusion)
    rw [h1, h2]; exact hs
  | pointerUp =>
    obtain ⟨h1, h2⟩ := viewerStep_gesture_frame s ViewerEvent.pointerUp
      (by intro b; exact ViewerEvent.noConfusion) (by intro u; exact ViewerEvent.noConfusion)
      (by intro a b c; exact ViewerEvent.noConfusion)
    rw [h1, h2]; exact hs
  | objectModified object =>
    obtain ⟨h1, h2⟩ := viewerStep_gesture_frame s (ViewerEvent.objectModified object)
      (by intro b; exact ViewerEvent.noConfusion) (by intro u; exact ViewerEvent.noConfusion)
      (by intro a b c; exact ViewerEvent.noConfusion)
    rw [h1, h2]; exact hs

/-! ## The overlay controller: the canvas during a drag -/

theorem modify_append_length {α : Type} (f : α → α) (base : List α) (a : α) :
    List.modify f base.length (base ++ [a]) = base ++ [f a] := by
  induction base with
  | nil => simp [List.modify, List.modifyTailIdx, List.modifyHead]
  | cons b base ih => simp [List.modify_succ_cons, ih]

theorem eraseIdx_append_length {α : Type} (base : List α) (a : α) :
    (base ++ [a]).eraseIdx base.length = base := by
  rw [List.eraseIdx_append_of_length_le (le_refl _)]
  simp

/-- The canvas during a drag: the objects it had before, then the rectangle being drawn,
which is the active object. -/
theorem setOnActive_last (base : List FabricObject) (rect : FabricObject)
    (change : FabricObject → FabricObject) :
    Canvas.setOnActive ⟨base ++ [rect], some base.length⟩ change
      = ⟨base ++ [change rect], some base.length⟩ := by
  simp [Canvas.setOnActive, modify_append_length]

theorem dragTo_state (uid : String) (s : OverlayState) (down : PointerEvent)
    (moves : List PointerEvent) (hempty : down.target = none) :
    ∃ rect : FabricObject,
      (dragTo uid s down moves).canvas
          = ⟨s.canvas.objects ++ [rect], some s.canvas.objects.length⟩
        ∧ rect.id = some uid ∧ rect.name = "signature_field"
        ∧ (dragTo uid s down moves).allAnnotations = s.allAnnotations
        ∧ (dragTo uid s down moves).saved = s.saved
        ∧ (dragTo uid s down moves).documentId = s.documentId
        ∧ (dragTo uid s down moves).pageNumber = s.pageNumber
        ∧ (dragTo uid s down moves).isDrawing = true
        ∧ (dragTo uid s down moves).origX = down.x
        ∧ (dragTo uid s down moves).origY = down.y := by
  have hgen : ∀ (ms : List PointerEvent) (t : OverlayState) (rect : FabricObject),
      t.canvas = ⟨s.canvas.objects ++ [rect], some s.canvas.objects.length⟩ →
      rect.id = some uid → rect.name = "signature_field" → t.isDrawing = true →
      ∃ rect2 : FabricObject,
        (ms.foldl handleMouseMove t).canvas
            = ⟨s.canvas.objects ++ [rect2], some s.canvas.objects.length⟩
          ∧ rect2.id = some uid ∧ rect2.name = "signature_field"
          ∧ (ms.foldl handleMouseMove t).allAnnotations = t.allAnnotations
          ∧ (ms.foldl handleMouseMove t).saved = t.saved
          ∧ (ms.foldl handleMouseMove t).documentId = t.documentId
          ∧ (ms.foldl handleMouseMove t).pageNumber = t.pageNumber
          ∧ (ms.foldl handleMouseMove t).isDrawing = true
          ∧ (ms.foldl handleMouseMove t).origX = t.origX
          ∧ (ms.foldl handleMouseMove t).origY = t.origY := by
    intro ms
    induction ms with
    | nil => intro t rect hc hid hname hdraw; exact ⟨rect, hc, hid, hname, rfl, rfl, rfl, rfl, hdraw, rfl, rfl⟩
    | cons m ms ih =>
      intro t rect hc hid hname hdraw
      have hstep : ∃ rect1 : FabricObject,
          (handleMouseMove t m).canvas
              = ⟨s.canvas.objects ++ [rect1], some s.canvas.objects.length⟩
            ∧ rect1.id = some uid ∧ rect1.name = "signature_field" := by
        unfold handleMouseMove
        simp only [hdraw, if_true, hc]
        by_cases hx : t.origX > m.x <;> by_cases hy : t.origY > m.y <;>
          simp only [hx, hy, if_true, if_false, setOnActive_last] <;>
          exact ⟨_, rfl, hid, hname⟩
      obtain ⟨rect1, hc1, hid1, hname1⟩ := hstep
      have hf := handleMouseMove_frame t m
      obtain ⟨rect2, h1, h2, h3, h4, h5, h6, h7, h8, h9, h10⟩ :=
        ih (handleMouseMove t m) rect1 hc1 hid1 hname1 (by rw [hf.2.2.2.2.1]; exact hdraw)
      refine ⟨rect2, h1, h2, h3, ?_, ?_, ?_, ?_, h8, ?_, ?_⟩
      · rw [List.foldl_cons, h4, hf.2.2.1]
      · rw [List.foldl_cons, h5, hf.2.2.2.1]
      · rw [List.foldl_cons, h6]; unfold handleMouseMove; split <;> rfl
      · rw [List.foldl_cons, h7]; unfold handleMouseMove; split <;> rfl
      · rw [List.foldl_cons, h9, hf.2.2.2.2.2.1]
      · rw [List.foldl_cons, h10, hf.2.2.2.2.2.2]
  have hdown : handleMouseDown uid s down
      = { s with isDrawing := true, origX := down.x, origY := down.y,
                 canvas := s.canvas.addActive
                   { id := some uid, name := "signature_field", left := down.x,
                     top := down.y, width := 0, height := 0, scaleX := 1, scaleY := 1,
                     text := none, fontSize := none, imageData := none } } := by
    simp [handleMouseDown, hempty]
  obtain ⟨rect2, h⟩ := hgen moves (handleMouseDown uid s down) _
    (by rw [hdown]; rfl) rfl rfl (by rw [hdown])
  refine ⟨rect2, ?_⟩
  unfold dragTo
  rw [hdown] at h ⊢
  exact h

/-! ## Ownership and the shape of a draw operation -/

/-- The query of the routes finds nothing for a requester who does not own the only record
with the requested id. -/
theorem findOne_non_owner (documents : List DocumentRecord) (d : DocumentRecord) (u : String)
    (hunique : ∀ other ∈ documents, other._id = d._id → other = d)
    (howner : d.owner ≠ u) :
    findOne documents d._id u = none := by
  unfold findOne
  rw [List.find?_eq_none]
  intro other hother
  simp only [decide_eq_true_eq, not_and]
  intro hid hown
  rw [hunique other hother hid] at hown
  exact howner hown

/-- The shape of the draw operation the loop body records for an annotation. -/
theorem drawOpsOf_shape (lib : ImageLib) (page : PdfPage) (a : Annotation) (op : DrawOp)
    (hop : op ∈ drawOpsOf lib page a) :
    (∃ (text : String) (size : ℚ),
        op = DrawOp.drawText text a.x (page.height - (a.y + a.height))
          StandardFonts.Helvetica size (rgb 0 0 0) a.width)
      ∨ ∃ image : PdfImage,
          op = DrawOp.drawImage image a.x (page.height - (a.y + a.height)) a.width a.height := by
  unfold drawOpsOf drawOnPage PdfPage.drawText PdfPage.drawImage yFromBottom at hop
  repeat' split at hop
  all_goals simp at hop
  all_goals subst hop
  all_goals simp

/-! ## Page numbers of the working collection -/

/-- Appending an annotation of the current page keeps every page number in range. -/
theorem pages_in_range_append (numPages : ℚ) (xs : List ClientAnnotation)
    (a : ClientAnnotation)
    (hxs : ∀ b ∈ xs, 1 ≤ b.page ∧ b.page ≤ numPages)
    (ha : 1 ≤ a.page ∧ a.page ≤ numPages) :
    ∀ b ∈ xs ++ [a], 1 ≤ b.page ∧ b.page ≤ numPages := by
  intro b hb
  rw [List.mem_append, List.mem_singleton] at hb
  rcases hb with hb | hb
  · exact hxs b hb
  · rw [hb]
    exact ha

/-! ## The claims -/

/-- Claim C1, as the code has it: on every page the finalize loop appends exactly the draw
operations of the annotations selected for that page, and each of them is placed at
`x`, `Hn - (y + height)` with the annotation's own `width` and `height`, whatever the render
size at capture; this is the transform of the specification when the render size `(W, H)`
equals the native page size. -/
theorem finalize_draws_at_stored_geometry (lib : ImageLib) (anns : List Annotation)
    (pages : List PdfPage) (i : Nat) (page flat : PdfPage)
    (hpage : pages[i]? = some page) (hflat : (flattenPages lib anns pages)[i]? = some flat) :
    flat.drawn
        = page.drawn ++ (annotationsOnPage anns ((i : ℚ) + 1)).flatMap (drawOpsOf lib page)
      ∧ ∀ (a : Annotation), ∀ op ∈ drawOpsOf lib page a,
          op.placedAt ⟨a.x, page.height - (a.y + a.height), a.width, a.height⟩
          ∧ ∀ (W H : ℚ), 0 < W → 0 < H → W = page.width → H = page.height →
              op.placedAt (specNativeBox W H page.width page.height a.x a.y a.width a.height) := by
  rw [flattenPages_getElem?, hpage] at hflat
  simp only [Option.map_some', Option.some.injEq] at hflat
  subst hflat
  refine ⟨rfl, ?_⟩
  intro a op hop
  have key : op.placedAt ⟨a.x, page.height - (a.y + a.height), a.width, a.height⟩ := by
    unfold drawOpsOf drawOnPage PdfPage.drawText PdfPage.drawImage yFromBottom at hop
    repeat' split at hop
    all_goals simp at hop
    all_goals subst hop
    all_goals simp [DrawOp.placedAt]
  refine ⟨key, ?_⟩
  intro W H hW hH hWeq hHeq
  subst hWeq hHeq
  have e : specNativeBox page.width page.height page.width page.height a.x a.y a.width a.height
      = ⟨a.x, page.height - (a.y + a.height), a.width, a.height⟩ := by
    simp [specNativeBox, div_self (ne_of_gt hW), div_self (ne_of_gt hH)]
  rw [e]
  exact key

/-- Witness of `finalize_draws_at_stored_geometry`: the concrete case of the specification
on a US-letter page. -/
theorem finalize_draws_at_stored_geometry_witness :
    (flattenPages sampleLib [specCaseTextField] [letterPage])[0]?
        = some ⟨612, 792,
            [DrawOp.drawText "Signed" 100 692 StandardFonts.Helvetica 16 (rgb 0 0 0) 150]⟩
      ∧ ∀ op ∈ drawOpsOf sampleLib letterPage specCaseTextField,
          op.placedAt ⟨100, 792 - (50 + 50), 150, 50⟩ := by
  have hflat : (flattenPages sampleLib [specCaseTextField] [letterPage])[0]?
      = some ⟨612, 792,
          [DrawOp.drawText "Signed" 100 692 StandardFonts.Helvetica 16 (rgb 0 0 0) 150]⟩ := by
    simp [flattenPages, flattenFrom, annotationsOnPage, drawOnPage, specCaseTextField,
      letterPage, truthyText, PdfPage.drawText, yFromBottom, fontSizeOrDefault]
    norm_num
  refine ⟨hflat, ?_⟩
  intro op hop
  exact ((finalize_draws_at_stored_geometry sampleLib [specCaseTextField] [letterPage] 0
    letterPage _ rfl hflat).2 specCaseTextField op hop).1

/-- Claim C1 as stated fails: in the concrete case of the specification (native page 612 by
792, render size 600 by 776, geometry (100, 50, 150, 50)) the loop draws at x = 100,
y = 692 with maximum width 150, where the stated transform gives 102, 792 - 100*792/776
and 153. -/
theorem finalize_ignores_render_size :
    flattenPages sampleLib [specCaseTextField] [letterPage]
        = [⟨612, 792,
            [DrawOp.drawText "Signed" 100 692 StandardFonts.Helvetica 16 (rgb 0 0 0) 150]⟩]
      ∧ specNativeBox 600 776 612 792 100 50 150 50
          = ⟨102, 792 - 100 * 792 / 776, 153, 50 * 792 / 776⟩
      ∧ ¬ ∀ (lib : ImageLib) (a : Annotation) (page : PdfPage) (W H : ℚ), 0 < W → 0 < H →
          ∀ op ∈ drawOpsOf lib page a,
            op.placedAt (specNativeBox W H page.width page.height a.x a.y a.width a.height) := by
  refine ⟨?_, ?_, ?_⟩
  · simp [flattenPages, flattenFrom, annotationsOnPage, drawOnPage, specCaseTextField,
      letterPage, truthyText, PdfPage.drawText, yFromBottom, fontSizeOrDefault]
    norm_num
  · simp [specNativeBox]
    norm_num
  · intro h
    have h1 := h sampleLib specCaseTextField letterPage 600 776 (by norm_num) (by norm_num)
      (DrawOp.drawText "Signed" 100 692 StandardFonts.Helvetica 16 (rgb 0 0 0) 150)
      (by
        simp [drawOpsOf, drawOnPage, specCaseTextField, letterPage, truthyText,
          PdfPage.drawText, yFromBottom, fontSizeOrDefault]
        norm_num)
    simp [DrawOp.placedAt, specNativeBox, specCaseTextField, letterPage] at h1
    norm_num at h1

/-- Claim C2: the finalize loop yields the same pages, hence the same sequence of draw
operations on every page, as for the collection with every `signature_field` annotation
removed. -/
theorem signature_fields_never_drawn (lib : ImageLib) (anns : List Annotation)
    (pages : List PdfPage) :
    flattenPages lib anns pages
      = flattenPages lib (anns.filter (fun a => a.type ≠ "signature_field")) pages := by
  unfold flattenPages
  apply flattenFrom_congr
  intro i page _ _
  rw [foldl_drawOnPage, foldl_drawOnPage, annotationsOnPage_filter,
    flatMap_filter_of_nil]
  intro a ha
  apply drawOpsOf_signature_field
  simpa using ha

/-- Claim C3: with an empty annotation collection the finalize loop leaves every page as it
was loaded, so no page of the flattened document carries a draw operation. -/
theorem empty_collection_draws_nothing (lib : ImageLib) (pages : List PdfPage)
    (sizes : List (ℚ × ℚ)) :
    flattenPages lib [] pages = pages
      ∧ ∀ page ∈ flattenPages lib [] (sizes.map (fun size => ⟨size.1, size.2, []⟩)),
          page.drawn = [] := by
  have h : ∀ (ps : List PdfPage) (k : Nat), flattenFrom lib [] k ps = ps := by
    intro ps
    induction ps with
    | nil => intro k; rfl
    | cons p ps ih => intro k; simp [flattenFrom, annotationsOnPage, ih]
  refine ⟨h pages 0, ?_⟩
  intro page hmem
  unfold flattenPages at hmem
  rw [h] at hmem
  simp only [List.mem_map] at hmem
  obtain ⟨size, _, rfl⟩ := hmem
  rfl

/-- Claim C4: every draw operation the finalize loop adds to page `i + 1` is a draw
operation of an annotation of the collection whose `page` field equals `i + 1`; and an
annotation whose page lies outside `1..pageCount` changes no page: the result is that of
the collection without it. -/
theorem draws_only_annotations_of_the_page (lib : ImageLib) (anns : List Annotation)
    (pages : List PdfPage) :
    (∀ (i : Nat) (page flat : PdfPage), pages[i]? = some page →
        (flattenPages lib anns pages)[i]? = some flat →
        ∃ added : List DrawOp, flat.drawn = page.drawn ++ added ∧
          ∀ op ∈ added, ∃ a ∈ anns, a.page = (i : ℚ) + 1 ∧ op ∈ drawOpsOf lib page a)
      ∧ ∀ (pre post : List Annotation) (a : Annotation), anns = pre ++ a :: post →
          (a.page < 1 ∨ (pages.length : ℚ) < a.page) →
          flattenPages lib anns pages = flattenPages lib (pre ++ post) pages := by
  constructor
  · intro i page flat hpage hflat
    rw [flattenPages_getElem?, hpage] at hflat
    simp only [Option.map_some', Option.some.injEq] at hflat
    subst hflat
    refine ⟨_, rfl, ?_⟩
    intro op hop
    rw [List.mem_flatMap] at hop
    obtain ⟨a, ha, hop⟩ := hop
    simp only [annotationsOnPage, List.mem_filter, decide_eq_true_eq] at ha
    exact ⟨a, ha.1, ha.2, hop⟩
  · intro pre post a hanns hout
    subst hanns
    apply flattenPages_skip
    intro i page hi hp
    exfalso
    have h1 : ((i : ℚ) + 1) ≤ (pages.length : ℚ) := by exact_mod_cast hi
    have h0 : (0 : ℚ) ≤ (i : ℚ) := Nat.cast_nonneg i
    rcases hout with h | h
    · rw [hp] at h; linarith
    · rw [hp] at h; linarith

/-- Witness of `draws_only_annotations_of_the_page`: an annotation on page 3 of a one-page
document is drawn nowhere. -/
theorem draws_only_annotations_of_the_page_witness :
    flattenPages sampleLib [specCaseTextField, { specCaseTextField with page := 3 }]
        [letterPage]
      = flattenPages sampleLib ([specCaseTextField] ++ []) [letterPage] :=
  (draws_only_annotations_of_the_page sampleLib
    [specCaseTextField, { specCaseTextField with page := 3 }] [letterPage]).2
    [specCaseTextField] [] { specCaseTextField with page := 3 } rfl
    (Or.inr (by simp))

/-- Claim C5, as the code has it: take a `text_field` annotation of page `i + 1` whose
`objectData` holds a non-empty text.  When `page.drawText` throws for it, the loops end
there and the route answers 500 without writing anything.  When the loops complete, which
they do if `page.drawText` throws for no annotation of the collection, the pages are the
flattened pages, and to these the annotation contributes exactly one draw operation on its
page, in collection order, and none to any other page: the text, at `x` and
`Hn - (y + height)`, in Helvetica, black, with the annotation's width as maximum width, and
with the stored font size, or 16 when no font size or the size 0 is stored.  That placement
is the mapped box of the specification when the render size equals the native page size.
A `text_field` annotation without `objectData`, or whose text is missing or empty, is not
drawn and makes no `page.drawText` throw. -/
theorem text_field_drawn_once (lib : ImageLib) (pre post : List Annotation) (a : Annotation)
    (pages : List PdfPage) (i : Nat) (page : PdfPage) (od : ObjectData) (text : String)
    (hpage : pages[i]? = some page) (ha : a.page = (i : ℚ) + 1)
    (htype : a.type = "text_field") (hod : a.objectData = some od)
    (htext : od.text = some text) (hne : text ≠ "") :
    (lib.textThrows text (fontSizeOrDefault (some od)) a.width = true →
        finalizeLoop lib (pre ++ a :: post) pages = none
          ∧ ∀ (env : Env) (st : ServerState) (userId documentId : String)
              (document : DocumentRecord) (bytes : Bytes) (sizes : List (ℚ × ℚ)),
              env.lib = lib →
              findOne st.documents documentId userId = some document →
              document.annotations = pre ++ a :: post →
              readFile st.files (env.pathJoin [env.dirname, "..", document.filePath])
                = some bytes →
              env.loadPdf bytes = some sizes →
              sizes.map (fun size => (⟨size.1, size.2, []⟩ : PdfPage)) = pages →
              finalizeRoute env st userId documentId
                = (⟨500, Body.message "Server error during document finalization."⟩, st))
      ∧ (∀ flats : List PdfPage, finalizeLoop lib (pre ++ a :: post) pages = some flats →
          flats = flattenPages lib (pre ++ a :: post) pages)
      ∧ ((∀ b ∈ pre ++ a :: post, drawTextThrows lib b = false) →
          finalizeLoop lib (pre ++ a :: post) pages
            = some (flattenPages lib (pre ++ a :: post) pages))
      ∧ (flattenPages lib (pre ++ a :: post) pages)[i]?
        = some { page with
            drawn := page.drawn
              ++ (annotationsOnPage pre ((i : ℚ) + 1)).flatMap (drawOpsOf lib page)
              ++ [DrawOp.drawText text a.x (page.height - (a.y + a.height))
                    StandardFonts.Helvetica (fontSizeOrDefault (some od)) (rgb 0 0 0) a.width]
              ++ (annotationsOnPage post ((i : ℚ) + 1)).flatMap (drawOpsOf lib page) }
      ∧ (∀ j : Nat, j ≠ i →
          (flattenPages lib (pre ++ a :: post) pages)[j]?
            = (flattenPages lib (pre ++ post) pages)[j]?)
      ∧ (∀ size : ℚ, od.fontSize = some size → size ≠ 0 →
          fontSizeOrDefault (some od) = size)
      ∧ ((od.fontSize = none ∨ od.fontSize = some 0) → fontSizeOrDefault (some od) = 16)
      ∧ (∀ W H : ℚ, 0 < W → 0 < H → W = page.width → H = page.height →
          (DrawOp.drawText text a.x (page.height - (a.y + a.height))
              StandardFonts.Helvetica (fontSizeOrDefault (some od)) (rgb 0 0 0) a.width).placedAt
            (specNativeBox W H page.width page.height a.x a.y a.width a.height))
      ∧ (∀ b : Annotation, b.type = "text_field" →
          (b.objectData = none
            ∨ ∃ data : ObjectData, b.objectData = some data
                ∧ (data.text = none ∨ data.text = some "")) →
          drawOpsOf lib page b = [] ∧ drawTextThrows lib b = false) := by
  have hi : i < pages.length := by
    rcases Nat.lt_or_ge i pages.length with h | h
    · exact h
    · rw [List.getElem?_eq_none h] at hpage
      exact Option.noConfusion hpage
  have hthrows : drawTextThrows lib a
      = lib.textThrows text (fontSizeOrDefault (some od)) a.width := by
    simp [drawTextThrows, htype, truthyText, hod, htext, hne]
  refine ⟨?_, ?_, ?_, ?_, ?_, ?_, ?_, ?_, ?_⟩
  · intro hthrow
    have hmem : a ∈ pre ++ a :: post := by simp
    refine ⟨finalizeLoop_of_throw lib _ pages i a hi hmem ha (hthrows.trans hthrow), ?_⟩
    intro env st userId documentId document bytes sizes hlib hfind hanns hread hload hpages
    subst hlib
    have hlen : i < sizes.length := by
      rw [← hpages] at hi
      simpa using hi
    exact finalizeRoute_of_throw env st userId documentId document bytes sizes i a hfind
      hread hload hlen (by rw [hanns]; exact hmem) ha (hthrows.trans hthrow)
  · intro flats hflats
    exact finalizeLoop_some lib _ pages flats hflats
  · intro hquiet
    exact finalizeLoop_of_no_throw lib _ pages hquiet
  · rw [flattenPages_insert_same lib pre post a pages i page hpage ha,
      drawOpsOf_text_field lib page a od text htype hod htext hne]
  · intro j hj
    apply flattenPages_insert_other
    rw [ha]
    exact cast_succ_ne_of_ne i j hj
  · intro size hsize hnz
    simp [fontSizeOrDefault, hsize, hnz]
  · intro h
    rcases h with h | h <;> simp [fontSizeOrDefault, h]
  · intro W H hW hH hWeq hHeq
    subst hWeq hHeq
    rw [specNativeBox_native _ _ _ _ _ _ hW hH]
    simp [DrawOp.placedAt]
  · intro b hb hnone
    have h2 : b.type ≠ "placed_signature" := by rw [hb]; decide
    rcases hnone with h | ⟨data, h, ht | ht⟩
    · simp [drawOpsOf, drawOnPage, drawTextThrows, hb, truthyText, h]
    · simp [drawOpsOf, drawOnPage, drawTextThrows, hb, truthyText, h, ht]
    · simp [drawOpsOf, drawOnPage, drawTextThrows, hb, truthyText, h, ht]

/-- Witness of `text_field_drawn_once`: the text field of the specification's concrete case,
placed between a signature field and a placed signature on a US-letter page. -/
theorem text_field_drawn_once_witness :
    (flattenPages sampleLib ([sampleSignatureField] ++ specCaseTextField :: [sampleSignature])
        [letterPage])[0]?
      = some { letterPage with
          drawn := letterPage.drawn
            ++ (annotationsOnPage [sampleSignatureField] (((0 : Nat) : ℚ) + 1)).flatMap
                (drawOpsOf sampleLib letterPage)
            ++ [DrawOp.drawText "Signed" specCaseTextField.x
                  (letterPage.height - (specCaseTextField.y + specCaseTextField.height))
                  StandardFonts.Helvetica (fontSizeOrDefault (some ⟨some "Signed", some 16⟩))
                  (rgb 0 0 0) specCaseTextField.width]
            ++ (annotationsOnPage [sampleSignature] (((0 : Nat) : ℚ) + 1)).flatMap
                (drawOpsOf sampleLib letterPage) } :=
  (text_field_drawn_once sampleLib [sampleSignatureField] [sampleSignature]
    specCaseTextField [letterPage] 0 letterPage ⟨some "Signed", some 16⟩ "Signed"
    rfl (by simp [specCaseTextField]) rfl rfl rfl (by decide)).2.2.2.1

/-- Claim C5 as stated fails, in three ways.  A `text_field` annotation of page 1 whose
stored text is the empty string is not drawn at all: the loop leaves the page as it was.
The text field of the specification's concrete case (native page 612 by 792, render size
600 by 776, geometry (100, 50, 150, 50)) is drawn at x = 100, y = 692 with maximum width
150, not at the mapped position 102, 792 - 100*792/776 with the mapped width 153.  And for a
text field whose text `page.drawText` rejects, the route answers 500 and leaves the server
as it was: no text is drawn and no artifact is written. -/
theorem text_field_without_text_not_drawn :
    finalizeRoute sampleEnv (sampleServer [checkmarkTextField] none false) "alice" "doc1"
        = (⟨500, Body.message "Server error during document finalization."⟩,
            sampleServer [checkmarkTextField] none false)
      ∧ emptyTextField.type = "text_field" ∧ emptyTextField.page = 1
      ∧ drawOpsOf sampleLib letterPage emptyTextField = []
      ∧ flattenPages sampleLib [emptyTextField] [letterPage] = [letterPage]
      ∧ (¬ ∀ (lib : ImageLib) (page : PdfPage) (a : Annotation), a.type = "text_field" →
          (drawOpsOf lib page a).length = 1)
      ∧ drawOpsOf sampleLib letterPage specCaseTextField
          = [DrawOp.drawText "Signed" 100 692 StandardFonts.Helvetica 16 (rgb 0 0 0) 150]
      ∧ ¬ (DrawOp.drawText "Signed" 100 692 StandardFonts.Helvetica 16 (rgb 0 0 0) 150).placedAt
          (specNativeBox 600 776 612 792 100 50 150 50) := by
  have hnone : drawOpsOf sampleLib letterPage emptyTextField = [] := by
    simp [drawOpsOf, drawOnPage, emptyTextField, truthyText]
  refine ⟨?_, rfl, rfl, hnone, ?_, ?_, ?_, ?_⟩
  · exact finalizeRoute_of_throw sampleEnv (sampleServer [checkmarkTextField] none false)
      "alice" "doc1" (sampleDocument [checkmarkTextField] none false) [37, 80, 68, 70]
      [(612, 792)] 0 checkmarkTextField rfl rfl rfl (by decide)
      (List.mem_singleton.2 rfl) (by simp [checkmarkTextField]) (by decide)
  · simp [flattenPages, flattenFrom, annotationsOnPage, drawOnPage, emptyTextField,
      truthyText]
  · intro h
    have h1 := h sampleLib letterPage emptyTextField rfl
    rw [hnone] at h1
    exact absurd h1 (by decide)
  · simp [drawOpsOf, drawOnPage, specCaseTextField, letterPage, truthyText,
      PdfPage.drawText, yFromBottom, fontSizeOrDefault]
    norm_num
  · simp [DrawOp.placedAt, specNativeBox]
    norm_num

/-- Claim C6, as the code has it: a `placed_signature` annotation of page `i + 1` whose data
URL declares `image/png` or `image/jpeg` and whose payload the matching embedder accepts
contributes exactly one draw operation to that page, in collection order, and none to any
other page: the embedded image at `x` and `Hn - (y + height)` with the annotation's own
`width` and `height`.  That placement is the mapped box of the specification when the render
size equals the native page size. -/
theorem placed_signature_drawn_once (lib : ImageLib) (pre post : List Annotation)
    (a : Annotation) (pages : List PdfPage) (i : Nat) (page : PdfPage)
    (imageData payload : String) (format : ImageFormat)
    (hpage : pages[i]? = some page) (ha : a.page = (i : ℚ) + 1)
    (htype : a.type = "placed_signature") (himg : a.imageData = some imageData)
    (hpayload : dataUrlPayload imageData = some payload)
    (hdecodes :
      (dataUrlMimeType imageData = some "image/png" ∧ format = ImageFormat.png
          ∧ lib.pngDecodes (lib.base64Decode payload) = true)
        ∨ (dataUrlMimeType imageData = some "image/jpeg" ∧ format = ImageFormat.jpg
          ∧ lib.jpgDecodes (lib.base64Decode payload) = true)) :
    (flattenPages lib (pre ++ a :: post) pages)[i]?
        = some { page with
            drawn := page.drawn
              ++ (annotationsOnPage pre ((i : ℚ) + 1)).flatMap (drawOpsOf lib page)
              ++ [DrawOp.drawImage ⟨format, lib.base64Decode payload⟩ a.x
                    (page.height - (a.y + a.height)) a.width a.height]
              ++ (annotationsOnPage post ((i : ℚ) + 1)).flatMap (drawOpsOf lib page) }
      ∧ (∀ j : Nat, j ≠ i →
          (flattenPages lib (pre ++ a :: post) pages)[j]?
            = (flattenPages lib (pre ++ post) pages)[j]?)
      ∧ ∀ W H : ℚ, 0 < W → 0 < H → W = page.width → H = page.height →
          (DrawOp.drawImage ⟨format, lib.base64Decode payload⟩ a.x
              (page.height - (a.y + a.height)) a.width a.height).placedAt
            (specNativeBox W H page.width page.height a.x a.y a.width a.height) := by
  have hne : imageData ≠ "" := by
    intro h
    rw [h] at hpayload
    have hnone : dataUrlPayload "" = none := by decide
    rw [hnone] at hpayload
    exact Option.noConfusion hpayload
  have hembed : embedSignatureImage lib imageData
      = EmbedOutcome.embedded ⟨format, lib.base64Decode payload⟩ := by
    rcases hdecodes with ⟨hm, hf, hd⟩ | ⟨hm, hf, hd⟩
    · simp [embedSignatureImage, hm, hpayload, hd, hf]
    · have : ("image/jpeg" : String) ≠ "image/png" := by decide
      simp [embedSignatureImage, hm, hpayload, hd, hf, this]
  refine ⟨?_, ?_, ?_⟩
  · rw [flattenPages_insert_same lib pre post a pages i page hpage ha,
      drawOpsOf_embedded lib page a imageData _ htype himg hne hembed]
  · intro j hj
    apply flattenPages_insert_other
    rw [ha]
    exact cast_succ_ne_of_ne i j hj
  · intro W H hW hH hWeq hHeq
    subst hWeq hHeq
    rw [specNativeBox_native _ _ _ _ _ _ hW hH]
    simp [DrawOp.placedAt]

/-- Witness of `placed_signature_drawn_once`: a PNG signature placed after a text field on a
US-letter page. -/
theorem placed_signature_drawn_once_witness :
    (flattenPages sampleLib ([specCaseTextField] ++ sampleSignature :: []) [letterPage])[0]?
      = some { letterPage with
          drawn := letterPage.drawn
            ++ (annotationsOnPage [specCaseTextField] (((0 : Nat) : ℚ) + 1)).flatMap
                (drawOpsOf sampleLib letterPage)
            ++ [DrawOp.drawImage ⟨ImageFormat.png, sampleLib.base64Decode "PNGDATA"⟩
                  sampleSignature.x
                  (letterPage.height - (sampleSignature.y + sampleSignature.height))
                  sampleSignature.width sampleSignature.height]
            ++ (annotationsOnPage [] (((0 : Nat) : ℚ) + 1)).flatMap
                (drawOpsOf sampleLib letterPage) } :=
  (placed_signature_drawn_once sampleLib [specCaseTextField] [] sampleSignature [letterPage]
    0 letterPage "data:image/png;base64,PNGDATA" "PNGDATA" ImageFormat.png
    rfl (by simp [sampleSignature]) rfl rfl (by decide)
    (Or.inl ⟨by decide, rfl, by decide⟩)).1

/-- Claim C6 as stated fails: a PNG signature with geometry (100, 50, 150, 50) on a native
page of 612 by 792 is drawn at x = 100, y = 692 with width 150 and height 50; for a capture
at render size 600 by 776 the mapped box is 102, 792 - 100*792/776 with width 153 and height
50*792/776. -/
theorem placed_signature_not_rescaled :
    flattenPages sampleLib [sampleSignature] [letterPage]
        = [⟨612, 792,
            [DrawOp.drawImage ⟨ImageFormat.png, [80, 78, 71, 68, 65, 84, 65]⟩ 100 692 150 50]⟩]
      ∧ specNativeBox 600 776 612 792 100 50 150 50
          = ⟨102, 792 - 100 * 792 / 776, 153, 50 * 792 / 776⟩
      ∧ ¬ (DrawOp.drawImage ⟨ImageFormat.png, [80, 78, 71, 68, 65, 84, 65]⟩
            100 692 150 50).placedAt (specNativeBox 600 776 612 792 100 50 150 50) := by
  have hembed : embedSignatureImage sampleLib "data:image/png;base64,PNGDATA"
      = EmbedOutcome.embedded ⟨ImageFormat.png, [80, 78, 71, 68, 65, 84, 65]⟩ := by decide
  refine ⟨?_, ?_, ?_⟩
  · simp [flattenPages, flattenFrom, annotationsOnPage, drawOnPage, sampleSignature,
      letterPage, truthyString, hembed, PdfPage.drawImage, yFromBottom]
    norm_num
  · simp [specNativeBox]
    norm_num
  · simp [DrawOp.placedAt, specNativeBox]
    norm_num

/-- Claim C7: when the image of a `placed_signature` annotation cannot be embedded (the data
URL is malformed or the embedder throws, or the MIME type is unsupported), the finalize
loops behave on every list of pages exactly as for the collection without that annotation:
they yield the same pages, or end in the same throw of `page.drawText` for another
annotation.  The route responds with success whenever it does so without that annotation,
that is, whenever loading succeeds, the loops complete for the other annotations, and
saving and the database update succeed; the written artifact is the one flattened without
that annotation. -/
theorem failed_embed_is_skipped_alone (env : Env) (st : ServerState)
    (userId documentId : String) (document : DocumentRecord) (pre post : List Annotation)
    (a : Annotation) (imageData : String) (bytes out : Bytes) (sizes : List (ℚ × ℚ))
    (hfind : findOne st.documents documentId userId = some document)
    (hanns : document.annotations = pre ++ a :: post)
    (htype : a.type = "placed_signature") (himg : a.imageData = some imageData)
    (hfail : embedSignatureImage env.lib imageData = EmbedOutcome.threw
      ∨ ∃ mimeType, embedSignatureImage env.lib imageData = EmbedOutcome.unsupported mimeType)
    (hread : readFile st.files (env.pathJoin [env.dirname, "..", document.filePath])
      = some bytes)
    (hload : env.loadPdf bytes = some sizes)
    (hloop : finalizeLoop env.lib (pre ++ post) (sizes.map (fun size => ⟨size.1, size.2, []⟩))
      = some (flattenPages env.lib (pre ++ post)
          (sizes.map (fun size => ⟨size.1, size.2, []⟩))))
    (hsave : env.savePdf bytes
      (flattenPages env.lib (pre ++ post) (sizes.map (fun size => ⟨size.1, size.2, []⟩)))
      = some out)
    (hdb : env.dbSaveOk { document with
      finalizedPath := some ("/" ++ newFilePath env document), isFinalized := true } = true) :
    (∀ pages : List PdfPage,
        finalizeLoop env.lib (pre ++ a :: post) pages = finalizeLoop env.lib (pre ++ post) pages)
      ∧ (∀ pages : List PdfPage,
        flattenPages env.lib (pre ++ a :: post) pages = flattenPages env.lib (pre ++ post) pages)
      ∧ (finalizeRoute env st userId documentId).1
          = ⟨200, Body.finalized "Document finalized successfully!"
              ("http://localhost:5000/" ++ newFilePath env document) document._id⟩
      ∧ readFile (finalizeRoute env st userId documentId).2.files
          (env.pathJoin [env.dirname, "..", newFilePath env document]) = some out := by
  have hquiet : drawTextThrows env.lib a = false := by
    simp [drawTextThrows, htype]
  have hnone : ∀ page : PdfPage, drawOpsOf env.lib page a = [] := fun page =>
    drawOpsOf_embed_failed env.lib page a imageData htype himg hfail
  have hskip := fun pages => finalizeLoop_skip env.lib pre post a pages hquiet hnone
  have hflat : ∀ pages : List PdfPage,
      flattenPages env.lib (pre ++ a :: post) pages
        = flattenPages env.lib (pre ++ post) pages :=
    fun pages => flattenPages_skip env.lib pre post a pages (fun _ page _ _ => hnone page)
  have hrun : finalizeLoop env.lib document.annotations
      (sizes.map (fun size => ⟨size.1, size.2, []⟩))
      = some (flattenPages env.lib (pre ++ post)
          (sizes.map (fun size => ⟨size.1, size.2, []⟩))) := by
    rw [hanns, hskip, hloop]
  refine ⟨hskip, hflat, ?_, ?_⟩
  · simp only [finalizeRoute, hfind, hread, hload, hrun, hsave, hdb, if_true]
  · simp only [finalizeRoute, hfind, hread, hload, hrun, hsave, hdb, if_true,
      readFile_writeFile]

/-- Witness of `failed_embed_is_skipped_alone`: a GIF signature between a text
field and a PNG signature is skipped and finalize still answers 200. -/
theorem failed_embed_is_skipped_alone_witness :
    (finalizeRoute sampleEnv
        (sampleServer ([specCaseTextField] ++ gifSignature :: [sampleSignature]) none false)
        "alice" "doc1").1
      = ⟨200, Body.finalized "Document finalized successfully!"
          ("http://localhost:5000/" ++ newFilePath sampleEnv
            (sampleDocument ([specCaseTextField] ++ gifSignature :: [sampleSignature])
              none false))
          "doc1"⟩ :=
  (failed_embed_is_skipped_alone sampleEnv
    (sampleServer ([specCaseTextField] ++ gifSignature :: [sampleSignature]) none false)
    "alice" "doc1"
    (sampleDocument ([specCaseTextField] ++ gifSignature :: [sampleSignature]) none false)
    [specCaseTextField] [sampleSignature] gifSignature "data:image/gif;base64,GIFDATA"
    [37, 80, 68, 70]
    ([37, 80, 68, 70] ++ (flattenPages sampleLib ([specCaseTextField] ++ [sampleSignature])
      ([((612 : ℚ), (792 : ℚ))].map (fun size => ⟨size.1, size.2, []⟩))).map
        (fun page => page.drawn.length))
    [(612, 792)] rfl rfl rfl rfl (Or.inr ⟨"image/gif", by decide⟩) (by decide) rfl
    (finalizeLoop_of_no_throw sampleLib _ _ (fun b hb => by
      rcases List.mem_cons.1 hb with h | h
      · rw [h]; rfl
      · rw [List.mem_singleton.1 h]; rfl))
    rfl rfl).2.2.1

/-- Claim C8: for a document owned by the requester whose original file exists, a finalize
that answers 200 has loaded the file, flattened the stored annotations and written the saved
bytes to `uploads/finalized_<fileName>` under the server directory; the record then has
`isFinalized = true` and `finalizedPath` equal to that relative path behind a slash, and the
response carries the URL of the same path together with the document's id. -/
theorem finalize_success_sets_record (env : Env) (st : ServerState)
    (userId documentId : String) (document : DocumentRecord) (bytes : Bytes)
    (hfind : findOne st.documents documentId userId = some document)
    (hread : readFile st.files (env.pathJoin [env.dirname, "..", document.filePath])
      = some bytes)
    (hok : (finalizeRoute env st userId documentId).1.status = 200) :
    (finalizeRoute env st userId documentId).1.body
        = Body.finalized "Document finalized successfully!"
            ("http://localhost:5000/" ++ newFilePath env document) document._id
      ∧ findOne (finalizeRoute env st userId documentId).2.documents documentId userId
          = some { document with
              finalizedPath := some ("/" ++ newFilePath env document), isFinalized := true }
      ∧ ∃ (sizes : List (ℚ × ℚ)) (out : Bytes),
          env.loadPdf bytes = some sizes
            ∧ env.savePdf bytes (flattenPages env.lib document.annotations
                (sizes.map (fun size => ⟨size.1, size.2, []⟩))) = some out
            ∧ readFile (finalizeRoute env st userId documentId).2.files
                (env.pathJoin [env.dirname, "..", newFilePath env document]) = some out := by
  obtain ⟨d, b, out, sizes, hd, hb, hload, hsave, hrun⟩ :=
    finalizeRoute_ok env st userId documentId hok
  rw [hfind] at hd
  cases hd
  rw [hread] at hb
  cases hb
  rw [hrun]
  refine ⟨rfl, ?_, sizes, out, hload, hsave, readFile_writeFile _ _ _⟩
  exact findOne_saveDocument st.documents documentId userId document _ hfind rfl rfl

/-- Witness of `finalize_success_sets_record`: finalizing the sample document of `alice`. -/
theorem finalize_success_sets_record_witness :
    (finalizeRoute sampleEnv (sampleServer [sampleSignatureField] none false)
        "alice" "doc1").1.body
      = Body.finalized "Document finalized successfully!"
          ("http://localhost:5000/" ++ newFilePath sampleEnv
            (sampleDocument [sampleSignatureField] none false))
          "doc1" :=
  (finalize_success_sets_record sampleEnv (sampleServer [sampleSignatureField] none false)
    "alice" "doc1" (sampleDocument [sampleSignatureField] none false) [37, 80, 68, 70]
    rfl rfl
    (by rw [sampleEnv_finalizeRoute (sampleServer [sampleSignatureField] none false)
      [sampleSignatureField] none false [37, 80, 68, 70] rfl rfl rfl])).1

/-- Claim C9, as the code has it: when `handleFinalizeDocument` gets a 200 answer from the
finalize route, the viewer ends in view mode with an empty working collection and no
request outstanding, while the persisted record keeps the annotation collection it had
when the finalize request arrived; that collection is the viewer's working collection
whenever the save issued just before was delivered and stored. -/
theorem finalize_clears_only_working_collection (env : Env) (saveDelivered : Bool)
    (v : ViewerState) (st : ServerState) (documentId token userId : String)
    (hdoc : truthyString v.documentId = some documentId)
    (hidle : v.isFinalizing = false)
    (htoken : truthyString v.token = some token)
    (hauth : verifyToken env (some ("Bearer " ++ token)) = Except.ok userId)
    (hok : (finalizeRoute env (saveAnnotations env saveDelivered v st v.allAnnotations)
      userId documentId).1.status = 200) :
    (handleFinalizeDocument env saveDelivered true v st).1.allAnnotations = []
      ∧ (handleFinalizeDocument env saveDelivered true v st).1.annotationMode = "view"
      ∧ (handleFinalizeDocument env saveDelivered true v st).1.isFinalizing = false
      ∧ ∃ document : DocumentRecord,
          findOne (saveAnnotations env saveDelivered v st v.allAnnotations).documents
              documentId userId = some document
            ∧ findOne (handleFinalizeDocument env saveDelivered true v st).2.documents
                documentId userId
              = some { document with
                  finalizedPath := some ("/" ++ newFilePath env document),
                  isFinalized := true }
            ∧ (saveDelivered = true →
                (∀ stored : DocumentRecord,
                  findOne st.documents documentId userId = some stored →
                  env.dbSaveOk { stored with annotations := v.allAnnotations } = true) →
                document.annotations = v.allAnnotations) := by
  have hstate : (handleFinalizeDocument env saveDelivered true v st).2
      = (finalizeRoute env (saveAnnotations env saveDelivered v st v.allAnnotations)
          userId documentId).2 := by
    rw [handleFinalizeDocument_passed env saveDelivered true v st documentId token hdoc hidle
      htoken]
    simp [authenticated, hauth, hok]
  rw [hstate]
  refine ⟨?_, ?_, ?_, ?_⟩
  · rw [handleFinalizeDocument_passed env saveDelivered true v st documentId token hdoc hidle
      htoken]
    simp [authenticated, hauth, hok]
  · rw [handleFinalizeDocument_passed env saveDelivered true v st documentId token hdoc hidle
      htoken]
    simp [authenticated, hauth, hok]
  · rw [handleFinalizeDocument_passed env saveDelivered true v st documentId token hdoc hidle
      htoken]
    simp [authenticated, hauth, hok]
  generalize hst1 : saveAnnotations env saveDelivered v st v.allAnnotations = st1 at hok
  cases hfind : findOne st1.documents documentId userId with
  | none => simp [finalizeRoute, hfind] at hok
  | some document =>
    cases hread : readFile st1.files (env.pathJoin [env.dirname, "..", document.filePath]) with
    | none => simp [finalizeRoute, hfind, hread] at hok
    | some bytes =>
      refine ⟨document, rfl, ?_, ?_⟩
      · obtain ⟨d, _, _, _, hd, _, _, _, hrun⟩ := finalizeRoute_ok env st1 userId documentId hok
        rw [hfind] at hd
        cases hd
        rw [hrun]
        exact findOne_saveDocument st1.documents documentId userId document _ hfind rfl rfl
      · intro hdelivered hstored
        subst hdelivered
        simp only [saveAnnotations, hdoc, htoken, authenticated, hauth, if_true] at hst1
        cases hfind0 : findOne st.documents documentId userId with
        | none =>
          simp only [saveAnnotationsRoute, hfind0] at hst1
          subst hst1
          rw [hfind0] at hfind
          exact Option.noConfusion hfind
        | some stored =>
          have hdb := hstored stored hfind0
          simp only [saveAnnotationsRoute, hfind0, hdb, if_true] at hst1
          subst hst1
          have hnew := findOne_saveDocument st.documents documentId userId stored
            { stored with annotations := v.allAnnotations } hfind0 rfl rfl
          simp only at hfind
          rw [hnew] at hfind
          cases hfind
          rfl

/-- Witness of `finalize_clears_only_working_collection`: the viewer of `alice` finalizes
the sample document while holding one text field. -/
theorem finalize_clears_only_working_collection_witness :
    (handleFinalizeDocument sampleEnv true true (sampleViewer [specCaseTextField])
        (sampleServer [] none false)).1.allAnnotations = []
      ∧ (handleFinalizeDocument sampleEnv true true (sampleViewer [specCaseTextField])
        (sampleServer [] none false)).1.annotationMode = "view" :=
  have h := finalize_clears_only_working_collection sampleEnv true
    (sampleViewer [specCaseTextField]) (sampleServer [] none false)
    "doc1" "alice-token" "alice" rfl rfl rfl rfl
    (by rw [sampleEnv_finalizeRoute
      (saveAnnotations sampleEnv true (sampleViewer [specCaseTextField])
        (sampleServer [] none false) (sampleViewer [specCaseTextField]).allAnnotations)
      [specCaseTextField] none false [37, 80, 68, 70] rfl rfl rfl])
  ⟨h.1, h.2.1⟩

/-- Claim C9 as stated fails: after `handleFinalizeDocument` has finalized the sample
document successfully, the viewer's working collection is empty but the persisted record
still holds the annotation that was flattened. -/
theorem finalize_keeps_persisted_annotations :
    (handleFinalizeDocument sampleEnv true true (sampleViewer [specCaseTextField])
        (sampleServer [specCaseTextField] none false)).1.allAnnotations = []
      ∧ (handleFinalizeDocument sampleEnv true true (sampleViewer [specCaseTextField])
          (sampleServer [specCaseTextField] none false)).1.displayPdfUrl
          = some "http://localhost:5000/uploads/finalized_contract.pdf"
      ∧ (handleFinalizeDocument sampleEnv true true (sampleViewer [specCaseTextField])
          (sampleServer [specCaseTextField] none false)).2.documents
          = [sampleDocument [specCaseTextField] (some "/uploads/finalized_contract.pdf") true]
      ∧ (sampleDocument [specCaseTextField] (some "/uploads/finalized_contract.pdf")
          true).annotations ≠ [] := by
  rw [sampleEnv_handleFinalize [specCaseTextField] [specCaseTextField] rfl]
  refine ⟨rfl, rfl, rfl, ?_⟩
  simp [sampleDocument]

/-- Claim C10, as the code has it: the save-annotations route never reads `isFinalized`; for
a document owned by the requester, finalized or not, it answers 200 and replaces the stored
collection by the collection of the request whenever the database save succeeds, leaving the
other fields of the record, `isFinalized` included, and the files as they were; it refuses
with 404, changing nothing, when no document with that id belongs to the requester. -/
theorem save_annotations_ignores_finalized_flag (env : Env) (st : ServerState)
    (userId documentId : String) (annotations : List Annotation) :
    (∀ document : DocumentRecord, findOne st.documents documentId userId = some document →
        env.dbSaveOk { document with annotations := annotations } = true →
        (saveAnnotationsRoute env st userId documentId annotations).1
            = ⟨200, Body.annotationsSaved "Annotations saved successfully" annotations⟩
          ∧ findOne (saveAnnotationsRoute env st userId documentId annotations).2.documents
              documentId userId
              = some { document with annotations := annotations }
          ∧ (saveAnnotationsRoute env st userId documentId annotations).2.files = st.files)
      ∧ (findOne st.documents documentId userId = none →
          saveAnnotationsRoute env st userId documentId annotations
            = (⟨404, Body.message "Document not found or you do not have permission."⟩,
                st)) := by
  constructor
  · intro document hfind hdb
    refine ⟨?_, ?_, ?_⟩
    · simp only [saveAnnotationsRoute, hfind, hdb, if_true]
    · simp only [saveAnnotationsRoute, hfind, hdb, if_true]
      exact findOne_saveDocument st.documents documentId userId document _ hfind rfl rfl
    · simp only [saveAnnotationsRoute, hfind, hdb, if_true]
  · intro hnone
    simp only [saveAnnotationsRoute, hnone]

/-- Witness of `save_annotations_ignores_finalized_flag`: a save for the finalized sample
document is answered with 200. -/
theorem save_annotations_ignores_finalized_flag_witness :
    (saveAnnotationsRoute sampleEnv
        (sampleServer [specCaseTextField] (some "/uploads/finalized_contract.pdf") true)
        "alice" "doc1" [sampleSignatureField]).1
      = ⟨200, Body.annotationsSaved "Annotations saved successfully" [sampleSignatureField]⟩ :=
  ((save_annotations_ignores_finalized_flag sampleEnv
    (sampleServer [specCaseTextField] (some "/uploads/finalized_contract.pdf") true)
    "alice" "doc1" [sampleSignatureField]).1
    (sampleDocument [specCaseTextField] (some "/uploads/finalized_contract.pdf") true)
    rfl rfl).1

/-- Claim C10 as stated fails: the sample document has `isFinalized = true` and one stored
annotation, yet a save-annotations request of its owner is answered with 200 and the stored
collection is replaced by the collection of the request. -/
theorem finalized_document_accepts_save :
    (sampleDocument [specCaseTextField] (some "/uploads/finalized_contract.pdf")
        true).isFinalized = true
      ∧ saveAnnotationsRoute sampleEnv
          (sampleServer [specCaseTextField] (some "/uploads/finalized_contract.pdf") true)
          "alice" "doc1" [sampleSignatureField]
        = (⟨200, Body.annotationsSaved "Annotations saved successfully"
              [sampleSignatureField]⟩,
            sampleServer [sampleSignatureField] (some "/uploads/finalized_contract.pdf") true)
      ∧ [sampleSignatureField] ≠ [specCaseTextField] := by
  refine ⟨rfl, rfl, ?_⟩
  simp [sampleSignatureField, specCaseTextField]

/-- Claim C11, as the code has it: when a document is finalized twice, both runs answer with
the same response (the same URL and document id) and leave the same `finalizedPath` in the
record, and the second run writes its own flattened bytes to the very path the first run
wrote to: there is one artifact, whose content is replaced. -/
theorem second_finalize_reuses_reference (env : Env) (st : ServerState)
    (userId documentId : String)
    (hfirst : (finalizeRoute env st userId documentId).1.status = 200)
    (hsecond : (finalizeRoute env (finalizeRoute env st userId documentId).2
      userId documentId).1.status = 200) :
    (finalizeRoute env (finalizeRoute env st userId documentId).2 userId documentId).1
        = (finalizeRoute env st userId documentId).1
      ∧ ∃ (document : DocumentRecord) (bytes2 out2 : Bytes) (sizes2 : List (ℚ × ℚ)),
          findOne st.documents documentId userId = some document
            ∧ findOne (finalizeRoute env st userId documentId).2.documents documentId userId
                = some { document with
                    finalizedPath := some ("/" ++ newFilePath env document),
                    isFinalized := true }
            ∧ findOne (finalizeRoute env (finalizeRoute env st userId documentId).2
                  userId documentId).2.documents documentId userId
                = some { document with
                    finalizedPath := some ("/" ++ newFilePath env document),
                    isFinalized := true }
            ∧ readFile (finalizeRoute env st userId documentId).2.files
                (env.pathJoin [env.dirname, "..", document.filePath]) = some bytes2
            ∧ env.loadPdf bytes2 = some sizes2
            ∧ env.savePdf bytes2 (flattenPages env.lib document.annotations
                (sizes2.map (fun size => ⟨size.1, size.2, []⟩))) = some out2
            ∧ readFile (finalizeRoute env (finalizeRoute env st userId documentId).2
                  userId documentId).2.files
                (env.pathJoin [env.dirname, "..", newFilePath env document]) = some out2 := by
  obtain ⟨document, bytes, out, sizes, hfind, _, _, _, hrun1⟩ :=
    finalizeRoute_ok env st userId documentId hfirst
  have hfind1 : findOne (finalizeRoute env st userId documentId).2.documents documentId userId
      = some { document with
          finalizedPath := some ("/" ++ newFilePath env document), isFinalized := true } := by
    rw [hrun1]
    exact findOne_saveDocument st.documents documentId userId document _ hfind rfl rfl
  obtain ⟨document2, bytes2, out2, sizes2, hfind2, hread2, hload2, hsave2, hrun2⟩ :=
    finalizeRoute_ok env (finalizeRoute env st userId documentId).2 userId documentId hsecond
  rw [hfind1] at hfind2
  cases hfind2
  have hpath : newFilePath env { document with
      finalizedPath := some ("/" ++ newFilePath env document), isFinalized := true }
      = newFilePath env document := rfl
  rw [hpath] at hrun2
  refine ⟨?_, document, bytes2, out2, sizes2, hfind, hfind1, ?_, hread2, hload2, hsave2, ?_⟩
  · rw [hrun2, hrun1]
  · rw [hrun2]
    exact findOne_saveDocument _ documentId userId _ _ hfind1 rfl rfl
  · rw [hrun2]
    exact readFile_writeFile _ _ _

/-- Witness of `second_finalize_reuses_reference`: the sample document finalized twice. -/
theorem second_finalize_reuses_reference_witness :
    (finalizeRoute sampleEnv
        (finalizeRoute sampleEnv (sampleServer [sampleSignatureField] none false)
          "alice" "doc1").2 "alice" "doc1").1
      = (finalizeRoute sampleEnv (sampleServer [sampleSignatureField] none false)
          "alice" "doc1").1 := by
  have hfirst := sampleEnv_finalizeRoute (sampleServer [sampleSignatureField] none false)
    [sampleSignatureField] none false [37, 80, 68, 70] rfl rfl rfl
  have hsecond := sampleEnv_finalizeRoute
    (finalizeRoute sampleEnv (sampleServer [sampleSignatureField] none false)
      "alice" "doc1").2
    [sampleSignatureField] (some "/uploads/finalized_contract.pdf") true [37, 80, 68, 70]
    (by rw [hfirst]) (by rw [hfirst]; rfl) rfl
  exact (second_finalize_reuses_reference sampleEnv
    (sampleServer [sampleSignatureField] none false) "alice" "doc1"
    (by rw [hfirst]) (by rw [hsecond])).1

/-- Claim C11 as stated fails: finalizing the sample document twice gives twice the
reference `http://localhost:5000/uploads/finalized_contract.pdf`, and afterwards the disk
holds the original and a single artifact, at the path both runs wrote to.  When the stored
annotations are replaced between the two runs, the bytes the first run wrote there
(`37, 80, 68, 70, 1`) are gone after the second (`37, 80, 68, 70, 0`). -/
theorem finalize_twice_same_reference :
    (finalizeRoute sampleEnv (sampleServer [specCaseTextField] none false)
        "alice" "doc1").1
        = ⟨200, Body.finalized "Document finalized successfully!"
            "http://localhost:5000/uploads/finalized_contract.pdf" "doc1"⟩
      ∧ (finalizeRoute sampleEnv
          (finalizeRoute sampleEnv (sampleServer [specCaseTextField] none false)
            "alice" "doc1").2 "alice" "doc1").1
        = ⟨200, Body.finalized "Document finalized successfully!"
            "http://localhost:5000/uploads/finalized_contract.pdf" "doc1"⟩
      ∧ (finalizeRoute sampleEnv
          (finalizeRoute sampleEnv (sampleServer [specCaseTextField] none false)
            "alice" "doc1").2 "alice" "doc1").2.files.map Prod.fst
        = ["/srv/server/uploads/finalized_contract.pdf",
            "/srv/server/uploads/17-contract.pdf"]
      ∧ readFile (finalizeRoute sampleEnv (sampleServer [specCaseTextField] none false)
          "alice" "doc1").2.files "/srv/server/uploads/finalized_contract.pdf"
        = some [37, 80, 68, 70, 1]
      ∧ readFile (finalizeRoute sampleEnv
          (saveAnnotationsRoute sampleEnv
            (finalizeRoute sampleEnv (sampleServer [specCaseTextField] none false)
              "alice" "doc1").2 "alice" "doc1" []).2 "alice" "doc1").2.files
          "/srv/server/uploads/finalized_contract.pdf"
        = some [37, 80, 68, 70, 0] := by
  have hflat : flattenPages sampleLib [specCaseTextField] [⟨612, 792, []⟩]
      = [⟨612, 792,
          [DrawOp.drawText "Signed" 100 692 StandardFonts.Helvetica 16 (rgb 0 0 0) 150]⟩] := by
    simp [flattenPages, flattenFrom, annotationsOnPage, drawOnPage, specCaseTextField,
      truthyText, PdfPage.drawText, yFromBottom, fontSizeOrDefault]
    norm_num
  have hrun := sampleEnv_finalizeRoute (sampleServer [specCaseTextField] none false)
    [specCaseTextField] none false [37, 80, 68, 70] rfl rfl rfl
  have hagain := sampleEnv_finalizeRoute
    (finalizeRoute sampleEnv (sampleServer [specCaseTextField] none false) "alice" "doc1").2
    [specCaseTextField] (some "/uploads/finalized_contract.pdf") true [37, 80, 68, 70]
    (by rw [hrun]) (by rw [hrun]; rfl) rfl
  have hedited := sampleEnv_finalizeRoute
    (saveAnnotationsRoute sampleEnv
      (finalizeRoute sampleEnv (sampleServer [specCaseTextField] none false)
        "alice" "doc1").2 "alice" "doc1" []).2
    [] (some "/uploads/finalized_contract.pdf") true [37, 80, 68, 70]
    (by rw [hrun]; rfl) (by rw [hrun]; rfl) rfl
  have hfirst : readFile (finalizeRoute sampleEnv (sampleServer [specCaseTextField] none false)
      "alice" "doc1").2.files "/srv/server/uploads/finalized_contract.pdf"
      = some ([37, 80, 68, 70]
          ++ (flattenPages sampleLib [specCaseTextField] [⟨612, 792, []⟩]).map
            (fun page => page.drawn.length)) := by
    rw [hrun]
    rfl
  refine ⟨?_, ?_, ?_, ?_, ?_⟩
  · rw [hrun]
  · rw [hagain]
  · rw [hagain, hrun]
    rfl
  · rw [hfirst, hflat]
    rfl
  · rw [hedited]
    rfl

/-- Claim C20: a save by the owner that the database accepts replaces the stored collection
by exactly the saved collection `c`, whatever was stored before, and a following load
returns `c`; saving back what a load returned, once or twice, leaves the record as it
was, so a load still returns the original collection. -/
theorem save_replaces_and_load_returns (env : Env) (st : ServerState)
    (userId documentId : String) (document : DocumentRecord) (c : List Annotation)
    (hfind : findOne st.documents documentId userId = some document)
    (hdb : env.dbSaveOk { document with annotations := c } = true) :
    findOne (saveAnnotationsRoute env st userId documentId c).2.documents documentId userId
        = some { document with annotations := c }
      ∧ (getAnnotationsRoute (saveAnnotationsRoute env st userId documentId c).2
          userId documentId).1 = ⟨200, Body.annotationList c⟩
      ∧ (getAnnotationsRoute st userId documentId).1
          = ⟨200, Body.annotationList document.annotations⟩
      ∧ (env.dbSaveOk document = true →
          findOne (saveAnnotationsRoute env st userId documentId
              document.annotations).2.documents documentId userId = some document
            ∧ findOne (saveAnnotationsRoute env
                (saveAnnotationsRoute env st userId documentId document.annotations).2
                userId documentId document.annotations).2.documents documentId userId
              = some document
            ∧ (getAnnotationsRoute (saveAnnotationsRoute env
                (saveAnnotationsRoute env st userId documentId document.annotations).2
                userId documentId document.annotations).2 userId documentId).1
              = ⟨200, Body.annotationList document.annotations⟩) := by
  have hsaved : ∀ (s : ServerState) (d : DocumentRecord) (xs : List Annotation),
      findOne s.documents documentId userId = some d →
      env.dbSaveOk { d with annotations := xs } = true →
      findOne (saveAnnotationsRoute env s userId documentId xs).2.documents documentId userId
        = some { d with annotations := xs } := by
    intro s d xs hd hok
    simp only [saveAnnotationsRoute, hd, hok, if_true]
    exact findOne_saveDocument s.documents documentId userId d _ hd rfl rfl
  have hstored := hsaved st document c hfind hdb
  refine ⟨hstored, ?_, ?_, ?_⟩
  · simp only [getAnnotationsRoute, hstored]
  · simp only [getAnnotationsRoute, hfind]
  · intro hsame
    have hself : ({ document with annotations := document.annotations } : DocumentRecord)
        = document := rfl
    have h1 := hsaved st document document.annotations hfind (by rw [hself]; exact hsame)
    rw [hself] at h1
    have h2 := hsaved _ document document.annotations h1 (by rw [hself]; exact hsame)
    rw [hself] at h2
    refine ⟨h1, h2, ?_⟩
    simp only [getAnnotationsRoute, h2]

/-- Witness of `save_replaces_and_load_returns`: the owner of the sample document replaces
one stored text field by a signature field and a signature. -/
theorem save_replaces_and_load_returns_witness :
    (getAnnotationsRoute
        (saveAnnotationsRoute sampleEnv (sampleServer [specCaseTextField] none false)
          "alice" "doc1" [sampleSignatureField, sampleSignature]).2 "alice" "doc1").1
      = ⟨200, Body.annotationList [sampleSignatureField, sampleSignature]⟩ :=
  (save_replaces_and_load_returns sampleEnv (sampleServer [specCaseTextField] none false)
    "alice" "doc1" (sampleDocument [specCaseTextField] none false)
    [sampleSignatureField, sampleSignature] rfl rfl).2.1

/-- Claim C12: with Node's `path.join`, for a document created by the upload route (file name
`originalname`, a base name, and file path `/uploads/<Date.now()>-<originalname>`) the path
to which finalize writes, `uploads/finalized_<originalname>` under the server directory,
differs from the path of the original file, as absolute paths and as the relative paths
multer and finalize compute; so finalize leaves the content stored at the original's path
as it was. -/
theorem finalize_never_overwrites_original (env : Env) (st : ServerState)
    (userId documentId : String) (document : DocumentRecord) (now : Nat)
    (file : UploadedFile)
    (hjoin : env.pathJoin = posixJoin)
    (hbase : '/' ∉ file.originalname.data)
    (hfind : findOne st.documents documentId userId = some document)
    (hname : document.fileName
      = (uploadedDocument env document.owner document._id now file).fileName)
    (hpath : document.filePath
      = (uploadedDocument env document.owner document._id now file).filePath) :
    env.pathJoin [env.dirname, "..", newFilePath env document]
        ≠ env.pathJoin [env.dirname, "..", document.filePath]
      ∧ newFilePath env document ≠ uploadedPath env now file
      ∧ readFile (finalizeRoute env st userId documentId).2.files
          (env.pathJoin [env.dirname, "..", document.filePath])
        = readFile st.files (env.pathJoin [env.dirname, "..", document.filePath]) := by
  obtain ⟨h1, h2, h3, h4⟩ := upload_and_finalized_paths env.dirname now file hbase
  have hO := storageFilename_plain now file hbase
  have hF := finalizedName_plain file.originalname hbase
  have hsegs : (storageFilename now file).data ≠ ("finalized_" ++ file.originalname).data := by
    intro e
    exact hO.2 (by rw [e]; exact hF.2)
  have hnew : newFilePath env document
      = posixJoin ["uploads", "finalized_" ++ file.originalname] := by
    rw [newFilePath, hjoin, hname]
    rfl
  have hold : document.filePath
      = "/" ++ posixJoin ["uploads/", storageFilename now file] := by
    rw [hpath]
    simp only [uploadedDocument, uploadedPath, hjoin]
  have habs : env.pathJoin [env.dirname, "..", newFilePath env document]
      ≠ env.pathJoin [env.dirname, "..", document.filePath] := by
    rw [hnew, hold, hjoin]
    intro e
    rw [e] at h4
    exact hsegs (endsInSegment_unique _ _ _ h2 h4 hO.1.2.2.2 hF.1.2.2.2)
  refine ⟨habs, ?_, ?_⟩
  · rw [hnew, uploadedPath, hjoin]
    intro e
    rw [e] at h3
    exact hsegs (endsInSegment_unique _ _ _ h1 h3 hO.1.2.2.2 hF.1.2.2.2)
  · rcases finalizeRoute_files env st userId documentId with h | ⟨d, out, hd, h⟩
    · rw [h]
    · rw [hfind] at hd
      cases hd
      rw [h]
      exact readFile_writeFile_ne _ _ _ _ (fun e => habs e.symm)

/-- Witness of `finalize_never_overwrites_original`: the document uploaded as
`contract.pdf` at time 17 is stored at `/srv/server/uploads/17-contract.pdf` and finalized
to `/srv/server/uploads/finalized_contract.pdf`. -/
theorem finalize_never_overwrites_original_witness :
    posixEnv.pathJoin [posixEnv.dirname, "..",
        newFilePath posixEnv (uploadedDocument posixEnv "alice" "doc1" 17 sampleUpload)]
      ≠ posixEnv.pathJoin [posixEnv.dirname, "..",
        (uploadedDocument posixEnv "alice" "doc1" 17 sampleUpload).filePath] :=
  (finalize_never_overwrites_original posixEnv uploadedServer "alice" "doc1"
    (uploadedDocument posixEnv "alice" "doc1" 17 sampleUpload) 17 sampleUpload
    rfl (by decide) rfl rfl rfl).1

/-- Claim C13: from every state of the overlay controller, a click on `Place My Signature`
while no signature is available changes nothing: the mode, the annotation collection and
every other part of the state stay what they were, and nothing is saved. -/
theorem place_signature_needs_signature (s : OverlayState)
    (hnone : truthyString s.userSignature = none) :
    clickModeButton s ModeButton.placeSignature = s
      ∧ viewerStep s (ViewerEvent.clickMode ModeButton.placeSignature) = s := by
  have h : clickModeButton s ModeButton.placeSignature = s := by
    simp [clickModeButton, modeButtonDisabled, hnone]
  exact ⟨h, h⟩

/-- Witness of `place_signature_needs_signature`: a viewer in `signature_field` mode whose
`userSignature` prop is `null`. -/
theorem place_signature_needs_signature_witness :
    clickModeButton { sampleOverlay "signature_field" with userSignature := none }
        ModeButton.placeSignature
      = { sampleOverlay "signature_field" with userSignature := none } :=
  (place_signature_needs_signature
    { sampleOverlay "signature_field" with userSignature := none } rfl).1

/-- Claim C14, as the code has it: the viewer never reads `isFinalized`; what it goes by is
whether the displayed URL contains `finalized_`.  While it does, every mode button is
disabled, so a mode request leaves the state as it is; a successful finalize puts the viewer
in `view` mode; and in every state reached from mounting by events among which no document
change brings a file URL containing `finalized_`, a displayed finalized URL implies `view`
mode.  A document opened from the dashboard, finalized or not, is displayed by the URL of
its original file: unless that URL contains `finalized_`, the mode stays what it was and
every mode request is granted as for any other document (with no finalize request
outstanding, and for `Place My Signature` with a signature available). -/
theorem finalized_display_refuses_mode_requests :
    (∀ (s : OverlayState) (button : ModeButton), isFinalizedUrl s.displayPdfUrl = true →
        clickModeButton s button = s)
      ∧ (∀ (s : OverlayState) (finalizedUrl : Option String),
          (onFinalizeSucceeded s finalizedUrl).annotationMode = "view")
      ∧ (∀ (fileUrl documentId userSignature : Option String) (events : List ViewerEvent),
          (∀ url doc fetched, ViewerEvent.documentChanged url doc fetched ∈ events →
            isFinalizedUrl url = false) →
          isFinalizedUrl
            (runViewer (initialOverlay fileUrl documentId userSignature) events).displayPdfUrl
              = true →
          (runViewer (initialOverlay fileUrl documentId userSignature) events).annotationMode
            = "view")
      ∧ ∀ (s : OverlayState) (document : DocumentRecord)
          (fetched : Option (List ClientAnnotation)) (button : ModeButton),
          isFinalizedUrl (some ("http://localhost:5000" ++ document.filePath)) = false →
          s.isFinalizing = false →
          (button = ModeButton.placeSignature → (truthyString s.userSignature).isSome = true) →
          (viewFromDashboard s document fetched).annotationMode = s.annotationMode
            ∧ (clickModeButton (viewFromDashboard s document fetched) button).annotationMode
              = button.mode := by
  refine ⟨clickModeButton_finalized, fun _ _ => rfl, ?_, ?_⟩
  · intro fileUrl documentId userSignature events
    have hgen : ∀ (es : List ViewerEvent) (s : OverlayState),
        (isFinalizedUrl s.displayPdfUrl = true → s.annotationMode = "view") →
        (∀ url doc fetched, ViewerEvent.documentChanged url doc fetched ∈ es →
          isFinalizedUrl url = false) →
        isFinalizedUrl (runViewer s es).displayPdfUrl = true →
        (runViewer s es).annotationMode = "view" := by
      intro es
      induction es with
      | nil => intro s hs _ h; exact hs h
      | cons e es ih =>
        intro s hs hes
        simp only [runViewer, List.foldl_cons]
        apply ih (viewerStep s e)
        · apply viewerStep_invariant s e hs
          intro url doc fetched heq
          exact hes url doc fetched (by simp [heq])
        · intro url doc fetched hmem
          exact hes url doc fetched (List.mem_cons_of_mem _ hmem)
    exact hgen events _ (fun _ => rfl)
  · intro s document fetched button hurl hidle hsig
    refine ⟨rfl, ?_⟩
    have hurl2 : isFinalizedUrl (viewFromDashboard s document fetched).displayPdfUrl
        = false := hurl
    have hidle2 : (viewFromDashboard s document fetched).isFinalizing = false := hidle
    cases button with
    | placeSignature =>
      have hsome := hsig rfl
      have hsig2 : (truthyString (viewFromDashboard s document fetched).userSignature).isSome
          = true := hsome
      cases hts : truthyString (viewFromDashboard s document fetched).userSignature with
      | none => rw [hts] at hsig2; exact absurd hsig2 (by decide)
      | some sig =>
        simp [clickModeButton, modeButtonDisabled, hurl2, hidle2, hts, ModeButton.mode]
    | view => simp [clickModeButton, modeButtonDisabled, hurl2, hidle2, ModeButton.mode]
    | signatureField =>
      simp [clickModeButton, modeButtonDisabled, hurl2, hidle2, ModeButton.mode]
    | textField => simp [clickModeButton, modeButtonDisabled, hurl2, hidle2, ModeButton.mode]

/-- Witness of `finalized_display_refuses_mode_requests`: after a successful finalize every
mode button leaves the sample viewer as it is. -/
theorem finalized_display_refuses_mode_requests_witness :
    clickModeButton
        (onFinalizeSucceeded (sampleOverlay "text_field")
          (some "http://localhost:5000/uploads/finalized_contract.pdf"))
        ModeButton.signatureField
      = onFinalizeSucceeded (sampleOverlay "text_field")
          (some "http://localhost:5000/uploads/finalized_contract.pdf") :=
  finalized_display_refuses_mode_requests.1 _ ModeButton.signatureField (by decide)

/-- Claim C14 as stated fails: the sample document has been finalized, so its record has
`isFinalized` true.  Opened from the dashboard it is displayed by the URL of its original
file, which does not count as finalized for the viewer: the viewer starts in `view` mode,
but the request for `signature_field` mode is granted, a drag then adds a field to the
working collection and saves it, and the save route stores a collection for the finalized
document. -/
theorem finalized_document_reopened_is_editable :
    findOne (finalizeRoute sampleEnv (sampleServer [specCaseTextField] none false)
        "alice" "doc1").2.documents "doc1" "alice"
        = some (sampleDocument [specCaseTextField]
            (some "/uploads/finalized_contract.pdf") true)
      ∧ (sampleDocument [specCaseTextField]
          (some "/uploads/finalized_contract.pdf") true).isFinalized = true
      ∧ (viewFromDashboard (initialOverlay none none none)
          (sampleDocument [specCaseTextField] (some "/uploads/finalized_contract.pdf") true)
          (some [specCaseTextEntry])).displayPdfUrl
        = some "http://localhost:5000/uploads/17-contract.pdf"
      ∧ (viewFromDashboard (initialOverlay none none none)
          (sampleDocument [specCaseTextField] (some "/uploads/finalized_contract.pdf") true)
          (some [specCaseTextEntry])).annotationMode = "view"
      ∧ (clickModeButton
          (viewFromDashboard (initialOverlay none none none)
            (sampleDocument [specCaseTextField] (some "/uploads/finalized_contract.pdf") true)
            (some [specCaseTextEntry]))
          ModeButton.signatureField).annotationMode = "signature_field"
      ∧ (runViewer
          (viewFromDashboard (initialOverlay none none none)
            (sampleDocument [specCaseTextField] (some "/uploads/finalized_contract.pdf") true)
            (some [specCaseTextEntry]))
          [ViewerEvent.clickMode ModeButton.signatureField,
            ViewerEvent.pointerDown "r1" none ⟨none, 100, 100⟩,
            ViewerEvent.pointerMove ⟨none, 160, 130⟩,
            ViewerEvent.pointerUp]).saved.map List.length = [2]
      ∧ (saveAnnotationsRoute sampleEnv
          (finalizeRoute sampleEnv (sampleServer [specCaseTextField] none false)
            "alice" "doc1").2 "alice" "doc1" [specCaseTextField, sampleSignatureField]).1.status
        = 200 := by
  have hrun := sampleEnv_finalizeRoute (sampleServer [specCaseTextField] none false)
    [specCaseTextField] none false [37, 80, 68, 70] rfl rfl rfl
  refine ⟨?_, rfl, rfl, rfl, by decide, ?_, ?_⟩
  · rw [hrun]
    rfl
  · have hsteps : runViewer
        (viewFromDashboard (initialOverlay none none none)
          (sampleDocument [specCaseTextField] (some "/uploads/finalized_contract.pdf") true)
          (some [specCaseTextEntry]))
        [ViewerEvent.clickMode ModeButton.signatureField,
          ViewerEvent.pointerDown "r1" none ⟨none, 100, 100⟩,
          ViewerEvent.pointerMove ⟨none, 160, 130⟩,
          ViewerEvent.pointerUp]
        = handleMouseUp (handleMouseMove (handleMouseDown "r1"
            { initialOverlay (some "http://localhost:5000/uploads/17-contract.pdf")
                (some "doc1") none with
              annotationMode := "signature_field", allAnnotations := [specCaseTextEntry] }
            ⟨none, 100, 100⟩) ⟨none, 160, 130⟩) := rfl
    rw [hsteps]
    simp [handleMouseUp, handleMouseMove, handleMouseDown, initialOverlay, Canvas.addActive,
      Canvas.setOnActive, Canvas.getActiveObject, List.modify, List.modifyTailIdx,
      List.modifyHead]
    norm_num [abs_of_neg, abs_of_pos]
  · rw [hrun]
    rfl

/-- Claim C15: at the end of a drag in `signature_field` mode the active object is the
rectangle that was drawn; pointer-up appends one `signature_field` annotation made from it
and saves the extended collection when both its width and its height exceed 5, and
otherwise removes the rectangle from the canvas, leaves the collection as it was and saves
nothing. -/
theorem pointer_up_keeps_only_large_fields (uid : String) (s : OverlayState)
    (down : PointerEvent) (moves : List PointerEvent) (hempty : down.target = none) :
    ∃ rect : FabricObject,
      (dragTo uid s down moves).canvas.getActiveObject = some rect
        ∧ (dragTo uid s down moves).canvas.objects = s.canvas.objects ++ [rect]
        ∧ ((5 < rect.width ∧ 5 < rect.height) →
            (handleMouseUp (dragTo uid s down moves)).allAnnotations
                = s.allAnnotations ++
                  [{ id := some uid, documentId := s.documentId, page := s.pageNumber,
                     type := "signature_field", x := rect.left, y := rect.top,
                     width := rect.width * scaleOrOne rect.scaleX,
                     height := rect.height * scaleOrOne rect.scaleY,
                     text := none, imageData := none, objectData := some rect.toJSON }]
              ∧ (handleMouseUp (dragTo uid s down moves)).saved
                = s.saved ++ [(handleMouseUp (dragTo uid s down moves)).allAnnotations])
        ∧ (¬ (5 < rect.width ∧ 5 < rect.height) →
            (handleMouseUp (dragTo uid s down moves)).allAnnotations = s.allAnnotations
              ∧ (handleMouseUp (dragTo uid s down moves)).saved = s.saved
              ∧ (handleMouseUp (dragTo uid s down moves)).canvas.objects
                = s.canvas.objects) := by
  obtain ⟨rect, hc, hid, _, hanns, hsaved, hdoc, hpage, _, _, _⟩ :=
    dragTo_state uid s down moves hempty
  have hactive : (dragTo uid s down moves).canvas.getActiveObject = some rect := by
    rw [hc]
    simp [Canvas.getActiveObject]
  refine ⟨rect, hactive, by rw [hc], ?_, ?_⟩
  · intro hbig
    have hbig2 : rect.width > 5 ∧ rect.height > 5 := hbig
    simp only [handleMouseUp, hactive, hbig2, and_self, if_true, hanns, hsaved, hdoc, hpage,
      hid]
  · intro hsmall
    have hsmall2 : ¬ (rect.width > 5 ∧ rect.height > 5) := hsmall
    simp only [handleMouseUp, hactive, hsmall2, if_false, hanns, hsaved]
    rw [hc]
    simp [Canvas.removeActive, eraseIdx_append_length]

/-- Witness of `pointer_up_keeps_only_large_fields`: a drag from (100, 100) to (160, 130) on
the sample viewer. -/
theorem pointer_up_keeps_only_large_fields_witness :
    ∃ rect : FabricObject,
      (dragTo "r1" (sampleOverlay "signature_field") ⟨none, 100, 100⟩
          [⟨none, 160, 130⟩]).canvas.getActiveObject = some rect :=
  match pointer_up_keeps_only_large_fields "r1" (sampleOverlay "signature_field")
      ⟨none, 100, 100⟩ [⟨none, 160, 130⟩] rfl with
  | ⟨rect, h, _⟩ => ⟨rect, h⟩

/-- Claim C16 at its failing input: a drag that starts at (100, 100), goes up-left to
(50, 50) and comes back past the anchor to (150, 150) leaves the rectangle at left 50,
top 50 with width 50 and height 50, where the box spanned by anchor and pointer has left
100 and top 100; and a single move to (-20, -10) puts the rectangle at left 20, top 10. -/
theorem drag_back_past_anchor_keeps_corner :
    (dragTo "r1" (initialOverlay none (some "doc1") none) ⟨none, 100, 100⟩
        [⟨none, 50, 50⟩, ⟨none, 150, 150⟩]).canvas.getActiveObject
        = some { id := some "r1", name := "signature_field", left := 50, top := 50,
                 width := 50, height := 50, scaleX := 1, scaleY := 1, text := none,
                 fontSize := none, imageData := none }
      ∧ min (100 : ℚ) 150 = 100
      ∧ (dragTo "r1" (initialOverlay none (some "doc1") none) ⟨none, 100, 100⟩
          [⟨none, -20, -10⟩]).canvas.getActiveObject
        = some { id := some "r1", name := "signature_field", left := 20, top := 10,
                 width := 120, height := 110, scaleX := 1, scaleY := 1, text := none,
                 fontSize := none, imageData := none }
      ∧ min (100 : ℚ) (-20) = -20 := by
  refine ⟨?_, by norm_num, ?_, by norm_num⟩
  · simp [dragTo, handleMouseDown, handleMouseMove, initialOverlay, Canvas.addActive,
      Canvas.setOnActive, Canvas.getActiveObject, List.modify, List.modifyTailIdx,
      List.modifyHead]
    norm_num [abs_of_pos, abs_of_neg]
  · simp [dragTo, handleMouseDown, handleMouseMove, initialOverlay, Canvas.addActive,
      Canvas.setOnActive, Canvas.getActiveObject, List.modify, List.modifyTailIdx,
      List.modifyHead]
    norm_num [abs_of_pos, abs_of_neg]

/-- Claim C17, as the code has it: in `place_signature` mode a pointer-down at `(px, py)`
on empty space, with a signature available and a signature image of positive width and
height, appends one `placed_signature` annotation with the id just generated and the
signature as image data, and saves the extended collection.  Its size and corner are
computed in doubles from the scale factors `150 / width` and `50 / height`, so they are
150, 50 and `(px - 75, py - 25)` up to rounding: the width is within `150 / 2 ^ 51` of 150,
the height within `50 / 2 ^ 51` of 50, and the corner within `(|px| + 512) / 2 ^ 53` and
`(|py| + 512) / 2 ^ 53` of `px - 75` and `py - 25` (image sizes are pixel counts, well
inside the normal range of doubles). -/
theorem placed_signature_is_centred (uid userSignature : String) (s : OverlayState)
    (o : PointerEvent) (imgWidth imgHeight : ℚ)
    (hempty : o.target = none)
    (hsig : truthyString s.userSignature = some userSignature)
    (hw : 0 < imgWidth) (hh : 0 < imgHeight) :
    ∃ x y width height : ℚ,
      (handleCanvasClick uid (some (imgWidth, imgHeight)) s o).allAnnotations
          = s.allAnnotations ++
            [{ id := some uid, documentId := s.documentId, page := s.pageNumber,
               type := "placed_signature", x := x, y := y,
               width := width, height := height, text := none,
               imageData := some userSignature, objectData := some ⟨none, none⟩ }]
        ∧ (handleCanvasClick uid (some (imgWidth, imgHeight)) s o).saved
          = s.saved
            ++ [(handleCanvasClick uid (some (imgWidth, imgHeight)) s o).allAnnotations]
        ∧ width = jsMul imgWidth (jsDiv 150 imgWidth)
        ∧ height = jsMul imgHeight (jsDiv 50 imgHeight)
        ∧ x = jsSub o.x (jsDiv width 2) ∧ y = jsSub o.y (jsDiv height 2)
        ∧ |width - 150| ≤ 150 / 2 ^ 51 ∧ |height - 50| ≤ 50 / 2 ^ 51
        ∧ |x - (o.x - 75)| ≤ (|o.x| + 512) / 2 ^ 53
        ∧ |y - (o.y - 25)| ≤ (|o.y| + 512) / 2 ^ 53 := by
  have hpos : imgWidth > 0 ∧ imgHeight > 0 := ⟨hw, hh⟩
  have hwidth := jsMul_jsDiv_near 150 imgWidth (by norm_num) hw
  have hheight := jsMul_jsDiv_near 50 imgHeight (by norm_num) hh
  have hx := jsSub_half_near 150 o.x (jsMul imgWidth (jsDiv 150 imgWidth)) (by norm_num)
    (by norm_num) hwidth
  have hy := jsSub_half_near 50 o.y (jsMul imgHeight (jsDiv 50 imgHeight)) (by norm_num)
    (by norm_num) hheight
  have e75 : (150 : ℚ) / 2 = 75 := by norm_num
  have e25 : (50 : ℚ) / 2 = 25 := by norm_num
  rw [e75] at hx
  rw [e25] at hy
  refine ⟨jsSub o.x (jsDiv (jsMul imgWidth (jsDiv 150 imgWidth)) 2),
    jsSub o.y (jsDiv (jsMul imgHeight (jsDiv 50 imgHeight)) 2),
    jsMul imgWidth (jsDiv 150 imgWidth), jsMul imgHeight (jsDiv 50 imgHeight),
    ?_, ?_, rfl, rfl, rfl, rfl, hwidth, hheight, hx, hy⟩
  · simp only [handleCanvasClick, hempty, hsig, hpos, and_self, if_true,
      FabricObject.toJSON]
  · simp only [handleCanvasClick, hempty, hsig]

/-- Witness of `placed_signature_is_centred`: a click at (200, 100) with a signature image
of 300 by 120. -/
theorem placed_signature_is_centred_witness :
    ∃ x y width height : ℚ,
      (handleCanvasClick "s9" (some (300, 120)) (sampleOverlay "place_signature")
          ⟨none, 200, 100⟩).allAnnotations
          = (sampleOverlay "place_signature").allAnnotations ++
            [{ id := some "s9", documentId := (sampleOverlay "place_signature").documentId,
               page := (sampleOverlay "place_signature").pageNumber,
               type := "placed_signature", x := x, y := y,
               width := width, height := height, text := none,
               imageData := some "data:image/png;base64,PNGDATA",
               objectData := some ⟨none, none⟩ }]
        ∧ |width - 150| ≤ 150 / 2 ^ 51 ∧ |height - 50| ≤ 50 / 2 ^ 51 :=
  match placed_signature_is_centred "s9" "data:image/png;base64,PNGDATA"
      (sampleOverlay "place_signature") ⟨none, 200, 100⟩ 300 120 rfl rfl
      (by norm_num) (by norm_num) with
  | ⟨x, y, width, height, h, _, _, _, _, _, hwidth, hheight, _, _⟩ =>
    ⟨x, y, width, height, h, hwidth, hheight⟩

/-- Claim C17 as stated fails: for a signature image of 73 by 11 and a pointer-down at
(200, 100) the scale factors are the doubles nearest to 150/73 and 50/11, and the
annotation gets the width `150 + 2 ^ (-45)`, the height `50 + 2 ^ (-47)` and the corner
`(125 - 2 ^ (-46), 75)`: the width is not 150, the height is not 50 and `x` is not
`px - 75`. -/
theorem placed_signature_off_by_rounding :
    (handleCanvasClick "s9" (some (73, 11)) (sampleOverlay "place_signature")
        ⟨none, 200, 100⟩).allAnnotations
        = [sampleFieldEntry,
            { id := some "s9", documentId := some "doc1", page := 1,
              type := "placed_signature", x := 125 - 1 / 2 ^ 46, y := 75,
              width := 150 + 1 / 2 ^ 45, height := 50 + 1 / 2 ^ 47, text := none,
              imageData := some "data:image/png;base64,PNGDATA",
              objectData := some ⟨none, none⟩ }]
      ∧ (150 : ℚ) + 1 / 2 ^ 45 ≠ 150 ∧ (50 : ℚ) + 1 / 2 ^ 47 ≠ 50
      ∧ (125 : ℚ) - 1 / 2 ^ 46 ≠ 200 - 75 := by
  have hsx : jsDiv 150 73 = 1156746479632833 / 562949953421312 := by
    rw [jsDiv, toDouble_eq_of (150 / 73) 1 4626985918531332 (by norm_num) (by norm_num)
      (by norm_num) (by norm_num)]
    norm_num
  have hwidth : jsMul 73 (1156746479632833 / 562949953421312) = 150 + 1 / 2 ^ 45 := by
    rw [jsMul, toDouble_eq_of _ 7 5277655813324801 (by norm_num) (by norm_num)
      (by norm_num) (by norm_num)]
    norm_num
  have hhalfw : jsDiv (150 + 1 / 2 ^ 45) 2 = 75 + 1 / 2 ^ 46 := by
    rw [jsDiv, toDouble_eq_of _ 6 5277655813324801 (by norm_num) (by norm_num)
      (by norm_num) (by norm_num)]
    norm_num
  have hleft : jsSub 200 (75 + 1 / 2 ^ 46) = 125 - 1 / 2 ^ 46 := by
    rw [jsSub, toDouble_eq_of _ 6 8796093022207999 (by norm_num) (by norm_num)
      (by norm_num) (by norm_num)]
    norm_num
  have hsy : jsDiv 50 11 = 5117726849284655 / 1125899906842624 := by
    rw [jsDiv, toDouble_eq_of (50 / 11) 2 5117726849284655 (by norm_num) (by norm_num)
      (by norm_num) (by norm_num)]
    norm_num
  have hheight : jsMul 11 (5117726849284655 / 1125899906842624) = 50 + 1 / 2 ^ 47 := by
    rw [jsMul, toDouble_eq_of _ 5 7036874417766401 (by norm_num) (by norm_num)
      (by norm_num) (by norm_num)]
    norm_num
  have hhalfh : jsDiv (50 + 1 / 2 ^ 47) 2 = 25 + 1 / 2 ^ 48 := by
    rw [jsDiv, toDouble_eq_of _ 4 7036874417766401 (by norm_num) (by norm_num)
      (by norm_num) (by norm_num)]
    norm_num
  have htop : jsSub 100 (25 + 1 / 2 ^ 48) = 75 := by
    rw [jsSub, toDouble_eq_of _ 6 5277655813324800 (by norm_num) (by norm_num)
      (by norm_num) (by norm_num)]
    norm_num
  refine ⟨?_, by norm_num, by norm_num, by norm_num⟩
  have hpos : (73 : ℚ) > 0 ∧ (11 : ℚ) > 0 := ⟨by norm_num, by norm_num⟩
  have hsig : truthyString (sampleOverlay "place_signature").userSignature
      = some "data:image/png;base64,PNGDATA" := rfl
  simp only [handleCanvasClick, hsig, hpos, and_self, if_true, hsx, hwidth, hhalfw, hleft,
    hsy, hheight, hhalfh, htop, FabricObject.toJSON]
  rfl

theorem updateFromObject_keeps (object : FabricObject) (ann : ClientAnnotation) :
    (updateFromObject object ann).id = ann.id
      ∧ (updateFromObject object ann).page = ann.page
      ∧ (updateFromObject object ann).type = ann.type
      ∧ (updateFromObject object ann).documentId = ann.documentId
      ∧ (updateFromObject object ann).imageData = ann.imageData := by
  refine ⟨rfl, rfl, rfl, rfl, ?_⟩
  simp only [updateFromObject]
  by_cases hname : object.name = "placed_signature"
  · simp only [hname, if_true]
    cases hd : ann.imageData with
    | none => simp [truthyString]
    | some d =>
      by_cases he : d = ""
      · simp [truthyString, he]
      · simp [truthyString, he]
  · simp [hname, truthyString]

/-- Claim C18: for a modified object with an id, the `object:modified` handler maps the
collection position by position: an annotation whose id is the object's id and whose page
is the current page is replaced by its update from the object, every other annotation is
kept as it is, so length and order are kept; the update keeps id, page, type, documentId
and image data and takes position and size from the object; and exactly one save is
issued, with the whole updated collection. -/
theorem object_modified_updates_in_place (s : OverlayState) (object : FabricObject)
    (id : String) (hid : object.id = some id) (hne : id ≠ "") :
    (onObjectModified s object).allAnnotations.length = s.allAnnotations.length
      ∧ (∀ (i : Nat) (ann : ClientAnnotation), s.allAnnotations[i]? = some ann →
          ((ann.id = some id ∧ ann.page = s.pageNumber) →
              (onObjectModified s object).allAnnotations[i]?
                = some (updateFromObject object ann))
            ∧ (¬ (ann.id = some id ∧ ann.page = s.pageNumber) →
              (onObjectModified s object).allAnnotations[i]? = some ann))
      ∧ (∀ ann : ClientAnnotation,
          (updateFromObject object ann).id = ann.id
            ∧ (updateFromObject object ann).page = ann.page
            ∧ (updateFromObject object ann).type = ann.type
            ∧ (updateFromObject object ann).documentId = ann.documentId
            ∧ (updateFromObject object ann).imageData = ann.imageData
            ∧ (updateFromObject object ann).x = object.left
            ∧ (updateFromObject object ann).y = object.top
            ∧ (updateFromObject object ann).width
                = object.width * scaleOrOne object.scaleX
            ∧ (updateFromObject object ann).height
                = object.height * scaleOrOne object.scaleY)
      ∧ (onObjectModified s object).saved
          = s.saved ++ [(onObjectModified s object).allAnnotations] := by
  have htruthy : truthyString object.id = some id := by simp [truthyString, hid, hne]
  have hrun : onObjectModified s object
      = { s with
          allAnnotations := s.allAnnotations.map (fun ann =>
            if ann.id = object.id ∧ ann.page = s.pageNumber then
              updateFromObject object ann
            else ann),
          saved := s.saved ++ [s.allAnnotations.map (fun ann =>
            if ann.id = object.id ∧ ann.page = s.pageNumber then
              updateFromObject object ann
            else ann)] } := by
    simp only [onObjectModified, htruthy]
  rw [hrun]
  refine ⟨by simp, ?_, ?_, rfl⟩
  · intro i ann hget
    simp only [List.getElem?_map, hget, Option.map_some', hid]
    constructor
    · intro h; simp [h]
    · intro h; simp [h]
  · intro ann
    obtain ⟨h1, h2, h3, h4, h5⟩ := updateFromObject_keeps object ann
    exact ⟨h1, h2, h3, h4, h5, rfl, rfl, rfl, rfl⟩

/-- Witness of `object_modified_updates_in_place`: the sample field moved to the left edge
77 in `view` mode. -/
theorem object_modified_updates_in_place_witness :
    (onObjectModified (sampleOverlay "view")
        { sampleFieldObject with left := 77 }).allAnnotations.length
      = (sampleOverlay "view").allAnnotations.length :=
  (object_modified_updates_in_place (sampleOverlay "view")
    { sampleFieldObject with left := 77 } "f1" rfl (by decide)).1

/-- Claim C19 at its failing inputs: in `signature_field`, `text_field` and
`place_signature` mode `initializeFabricCanvas` attaches the handlers of the mode only, so
firing `object:modified` for the sample field moved to 77 changes nothing and saves
nothing; in `view` mode the handler is attached and the annotation is updated and saved. -/
theorem object_modified_unattached_in_drawing_modes :
    attachedListeners (sampleOverlay "signature_field")
        = [CanvasEvent.mouseDown, CanvasEvent.mouseMove, CanvasEvent.mouseUp]
      ∧ attachedListeners (sampleOverlay "text_field") = [CanvasEvent.mouseDblclick]
      ∧ attachedListeners (sampleOverlay "place_signature") = [CanvasEvent.mouseDown]
      ∧ attachedListeners (sampleOverlay "view") = [CanvasEvent.objectModified]
      ∧ fireObjectModified (sampleOverlay "signature_field")
          { sampleFieldObject with left := 77 } = sampleOverlay "signature_field"
      ∧ fireObjectModified (sampleOverlay "text_field")
          { sampleFieldObject with left := 77 } = sampleOverlay "text_field"
      ∧ fireObjectModified (sampleOverlay "place_signature")
          { sampleFieldObject with left := 77 } = sampleOverlay "place_signature"
      ∧ (fireObjectModified (sampleOverlay "view")
          { sampleFieldObject with left := 77 }).allAnnotations
          = [{ sampleFieldEntry with x := 77 }]
      ∧ (fireObjectModified (sampleOverlay "view")
          { sampleFieldObject with left := 77 }).saved
          = [[{ sampleFieldEntry with x := 77 }]] := by
  have hview : (fireObjectModified (sampleOverlay "view")
      { sampleFieldObject with left := 77 }).allAnnotations
      = [{ sampleFieldEntry with x := 77 }] := by
    have hl : CanvasEvent.objectModified ∈ attachedListeners (sampleOverlay "view") := by
      decide
    simp only [fireObjectModified, hl, if_true]
    simp [onObjectModified, truthyString, sampleFieldObject, sampleOverlay, initialOverlay,
      sampleFieldEntry, updateFromObject, scaleOrOne, FabricObject.toJSON]
  have hsaved : (fireObjectModified (sampleOverlay "view")
      { sampleFieldObject with left := 77 }).saved
      = [(fireObjectModified (sampleOverlay "view")
          { sampleFieldObject with left := 77 }).allAnnotations] := rfl
  refine ⟨by decide, by decide, by decide, by decide, rfl, rfl, rfl, hview, ?_⟩
  rw [hsaved, hview]

/-- Claim C21: loading the annotations of a document, which is the effect on `fileUrl` /
`documentId` with its call of `fetchAnnotations`, never leaves the previous working
collection in place: the state it ends in is the same for every prior collection.  The
collection is then the one of the response when the fetch is delivered and the response is
OK, which for a requester who owns the document is the stored collection; it is empty when
there is no document id, when `fetch` throws, when the response is not OK, and when no
token is stored.  Called on its own, `fetchAnnotations` gives the same collections whenever
there is no document id or a token is stored. -/
theorem load_replaces_collection (env : Env) (delivered : Bool) (fileUrl : Option String)
    (v : ViewerState) (st : ServerState) :
    (∀ prior : List Annotation,
        loadDocument env delivered fileUrl { v with allAnnotations := prior } st
          = loadDocument env delivered fileUrl v st)
      ∧ (truthyString v.documentId = none →
          (loadDocument env delivered fileUrl v st).allAnnotations = []
            ∧ (fetchAnnotations env delivered v st).allAnnotations = [])
      ∧ (truthyString v.token = none →
          (loadDocument env delivered fileUrl v st).allAnnotations = [])
      ∧ ∀ documentId token : String, truthyString v.documentId = some documentId →
          truthyString v.token = some token →
          (delivered = false →
              (loadDocument env delivered fileUrl v st).allAnnotations = []
                ∧ (fetchAnnotations env delivered v st).allAnnotations = [])
            ∧ (delivered = true →
                ∀ response : Response,
                  (authenticated env (some ("Bearer " ++ token)) st
                    (fun userId => getAnnotationsRoute st userId documentId)).1 = response →
                  (¬ (200 ≤ response.status ∧ response.status ≤ 299) →
                    (loadDocument env delivered fileUrl v st).allAnnotations = []
                      ∧ (fetchAnnotations env delivered v st).allAnnotations = [])
                  ∧ ∀ data : List Annotation,
                      200 ≤ response.status ∧ response.status ≤ 299 →
                      response.body = Body.annotationList data →
                      (loadDocument env delivered fileUrl v st).allAnnotations = data
                        ∧ (fetchAnnotations env delivered v st).allAnnotations = data)
            ∧ ∀ (userId : String) (document : DocumentRecord),
                delivered = true →
                verifyToken env (some ("Bearer " ++ token)) = Except.ok userId →
                findOne st.documents documentId userId = some document →
                (loadDocument env delivered fileUrl v st).allAnnotations
                    = document.annotations
                  ∧ (fetchAnnotations env delivered v st).allAnnotations
                    = document.annotations := by
  refine ⟨?_, ?_, ?_, ?_⟩
  · intro prior
    rfl
  · intro hdoc
    constructor
    · simp [loadDocument, hdoc]
    · simp [fetchAnnotations, hdoc]
  · intro htoken
    cases hdoc : truthyString v.documentId with
    | none => simp [loadDocument, hdoc]
    | some documentId => simp [loadDocument, fetchAnnotations, hdoc, htoken]
  · intro documentId token hdoc htoken
    refine ⟨?_, ?_, ?_⟩
    · intro hd
      constructor
      · simp [loadDocument, fetchAnnotations, hdoc, htoken, hd]
      · simp [fetchAnnotations, hdoc, htoken, hd]
    · intro hd response hresponse
      refine ⟨?_, ?_⟩
      · intro hnot
        constructor
        · simp only [loadDocument, fetchAnnotations, hdoc, htoken, hd, if_true, hresponse,
            if_neg hnot]
        · simp only [fetchAnnotations, hdoc, htoken, hd, if_true, hresponse, if_neg hnot]
      · intro data hok hbody
        constructor
        · simp only [loadDocument, fetchAnnotations, hdoc, htoken, hd, if_true, hresponse,
            if_pos hok, hbody]
        · simp only [fetchAnnotations, hdoc, htoken, hd, if_true, hresponse, if_pos hok,
            hbody]
    · intro userId document hd hauth hfind
      constructor
      · simp [loadDocument, fetchAnnotations, hdoc, htoken, hd, authenticated, hauth,
          getAnnotationsRoute, hfind]
      · simp [fetchAnnotations, hdoc, htoken, hd, authenticated, hauth, getAnnotationsRoute,
          hfind]

/-- Witness of `load_replaces_collection`: the viewer of `alice`, holding a signature field,
loads the sample document, whose stored collection is one text field; and the same viewer
without a stored token ends with the empty collection. -/
theorem load_replaces_collection_witness :
    (loadDocument sampleEnv true (some "http://localhost:5000/uploads/17-contract.pdf")
        (sampleViewer [sampleSignatureField])
        (sampleServer [specCaseTextField] none false)).allAnnotations = [specCaseTextField]
      ∧ (loadDocument sampleEnv true (some "http://localhost:5000/uploads/17-contract.pdf")
          { sampleViewer [sampleSignatureField] with token := none }
          (sampleServer [specCaseTextField] none false)).allAnnotations = [] :=
  ⟨((load_replaces_collection sampleEnv true
      (some "http://localhost:5000/uploads/17-contract.pdf")
      (sampleViewer [sampleSignatureField])
      (sampleServer [specCaseTextField] none false)).2.2.2
      "doc1" "alice-token" rfl rfl).2.2 "alice"
      (sampleDocument [specCaseTextField] none false) rfl rfl rfl |>.1,
    (load_replaces_collection sampleEnv true
      (some "http://localhost:5000/uploads/17-contract.pdf")
      { sampleViewer [sampleSignatureField] with token := none }
      (sampleServer [specCaseTextField] none false)).2.2.1 rfl⟩

/-- Claim C22: while `isFinalizing` holds, `handleFinalizeDocument` returns at its guard:
whatever the environment and whatever would happen to a request, the viewer state and the
server state are the ones it was called with, so neither the save request nor the finalize
request reaches the server. -/
theorem finalize_guard_rejects_second_call (env : Env) (saveDelivered finalizeDelivered : Bool)
    (v : ViewerState) (st : ServerState) (hbusy : v.isFinalizing = true) :
    handleFinalizeDocument env saveDelivered finalizeDelivered v st = (v, st) := by
  unfold handleFinalizeDocument
  cases truthyString v.documentId with
  | none => rfl
  | some documentId => simp [hbusy]

/-- Witness of `finalize_guard_rejects_second_call`: the viewer of `alice` with a finalize
request outstanding, on a server where both requests would succeed. -/
theorem finalize_guard_rejects_second_call_witness :
    handleFinalizeDocument sampleEnv true true
        { sampleViewer [specCaseTextField] with isFinalizing := true }
        (sampleServer [] none false)
      = ({ sampleViewer [specCaseTextField] with isFinalizing := true },
          sampleServer [] none false) :=
  finalize_guard_rejects_second_call sampleEnv true true
    { sampleViewer [specCaseTextField] with isFinalizing := true }
    (sampleServer [] none false) rfl

/-- Claim C23: a run of `handleFinalizeDocument` that passes the guard (a document id, no
request outstanding) raises `isFinalizing` at line 153 and runs the rest of the callback
from that state.  From whatever state the rest is run and whatever the outcome, it ends
with `isFinalizing` false; and when the token is missing, when the finalize `fetch` throws
or when the response is not OK, it changes nothing else of the viewer state.  So the run as
a whole ends in the viewer state it started in on each of these failures: working
collection, mode and displayed URL are unchanged. -/
theorem finalize_run_ends_idle (env : Env) (saveDelivered finalizeDelivered : Bool)
    (v : ViewerState) (st : ServerState) (documentId : String)
    (hdoc : truthyString v.documentId = some documentId)
    (hidle : v.isFinalizing = false) :
    handleFinalizeDocument env saveDelivered finalizeDelivered v st
        = finishFinalize env saveDelivered finalizeDelivered documentId (beginFinalize v) st
      ∧ (beginFinalize v).isFinalizing = true
      ∧ (∀ w : ViewerState,
          (finishFinalize env saveDelivered finalizeDelivered documentId w st).1.isFinalizing
            = false)
      ∧ (∀ w : ViewerState,
          (truthyString w.token = none →
            finishFinalize env saveDelivered finalizeDelivered documentId w st
              = ({ w with isFinalizing := false }, st))
          ∧ ∀ token : String, truthyString w.token = some token →
              (finalizeDelivered = false →
                (finishFinalize env saveDelivered finalizeDelivered documentId w st).1
                  = { w with isFinalizing := false })
              ∧ (finalizeDelivered = true →
                  ¬ (200 ≤ (authenticated env (some ("Bearer " ++ token))
                        (saveAnnotations env saveDelivered w st w.allAnnotations)
                        (fun userId => finalizeRoute env
                          (saveAnnotations env saveDelivered w st w.allAnnotations)
                          userId documentId)).1.status
                      ∧ (authenticated env (some ("Bearer " ++ token))
                        (saveAnnotations env saveDelivered w st w.allAnnotations)
                        (fun userId => finalizeRoute env
                          (saveAnnotations env saveDelivered w st w.allAnnotations)
                          userId documentId)).1.status ≤ 299) →
                  (finishFinalize env saveDelivered finalizeDelivered documentId w st).1
                    = { w with isFinalizing := false }))
      ∧ (truthyString v.token = none →
          handleFinalizeDocument env saveDelivered finalizeDelivered v st = (v, st))
      ∧ ∀ token : String, truthyString v.token = some token →
          (finalizeDelivered = false →
            (handleFinalizeDocument env saveDelivered finalizeDelivered v st).1 = v)
          ∧ (finalizeDelivered = true →
              ¬ (200 ≤ (authenticated env (some ("Bearer " ++ token))
                    (saveAnnotations env saveDelivered v st v.allAnnotations)
                    (fun userId => finalizeRoute env
                      (saveAnnotations env saveDelivered v st v.allAnnotations)
                      userId documentId)).1.status
                  ∧ (authenticated env (some ("Bearer " ++ token))
                    (saveAnnotations env saveDelivered v st v.allAnnotations)
                    (fun userId => finalizeRoute env
                      (saveAnnotations env saveDelivered v st v.allAnnotations)
                      userId documentId)).1.status ≤ 299) →
              (handleFinalizeDocument env saveDelivered finalizeDelivered v st).1 = v) := by
  have hv : { v with isFinalizing := false } = v := by
    cases v
    simp only at hidle
    subst hidle
    rfl
  have hrest : ∀ w : ViewerState,
      (truthyString w.token = none →
        finishFinalize env saveDelivered finalizeDelivered documentId w st
          = ({ w with isFinalizing := false }, st))
      ∧ ∀ token : String, truthyString w.token = some token →
          (finalizeDelivered = false →
            (finishFinalize env saveDelivered finalizeDelivered documentId w st).1
              = { w with isFinalizing := false })
          ∧ (finalizeDelivered = true →
              ¬ (200 ≤ (authenticated env (some ("Bearer " ++ token))
                    (saveAnnotations env saveDelivered w st w.allAnnotations)
                    (fun userId => finalizeRoute env
                      (saveAnnotations env saveDelivered w st w.allAnnotations)
                      userId documentId)).1.status
                  ∧ (authenticated env (some ("Bearer " ++ token))
                    (saveAnnotations env saveDelivered w st w.allAnnotations)
                    (fun userId => finalizeRoute env
                      (saveAnnotations env saveDelivered w st w.allAnnotations)
                      userId documentId)).1.status ≤ 299) →
              (finishFinalize env saveDelivered finalizeDelivered documentId w st).1
                = { w with isFinalizing := false }) := by
    intro w
    refine ⟨?_, ?_⟩
    · intro htoken
      simp [finishFinalize, htoken]
    · intro token htoken
      refine ⟨?_, ?_⟩
      · intro hd
        simp [finishFinalize, htoken, hd]
      · intro hd hnot
        simp only [finishFinalize, htoken, hd, if_true, if_neg hnot]
  have hrun : handleFinalizeDocument env saveDelivered finalizeDelivered v st
      = finishFinalize env saveDelivered finalizeDelivered documentId (beginFinalize v) st := by
    simp [handleFinalizeDocument, hdoc, hidle]
  refine ⟨hrun, rfl, ?_, hrest, ?_, ?_⟩
  · intro w
    unfold finishFinalize
    cases truthyString w.token with
    | none => rfl
    | some token =>
      cases finalizeDelivered with
      | false => rfl
      | true =>
        simp only [if_true]
        split <;> rfl
  · intro htoken
    rw [hrun, (hrest (beginFinalize v)).1 htoken]
    exact congrArg (fun x => (x, st)) hv
  · intro token htoken
    refine ⟨?_, ?_⟩
    · intro hd
      rw [hrun, ((hrest (beginFinalize v)).2 token htoken).1 hd]
      exact hv
    · intro hd hnot
      rw [hrun, ((hrest (beginFinalize v)).2 token htoken).2 hd hnot]
      exact hv

/-- Witness of `finalize_run_ends_idle`: the viewer of `alice` asks to finalize a document
whose original file is missing on the server; the route answers 404 and the viewer state is
unchanged. -/
theorem finalize_run_ends_idle_witness :
    (handleFinalizeDocument sampleEnv true true (sampleViewer [specCaseTextField])
        { sampleServer [] none false with files := [] }).1
      = sampleViewer [specCaseTextField] :=
  ((finalize_run_ends_idle sampleEnv true true (sampleViewer [specCaseTextField])
      { sampleServer [] none false with files := [] } "doc1" rfl rfl).2.2.2.2.2
    "alice-token" rfl).2 rfl (by decide)

/-- Claim C26: for a document `d`, the only record of the collection with its id, and an
authenticated requester `u` who is not its owner, the load, save and finalize routes each
answer 404 with a message, which carries none of the annotations of `d`, and leave the
server state, hence the record of `d` and the files, as they were. -/
theorem non_owner_is_refused (env : Env) (st : ServerState) (d : DocumentRecord)
    (u : String) (authorization : Option String) (annotations : List Annotation)
    (hunique : ∀ other ∈ st.documents, other._id = d._id → other = d)
    (hauth : verifyToken env authorization = Except.ok u)
    (howner : d.owner ≠ u) :
    authenticated env authorization st (fun userId => getAnnotationsRoute st userId d._id)
        = (⟨404, Body.message "Document not found or you do not have permission."⟩, st)
      ∧ authenticated env authorization st
          (fun userId => saveAnnotationsRoute env st userId d._id annotations)
        = (⟨404, Body.message "Document not found or you do not have permission."⟩, st)
      ∧ authenticated env authorization st (fun userId => finalizeRoute env st userId d._id)
        = (⟨404, Body.message "Document not found or you do not have permission."⟩, st) := by
  have hfind := findOne_non_owner st.documents d u hunique howner
  refine ⟨?_, ?_, ?_⟩
  · simp [authenticated, hauth, getAnnotationsRoute, hfind]
  · simp [authenticated, hauth, saveAnnotationsRoute, hfind]
  · simp [authenticated, hauth, finalizeRoute, hfind]

/-- Witness of `non_owner_is_refused`: with a token that belongs to `bob`, the finalize
request for the document of `alice` is refused. -/
theorem non_owner_is_refused_witness :
    authenticated { sampleEnv with jwtVerify := fun _ => some "bob" } (some "Bearer bob-token")
        (sampleServer [specCaseTextField] none false)
        (fun userId => finalizeRoute { sampleEnv with jwtVerify := fun _ => some "bob" }
          (sampleServer [specCaseTextField] none false) userId "doc1")
      = (⟨404, Body.message "Document not found or you do not have permission."⟩,
          sampleServer [specCaseTextField] none false) :=
  (non_owner_is_refused { sampleEnv with jwtVerify := fun _ => some "bob" }
    (sampleServer [specCaseTextField] none false)
    (sampleDocument [specCaseTextField] none false) "bob" (some "Bearer bob-token") []
    (by
      intro other hother _
      simpa [sampleServer] using hother)
    rfl (by decide)).2.2

/-- Claim C27: on the pages the finalize route builds from the sizes of the loaded PDF,
every draw operation on page `i + 1`, of width `Wn` and height `Hn`, comes from an
annotation of the collection with that page number and is a text drawn at `x`,
`Hn - (y + height)` with the annotation's width as maximum width, or an image drawn at `x`,
`Hn - (y + height)` with the annotation's width and height; this is the box of the
transform of the specification for the render size `(Wn, Hn)`. -/
theorem finalize_draws_bottom_left_unscaled (lib : ImageLib) (anns : List Annotation)
    (sizes : List (ℚ × ℚ)) (i : Nat) (Wn Hn : ℚ) (flat : PdfPage)
    (hsize : sizes[i]? = some (Wn, Hn))
    (hflat : (flattenPages lib anns (sizes.map (fun size => ⟨size.1, size.2, []⟩)))[i]?
      = some flat) :
    ∀ op ∈ flat.drawn, ∃ a ∈ anns, a.page = (i : ℚ) + 1
      ∧ ((∃ (text : String) (size : ℚ),
            op = DrawOp.drawText text a.x (Hn - (a.y + a.height))
              StandardFonts.Helvetica size (rgb 0 0 0) a.width)
          ∨ ∃ image : PdfImage,
              op = DrawOp.drawImage image a.x (Hn - (a.y + a.height)) a.width a.height)
      ∧ (0 < Wn → 0 < Hn →
          op.placedAt (specNativeBox Wn Hn Wn Hn a.x a.y a.width a.height)) := by
  rw [flattenPages_getElem?, List.getElem?_map, hsize] at hflat
  simp only [Option.map_some', Option.some.injEq] at hflat
  subst hflat
  intro op hop
  simp only [List.nil_append, List.mem_flatMap] at hop
  obtain ⟨a, ha, hop⟩ := hop
  simp only [annotationsOnPage, List.mem_filter, decide_eq_true_eq] at ha
  have hshape := drawOpsOf_shape lib ⟨Wn, Hn, []⟩ a op hop
  refine ⟨a, ha.1, ha.2, hshape, ?_⟩
  intro hW hH
  rw [specNativeBox_native Wn Hn a.x a.y a.width a.height hW hH]
  rcases hshape with ⟨text, size, h⟩ | ⟨image, h⟩
  · subst h
    simp [DrawOp.placedAt]
  · subst h
    simp [DrawOp.placedAt]

/-- Witness of `finalize_draws_bottom_left_unscaled`: the text field with geometry
(100, 50, 150, 50) on a US-letter page is drawn at (100, 792 - (50 + 50)), the box of the
transform for the render size 612 by 792. -/
theorem finalize_draws_bottom_left_unscaled_witness :
    (DrawOp.drawText "Signed" 100 692 StandardFonts.Helvetica 16 (rgb 0 0 0) 150).placedAt
      (specNativeBox 612 792 612 792 100 50 150 50) := by
  obtain ⟨a, ha, _, _, hplaced⟩ :=
    finalize_draws_bottom_left_unscaled sampleLib [specCaseTextField] [(612, 792)] 0 612 792
      ⟨612, 792,
        [DrawOp.drawText "Signed" 100 692 StandardFonts.Helvetica 16 (rgb 0 0 0) 150]⟩
      rfl
      (by
        simp [flattenPages, flattenFrom, annotationsOnPage, drawOnPage, specCaseTextField,
          truthyText, PdfPage.drawText, yFromBottom, fontSizeOrDefault]
        norm_num)
      (DrawOp.drawText "Signed" 100 692 StandardFonts.Helvetica 16 (rgb 0 0 0) 150)
      (List.mem_singleton.2 rfl)
  rw [List.mem_singleton] at ha
  subst ha
  exact hplaced (by norm_num) (by norm_num)

/-- Claim C29: the path of the finalized artifact depends on the file name of the document
only.  When a document `d1` has been finalized and a document `d2` with the same file name
is finalized next, both responses carry the same URL, and the file at the path the first
run wrote now holds the flattened bytes of `d2`. -/
theorem finalized_path_depends_on_file_name (env : Env) (st : ServerState)
    (u1 id1 u2 id2 : String) (d1 d2 : DocumentRecord)
    (hd1 : findOne st.documents id1 u1 = some d1)
    (hok1 : (finalizeRoute env st u1 id1).1.status = 200)
    (hd2 : findOne (finalizeRoute env st u1 id1).2.documents id2 u2 = some d2)
    (hname : d2.fileName = d1.fileName)
    (hok2 : (finalizeRoute env (finalizeRoute env st u1 id1).2 u2 id2).1.status = 200) :
    newFilePath env d2 = newFilePath env d1
      ∧ (∃ out1 : Bytes,
          readFile (finalizeRoute env st u1 id1).2.files
            (env.pathJoin [env.dirname, "..", newFilePath env d1]) = some out1)
      ∧ (∃ (bytes2 out2 : Bytes) (sizes2 : List (ℚ × ℚ)),
          readFile (finalizeRoute env st u1 id1).2.files
              (env.pathJoin [env.dirname, "..", d2.filePath]) = some bytes2
            ∧ env.loadPdf bytes2 = some sizes2
            ∧ env.savePdf bytes2 (flattenPages env.lib d2.annotations
                (sizes2.map (fun size => ⟨size.1, size.2, []⟩))) = some out2
            ∧ readFile (finalizeRoute env (finalizeRoute env st u1 id1).2 u2 id2).2.files
                (env.pathJoin [env.dirname, "..", newFilePath env d1]) = some out2)
      ∧ (finalizeRoute env st u1 id1).1.body
          = Body.finalized "Document finalized successfully!"
              ("http://localhost:5000/" ++ newFilePath env d1) d1._id
      ∧ (finalizeRoute env (finalizeRoute env st u1 id1).2 u2 id2).1.body
          = Body.finalized "Document finalized successfully!"
              ("http://localhost:5000/" ++ newFilePath env d1) d2._id := by
  have hpath : newFilePath env d2 = newFilePath env d1 := by
    simp [newFilePath, hname]
  obtain ⟨e1, b1, o1, s1, he1, _, _, _, hrun1⟩ := finalizeRoute_ok env st u1 id1 hok1
  rw [hd1] at he1
  cases he1
  obtain ⟨e2, b2, o2, s2, he2, hread2, hload2, hsave2, hrun2⟩ :=
    finalizeRoute_ok env (finalizeRoute env st u1 id1).2 u2 id2 hok2
  rw [hd2] at he2
  cases he2
  refine ⟨hpath, ⟨o1, ?_⟩, ⟨b2, o2, s2, hread2, hload2, hsave2, ?_⟩, ?_, ?_⟩
  · rw [hrun1]
    exact readFile_writeFile _ _ _
  · rw [hrun2, hpath]
    exact readFile_writeFile _ _ _
  · rw [hrun1]
  · rw [hrun2, hpath]

/-- Witness of `finalized_path_depends_on_file_name`: `alice` and `bob` have each uploaded
a file named `contract.pdf`; after `alice` and then `bob` have finalized, the artifact at
`uploads/finalized_contract.pdf` is the one of `bob`. -/
theorem finalized_path_depends_on_file_name_witness :
    newFilePath sampleEnv
        { sampleDocument [] none false with
          _id := "doc2", filePath := "/uploads/18-contract.pdf", owner := "bob" }
        = newFilePath sampleEnv (sampleDocument [specCaseTextField] none false)
      ∧ readFile (finalizeRoute sampleEnv twoUploadsServer "alice" "doc1").2.files
          "/srv/server/uploads/finalized_contract.pdf" = some [37, 80, 68, 70, 1]
      ∧ readFile (finalizeRoute sampleEnv
            (finalizeRoute sampleEnv twoUploadsServer "alice" "doc1").2 "bob" "doc2").2.files
          "/srv/server/uploads/finalized_contract.pdf" = some [37, 80, 68, 70, 10, 0] := by
  have hflat : flattenPages sampleLib [specCaseTextField] [⟨612, 792, []⟩]
      = [⟨612, 792,
          [DrawOp.drawText "Signed" 100 692 StandardFonts.Helvetica 16 (rgb 0 0 0) 150]⟩] := by
    simp [flattenPages, flattenFrom, annotationsOnPage, drawOnPage, specCaseTextField,
      truthyText, PdfPage.drawText, yFromBottom, fontSizeOrDefault]
    norm_num
  have hrun1 := finalizeRoute_of_no_throw sampleEnv twoUploadsServer "alice" "doc1"
    (sampleDocument [specCaseTextField] none false) rfl rfl
  have hfind2 : findOne (finalizeRoute sampleEnv twoUploadsServer "alice" "doc1").2.documents
      "doc2" "bob"
      = some { sampleDocument [] none false with
          _id := "doc2", filePath := "/uploads/18-contract.pdf", owner := "bob" } := by
    rw [hrun1]
    rfl
  have hrun2 := finalizeRoute_of_no_throw sampleEnv
    (finalizeRoute sampleEnv twoUploadsServer "alice" "doc1").2 "bob" "doc2" _ hfind2 rfl
  have hfirst : readFile (finalizeRoute sampleEnv twoUploadsServer "alice" "doc1").2.files
      "/srv/server/uploads/finalized_contract.pdf"
      = some ([37, 80, 68, 70]
          ++ (flattenPages sampleLib [specCaseTextField] [⟨612, 792, []⟩]).map
            (fun page => page.drawn.length)) := by
    rw [hrun1]
    rfl
  refine ⟨(finalized_path_depends_on_file_name sampleEnv twoUploadsServer
    "alice" "doc1" "bob" "doc2" (sampleDocument [specCaseTextField] none false)
    { sampleDocument [] none false with
      _id := "doc2", filePath := "/uploads/18-contract.pdf", owner := "bob" }
    rfl (by rw [hrun1]; rfl) hfind2 rfl (by rw [hrun2, hrun1]; rfl)).1, ?_, ?_⟩
  · rw [hfirst, hflat]
    rfl
  · rw [hrun2, hrun1]
    rfl

/-- Claim C24, as the code has it: page navigation keeps the current page number within
`1..numPages`; every annotation a gesture handler appends carries the current page number
and the `object:modified` handler keeps page numbers, so a working collection whose page
numbers lie within `1..numPages` stays so under the gesture handlers; the save-annotations
route checks no page number and stores whatever collection the owner sends. -/
theorem gestures_stamp_current_page (numPages : ℚ) (s : OverlayState)
    (hpages : 1 ≤ numPages)
    (hpage : 1 ≤ s.pageNumber ∧ s.pageNumber ≤ numPages)
    (hheld : ∀ a ∈ s.allAnnotations, 1 ≤ a.page ∧ a.page ≤ numPages) :
    (1 ≤ goToNextPage numPages s.pageNumber ∧ goToNextPage numPages s.pageNumber ≤ numPages)
      ∧ (1 ≤ goToPrevPage s.pageNumber ∧ goToPrevPage s.pageNumber ≤ numPages)
      ∧ (1 ≤ pageAfterLoad ∧ pageAfterLoad ≤ numPages)
      ∧ (∀ (uid : String) (imageSize : Option (ℚ × ℚ)) (o : PointerEvent),
          ∀ a ∈ (handleCanvasClick uid imageSize s o).allAnnotations,
            1 ≤ a.page ∧ a.page ≤ numPages)
      ∧ (∀ a ∈ (handleMouseUp s).allAnnotations, 1 ≤ a.page ∧ a.page ≤ numPages)
      ∧ (∀ (uid : String) (measured : ℚ × ℚ) (o : PointerEvent),
          ∀ a ∈ (handleTextFieldDoubleClick uid measured s o).allAnnotations,
            1 ≤ a.page ∧ a.page ≤ numPages)
      ∧ (∀ (object : FabricObject),
          ∀ a ∈ (onObjectModified s object).allAnnotations, 1 ≤ a.page ∧ a.page ≤ numPages)
      ∧ ∀ (env : Env) (st : ServerState) (userId documentId : String)
          (document : DocumentRecord) (annotations : List Annotation),
          findOne st.documents documentId userId = some document →
          env.dbSaveOk { document with annotations := annotations } = true →
          saveAnnotationsRoute env st userId documentId annotations
            = (⟨200, Body.annotationsSaved "Annotations saved successfully" annotations⟩,
                { st with
                  documents :=
                    saveDocument st.documents ({ document with annotations := annotations }) })
    := by
  refine ⟨?_, ?_, ?_, ?_, ?_, ?_, ?_, ?_⟩
  · unfold goToNextPage
    constructor
    · exact le_min (by linarith [hpage.1]) hpages
    · exact min_le_right _ _
  · unfold goToPrevPage
    constructor
    · exact le_max_right _ _
    · exact max_le (by linarith [hpage.2]) hpages
  · exact ⟨le_refl _, hpages⟩
  · intro uid imageSize o
    unfold handleCanvasClick
    split
    · exact pages_in_range_append numPages _ _ hheld hpage
    · exact hheld
  · unfold handleMouseUp
    split
    · exact hheld
    · split
      · exact pages_in_range_append numPages _ _ hheld hpage
      · exact hheld
  · intro uid measured o
    unfold handleTextFieldDoubleClick
    split
    · exact hheld
    · exact pages_in_range_append numPages _ _ hheld hpage
  · intro object
    unfold onObjectModified
    split
    · exact hheld
    · intro a ha
      simp only [List.mem_map] at ha
      obtain ⟨b, hb, hab⟩ := ha
      have hbr := hheld b hb
      split at hab
      · rw [← hab]
        exact hbr
      · rw [← hab]
        exact hbr
  · intro env st userId documentId document annotations hfind hdb
    simp [saveAnnotationsRoute, hfind, hdb]

/-- Witness of `gestures_stamp_current_page`: the sample viewer on page 1 of a two-page
document; the next page is within range, and after a double click in `text_field` mode the
annotation held before is still within range. -/
theorem gestures_stamp_current_page_witness :
    (1 ≤ goToNextPage 2 (sampleOverlay "text_field").pageNumber
        ∧ goToNextPage 2 (sampleOverlay "text_field").pageNumber ≤ 2)
      ∧ (1 ≤ sampleFieldEntry.page ∧ sampleFieldEntry.page ≤ 2) :=
  have h := gestures_stamp_current_page 2 (sampleOverlay "text_field") (by norm_num)
    (by simp [sampleOverlay, initialOverlay])
    (by simp [sampleOverlay, initialOverlay, sampleFieldEntry])
  ⟨h.1, h.2.2.2.2.2.1 "t9" (140, 18) ⟨none, 60, 70⟩ sampleFieldEntry
    (by simp [handleTextFieldDoubleClick, sampleOverlay])⟩

/-- Claim C24 as stated fails: the save-annotations route accepts, for the sample document
whose PDF has one page, an annotation of page 7, stores it, and the load route returns
it. -/
theorem save_accepts_page_out_of_range :
    (sampleEnv.loadPdf [37, 80, 68, 70]).map List.length = some 1
      ∧ saveAnnotationsRoute sampleEnv (sampleServer [] none false) "alice" "doc1"
          [{ specCaseTextField with page := 7 }]
        = (⟨200, Body.annotationsSaved "Annotations saved successfully"
              [{ specCaseTextField with page := 7 }]⟩,
            sampleServer [{ specCaseTextField with page := 7 }] none false)
      ∧ (getAnnotationsRoute
          (sampleServer [{ specCaseTextField with page := 7 }] none false) "alice" "doc1").1
        = ⟨200, Body.annotationList [{ specCaseTextField with page := 7 }]⟩
      ∧ ¬ ({ specCaseTextField with page := 7 } : Annotation).page ≤ ((1 : Nat) : ℚ) := by
  refine ⟨rfl, rfl, rfl, ?_⟩
  norm_num

/-- Claim C25 at its failing input: the working collection holds one annotation, with id
`f1`, so its ids are pairwise distinct, and its field is the active object on the canvas;
the pointer-up handler of `signature_field` mode appends an annotation made from the active
object, and the collection then holds the id `f1` twice. -/
theorem pointer_up_on_selected_field_repeats_id :
    (selectedFieldOverlay.allAnnotations.map (fun a => a.id)).Nodup
      ∧ selectedFieldOverlay.canvas.getActiveObject = some sampleFieldObject
      ∧ (handleMouseUp selectedFieldOverlay).allAnnotations.map (fun a => a.id)
          = [some "f1", some "f1"]
      ∧ ¬ ((handleMouseUp selectedFieldOverlay).allAnnotations.map (fun a => a.id)).Nodup := by
  have hids : (handleMouseUp selectedFieldOverlay).allAnnotations.map (fun a => a.id)
      = [some "f1", some "f1"] := by
    simp [handleMouseUp, selectedFieldOverlay, sampleOverlay, initialOverlay,
      Canvas.getActiveObject, sampleFieldObject, sampleFieldEntry]
    norm_num
  refine ⟨?_, rfl, hids, ?_⟩
  · simp [selectedFieldOverlay, sampleOverlay, sampleFieldEntry]
  · rw [hids]
    simp

/-- Claim C28 at its failing input: in `signature_field` mode a pointer-down on the
existing field, which is the active object, starts no drag and changes nothing; the
pointer-up that follows appends a second annotation made from that field and saves the
extended collection. -/
theorem pointer_up_without_drag_appends_and_saves :
    viewerStep selectedFieldOverlay (ViewerEvent.pointerDown "r1" none ⟨some 0, 30, 40⟩)
        = selectedFieldOverlay
      ∧ selectedFieldOverlay.isDrawing = false
      ∧ (runViewer selectedFieldOverlay
          [ViewerEvent.pointerDown "r1" none ⟨some 0, 30, 40⟩,
           ViewerEvent.pointerUp]).allAnnotations
        = [sampleFieldEntry, sampleFieldEntry]
      ∧ (runViewer selectedFieldOverlay
          [ViewerEvent.pointerDown "r1" none ⟨some 0, 30, 40⟩, ViewerEvent.pointerUp]).saved
        = [[sampleFieldEntry, sampleFieldEntry]] := by
  have hdown : viewerStep selectedFieldOverlay
      (ViewerEvent.pointerDown "r1" none ⟨some 0, 30, 40⟩) = selectedFieldOverlay := by
    rfl
  have hup : handleMouseUp selectedFieldOverlay
      = { selectedFieldOverlay with
          allAnnotations := [sampleFieldEntry, sampleFieldEntry],
          saved := [[sampleFieldEntry, sampleFieldEntry]] } := by
    simp [handleMouseUp, selectedFieldOverlay, sampleOverlay, initialOverlay,
      Canvas.getActiveObject, sampleFieldObject, sampleFieldEntry, scaleOrOne,
      FabricObject.toJSON]
    norm_num
  have hrun : runViewer selectedFieldOverlay
      [ViewerEvent.pointerDown "r1" none ⟨some 0, 30, 40⟩, ViewerEvent.pointerUp]
      = handleMouseUp selectedFieldOverlay := by
    simp only [runViewer, List.foldl_cons, List.foldl_nil, hdown]
    have hattached : CanvasEvent.mouseUp ∈ attachedListeners selectedFieldOverlay := by
      decide
    simp only [viewerStep, hattached, if_true]
  refine ⟨hdown, rfl, ?_, ?_⟩
  · rw [hrun, hup]
  · rw [hrun, hup]

/-- Claim C30 at its failing input: in upload mode, after an image has been uploaded, the
button `Draw Signature` switches to draw mode but `clearCanvas` returns at its first line,
no canvas being mounted: the pad is not marked empty and keeps the uploaded image, and
`saveSignature` then passes the blank canvas to `onSave` although nothing was drawn.  The
button `Upload Signature` pressed in upload mode keeps the uploaded image as well, while
both buttons do clear the pad when pressed in draw mode. -/
theorem switch_from_upload_mode_clears_nothing :
    uploadedPad
        = { initialPad with
            mode := "upload", isEmpty := false,
            uploadedSignature := some "data:image/png;base64,PNGDATA" }
      ∧ clickDrawMode uploadedPad
        = { initialPad with
            mode := "draw", isEmpty := false,
            uploadedSignature := some "data:image/png;base64,PNGDATA" }
      ∧ (saveSignature (clickDrawMode uploadedPad)).saved = [SignatureImage.canvasPng 0]
      ∧ clickUploadMode uploadedPad = uploadedPad
      ∧ clickDrawMode (stopDrawing (draw (startDrawing initialPad))) = initialPad
      ∧ clickUploadMode (stopDrawing (draw (startDrawing initialPad)))
        = { initialPad with mode := "upload" } := by
  refine ⟨by decide, by decide, by decide, by decide, by decide, by decide⟩

end DocuSign
